import Mathlib

/-!
# Banking management system: record store and transaction layer

A shallow embedding of `src/db.c` (with the record layouts of `src/common.h`).

Modelling conventions.

* A table file is the list of its fixed-size records, in file order.  A byte
  offset `off` is represented by the record index `off / sizeof(record)`.
* `int` fields are `Int`s kept in the signed 32-bit range, `long long` fields
  are `Int`s kept in the signed 64-bit range; arithmetic that the C code
  performs on them is wrapped with `wrap32` / `wrap64` (two's complement).
* A `char` buffer is a `List Char`; reading a position past the end of the
  list yields the NUL character, so a list shorter than the capacity of the
  field stands for the NUL-padded buffer.
* System calls are assumed to succeed (`open`, `fcntl`, `pread`, `pwrite`,
  `write`, `fsync`), and a `pwrite` of one record is atomic.  Under the
  whole-file locks every operation is a function from store to store.
* `time(NULL)` is a parameter of the operations that append to the
  transaction log.
* A text formatted by `snprintf` is cut to the capacity of its buffer; bytes
  and characters coincide (ASCII).
* The history operations yield the list of texts handed to `send`; the text
  that `localtime_r` and `strftime` produce for a time is a parameter.
* A loop that the C code may fail to leave takes a `fuel` bound on its number
  of tests and yields `none` when the bound is reached.
-/

namespace Bank

/-! ## Constants and record layouts (`common.h`) -/

def USERNAME_MAX : Nat := 64
def PASSWORD_MAX : Nat := 128

def ROLE_CUSTOMER : Int := 1
def ROLE_EMPLOYEE : Int := 2
def ROLE_MANAGER : Int := 3
def ROLE_ADMIN : Int := 4

def LOAN_PENDING : Int := 0
def LOAN_APPROVED : Int := 1
def LOAN_REJECTED : Int := 2

structure user_record where
  id : Int
  role : Int
  active : Int
  session_active : Int
  username : List Char
  password : List Char
  deriving DecidableEq, Repr

structure account_record where
  id : Int
  user_id : Int
  account_number : Int
  balance : Int
  deriving DecidableEq, Repr

structure loan_record where
  id : Int
  customer_user_id : Int
  assigned_employee_user_id : Int
  amount : Int
  status : Int
  deriving DecidableEq, Repr

/-- The files of the store: three tables and two append-only logs.  The journal
file of `db.c` is `/dev/null`, so it carries no state. -/
structure Store where
  users : List user_record
  accounts : List account_record
  loans : List loan_record
  txn_log : List String
  feedback_log : List String
  deriving DecidableEq, Repr

/-! ## Machine integers -/

def INT32_MAX : Int := 2147483647
def INT64_MAX : Int := 9223372036854775807
def INT64_MIN : Int := -9223372036854775808

/-- Two's-complement reduction of an integer to the range of `int`. -/
def wrap32 (x : Int) : Int := (x + 2147483648) % 4294967296 - 2147483648

/-- Two's-complement reduction of an integer to the range of `long long`. -/
def wrap64 (x : Int) : Int := (x + 9223372036854775808) % 18446744073709551616 - 9223372036854775808

/-- The value is representable as a `long long`. -/
@[reducible] def in_int64 (x : Int) : Prop := INT64_MIN ≤ x ∧ x ≤ INT64_MAX

/-! ## C strings -/

def nul : Char := Char.ofNat 0

/-- The text held by a buffer: its bytes up to the first NUL. -/
def cstr (b : List Char) : List Char := b.takeWhile (fun c => c != nul)

/-- The function `strncmp(a, b, n)`: zero exactly when the two buffers agree up to the first
NUL or up to `n` bytes, whichever comes first. -/
def strncmp : List Char → List Char → Nat → Int
  | _, _, 0 => 0
  | a, b, n + 1 =>
    if a.headD nul ≠ b.headD nul then ((a.headD nul).toNat : Int) - ((b.headD nul).toNat : Int)
    else if a.headD nul = nul then 0
    else strncmp a.tail b.tail n

/-- The function `strncpy(dst, src, n)`: the first `n` bytes of `dst` become the text of
`src` cut at `n` bytes and padded with NULs; the rest of `dst` is kept. -/
def strncpy (dst src : List Char) (n : Nat) : List Char :=
  (cstr src).take n ++ List.replicate (n - ((cstr src).take n).length) nul ++ dst.drop n

/-- A zeroed buffer of the given capacity (`bzero`). -/
def zeroed (cap : Nat) : List Char := List.replicate cap nul

/-! ## Record store: linear scans -/

/-- The `pread` loop shared by all lookups: the first record satisfying `p`,
with its position, scanning from position `off`. -/
def scan_records {α : Type} (p : α → Bool) : List α → Nat → Option (Nat × α)
  | [], _ => none
  | r :: rs, off => if p r then some (off, r) else scan_records p rs (off + 1)

def read_user_by_username (users : List user_record) (username : List Char) :
    Option (Nat × user_record) :=
  scan_records (fun u => strncmp u.username username USERNAME_MAX == 0) users 0

def read_user_by_id (users : List user_record) (uid : Int) : Option (Nat × user_record) :=
  scan_records (fun u => u.id == uid) users 0

def read_account_by_user (accts : List account_record) (uid : Int) :
    Option (Nat × account_record) :=
  scan_records (fun a => a.user_id == uid) accts 0

def read_account_by_account_number (accts : List account_record) (acct_no : Int) :
    Option (Nat × account_record) :=
  scan_records (fun a => a.account_number == acct_no) accts 0

/-- The scan for a loan id that `db_set_loan_status_owned` and its siblings do inline. -/
def read_loan_by_id (loans : List loan_record) (loan_id : Int) : Option (Nat × loan_record) :=
  scan_records (fun l => l.id == loan_id) loans 0

/-- The function `next_id_from_file(fd, rec_sz, id_offset)`: reads the id field of the last
record of the file. -/
def next_id_from_file {α : Type} (tbl : List α) (id_of : α → Int) : Int :=
  match tbl.getLast? with
  | none => 1
  | some r => if id_of r < 0 ∨ id_of r > 10000 then 1 else id_of r + 1

def next_account_number (accts : List account_record) : Int :=
  wrap32 (accts.foldl (fun maxno a => if a.account_number > maxno then a.account_number else maxno) 1000 + 1)

/-- The function `snprintf(buf, cap, ...)` applied to its formatted text: the buffer receives
at most `cap - 1` bytes of it. -/
def snprintf (cap : Nat) (text : String) : String := String.mk (text.toList.take (cap - 1))

/-- The function `append_txn`: one line, formatted into a buffer of 512 bytes, appended to the
transaction log. -/
def append_txn (log : List String) (now account_number : Int) (kind : String)
    (amount new_bal : Int) (note : Option String) : List String :=
  log ++ [snprintf 512 (toString now ++ "|acct=" ++ toString account_number ++ "|" ++ kind ++
    "|amt=" ++ toString amount ++ "|bal=" ++ toString new_bal ++ "|" ++ note.getD "-" ++ "\n")]

/-! ## Journal (stubs in `db.c`) -/

/-- The pre-image record handed to the journal. -/
structure journal_entry where
  kind : Int
  off1 : Nat := 0
  off2 : Nat := 0
  old_bal1 : Int := 0
  old_bal2 : Int := 0
  acct_no1 : Int := 0
  acct_no2 : Int := 0
  user_off1 : Nat := 0
  loan_off1 : Nat := 0
  old_user1 : Option user_record := none
  old_loan1 : Option loan_record := none

/-- The function `journal_write_and_sync`: ignores its arguments and reports success. -/
def journal_write_and_sync (_je : journal_entry) : Int := 0

/-- The function `journal_clear`: reports success. -/
def journal_clear : Int := 0

/-- The function `recover_accounts_from_journal`: returns 0 and touches no file. -/
def recover_accounts_from_journal (s : Store) : Int × Store := (0, s)

/-! ## Ledger operations -/

def db_get_balance (s : Store) (user_id : Int) : Int × Option Int :=
  match read_account_by_user s.accounts user_id with
  | none => (-1, none)
  | some (_, a) => (0, some a.balance)

/-- Result: return code, store afterwards, and `*new_bal` when it is written. -/
def db_deposit (s : Store) (now user_id amount : Int) : Int × Store × Option Int :=
  if amount ≤ 0 then (-1, s, none) else
  match read_account_by_user s.accounts user_id with
  | none => (-1, s, none)
  | some (off, a) =>
    if journal_write_and_sync { kind := 1, off1 := off, old_bal1 := a.balance, acct_no1 := a.account_number } ≠ 0 then
      (-1, s, none)
    else
      let a1 : account_record := { a with balance := wrap64 (a.balance + amount) }
      (0, { s with accounts := s.accounts.set off a1,
                   txn_log := append_txn s.txn_log now a1.account_number "DEPOSIT" amount a1.balance (some "-") },
        some a1.balance)

def db_withdraw (s : Store) (now user_id amount : Int) : Int × Store × Option Int :=
  if amount ≤ 0 then (-1, s, none) else
  match read_account_by_user s.accounts user_id with
  | none => (-1, s, none)
  | some (off, a) =>
    if a.balance < amount then (-1, s, none) else
    if journal_write_and_sync { kind := 1, off1 := off, old_bal1 := a.balance, acct_no1 := a.account_number } ≠ 0 then
      (-1, s, none)
    else
      let a1 : account_record := { a with balance := wrap64 (a.balance - amount) }
      (0, { s with accounts := s.accounts.set off a1,
                   txn_log := append_txn s.txn_log now a1.account_number "WITHDRAW" amount a1.balance (some "-") },
        some a1.balance)

/-- The validation part of `db_transfer_to_account`, up to and including the
journal step: either a return code, or the two post-images with their offsets. -/
def transfer_prepare (s : Store) (from_user_id to_account_number amount : Int) :
    Except Int ((Nat × account_record) × (Nat × account_record)) :=
  if amount ≤ 0 then .error (-1) else
  match read_account_by_user s.accounts from_user_id with
  | none => .error (-1)
  | some (offfrom, frm) =>
    match read_account_by_account_number s.accounts to_account_number with
    | none => .error (-1)
    | some (offto, dst) =>
      if frm.account_number = dst.account_number then .error (-1) else
      if frm.balance < amount then .error (-1) else
      let je : journal_entry :=
        { kind := 2, off1 := offfrom, old_bal1 := frm.balance, acct_no1 := frm.account_number,
          off2 := offto, old_bal2 := dst.balance, acct_no2 := dst.account_number }
      if journal_write_and_sync je ≠ 0 then .error (-1)
      else
        .ok ((offfrom, { frm with balance := wrap64 (frm.balance - amount) }),
             (offto, { dst with balance := wrap64 (dst.balance + amount) }))

/-- The function `db_transfer_to_account`; `now1` and `now2` are the clock readings of the
two `append_txn` calls. -/
def db_transfer_to_account (s : Store) (now1 now2 from_user_id to_account_number amount : Int) :
    Int × Store :=
  match transfer_prepare s from_user_id to_account_number amount with
  | .error rc => (rc, s)
  | .ok ((offfrom, frm1), (offto, dst1)) =>
    (0, { s with
          accounts := (s.accounts.set offfrom frm1).set offto dst1,
          txn_log := append_txn
            (append_txn s.txn_log now1 frm1.account_number "TRANSFER_OUT" amount frm1.balance
              (some ("to=" ++ toString dst1.account_number)))
            now2 dst1.account_number "TRANSFER_IN" amount dst1.balance
              (some ("from=" ++ toString frm1.account_number)) })

/-- The store as it stands when `db_transfer_to_account` is stopped after its
journal step with only the first `writes_done` of its two record writes done
(nothing has been appended to the log at that point). -/
def db_transfer_to_account_crash (s : Store) (from_user_id to_account_number amount : Int)
    (writes_done : Nat) : Store :=
  match transfer_prepare s from_user_id to_account_number amount with
  | .error _ => s
  | .ok ((offfrom, frm1), (offto, dst1)) =>
    match writes_done with
    | 0 => s
    | 1 => { s with accounts := s.accounts.set offfrom frm1 }
    | _ => { s with accounts := (s.accounts.set offfrom frm1).set offto dst1 }

/-! ## Sessions -/

/-- Result: return code, store afterwards, and `*out` when it is written. -/
def db_login (s : Store) (username password : List Char) : Int × Store × Option user_record :=
  match read_user_by_username s.users username with
  | none => (-1, s, none)
  | some (off, u) =>
    if u.active = 0 ∨ strncmp u.password password PASSWORD_MAX ≠ 0 ∨ u.session_active ≠ 0 then
      (-1, s, none)
    else if journal_write_and_sync { kind := 10, user_off1 := off, old_user1 := some u } ≠ 0 then
      (-1, s, none)
    else
      (0, { s with users := s.users.set off { u with session_active := 1 } },
        some { u with session_active := 1 })

def db_logout (s : Store) (user_id : Int) : Int × Store :=
  match read_user_by_id s.users user_id with
  | none => (-1, s)
  | some (off, u) =>
    if journal_write_and_sync { kind := 10, user_off1 := off, old_user1 := some u } ≠ 0 then (-1, s)
    else (0, { s with users := s.users.set off { u with session_active := 0 } })

/-- The store after a sequence of `db_login` calls, each with its own username and
password. -/
def login_attempts (s : Store) (attempts : List (List Char × List Char)) : Store :=
  attempts.foldl (fun st np => (db_login st np.1 np.2).2.1) s

/-! ## Provisioning -/

/-- Result: return code, store afterwards, and `(*new_user_id, *new_account_number)`
when they are written. -/
def db_add_user_with_account (s : Store) (username password : List Char)
    (role active initial_balance : Int) : Int × Store × Option (Int × Int) :=
  match read_user_by_username s.users username with
  | some _ => (-1, s, none)
  | none =>
    let uid := next_id_from_file s.users user_record.id
    let u : user_record :=
      { id := uid, role := role, active := if active ≠ 0 then 1 else 0, session_active := 0,
        username := strncpy (zeroed USERNAME_MAX) username (USERNAME_MAX - 1),
        password := strncpy (zeroed PASSWORD_MAX) password (PASSWORD_MAX - 1) }
    if role = ROLE_CUSTOMER then
      let a : account_record :=
        { id := next_id_from_file s.accounts account_record.id, user_id := uid,
          account_number := next_account_number s.accounts, balance := initial_balance }
      (0, { s with users := s.users ++ [u], accounts := s.accounts ++ [a] },
        some (uid, a.account_number))
    else
      (0, { s with users := s.users ++ [u] }, some (uid, -1))

/-- The arguments of one `db_add_user_with_account` call. -/
structure add_call where
  username : List Char
  password : List Char
  role : Int
  active : Int
  initial_balance : Int

/-- The store after a sequence of `db_add_user_with_account` calls that all return 0;
`none` when one of them fails. -/
def add_users : Store → List add_call → Option Store
  | s, [] => some s
  | s, c :: cs =>
    if (db_add_user_with_account s c.username c.password c.role c.active c.initial_balance).1 = 0 then
      add_users
        (db_add_user_with_account s c.username c.password c.role c.active c.initial_balance).2.1 cs
    else none

/-! ## Loans -/

def db_set_loan_status_owned (s : Store) (now loan_id employee_user_id new_status : Int) :
    Int × Store :=
  if new_status ≠ LOAN_APPROVED ∧ new_status ≠ LOAN_REJECTED then (-5, s) else
  match read_loan_by_id s.loans loan_id with
  | none => (-4, s)
  | some (loff, L) =>
    if L.assigned_employee_user_id ≠ employee_user_id then (-3, s) else
    if L.status ≠ LOAN_PENDING then (-5, s) else
    let s1 : Store := { s with loans := s.loans.set loff { L with status := new_status } }
    if new_status = LOAN_APPROVED then
      match read_account_by_user s1.accounts L.customer_user_id with
      | none => (-1, s1)
      | some (aoff, a) =>
        let a1 : account_record := { a with balance := wrap64 (a.balance + L.amount) }
        (0, { s1 with
              accounts := s1.accounts.set aoff a1,
              txn_log := append_txn s1.txn_log now a1.account_number "LOAN_CREDIT" L.amount
                a1.balance (some "-") })
    else (0, s1)

/-- The function `db_set_loan_status`: the status of the first loan with the given id is
overwritten. -/
def db_set_loan_status (s : Store) (loan_id status : Int) : Int × Store :=
  match read_loan_by_id s.loans loan_id with
  | none => (-1, s)
  | some (off, L) =>
    if journal_write_and_sync { kind := 11, loan_off1 := off, old_loan1 := some L } ≠ 0 then (-1, s)
    else (0, { s with loans := s.loans.set off { L with status := status } })

/-- Result: return code, store afterwards, and `*loan_id_out`. -/
def db_apply_loan (s : Store) (customer_user_id amount : Int) : Int × Store × Int :=
  (0, { s with loans := s.loans ++
          [{ id := next_id_from_file s.loans loan_record.id, customer_user_id := customer_user_id,
             assigned_employee_user_id := 0, amount := amount, status := LOAN_PENDING }] },
    next_id_from_file s.loans loan_record.id)

def db_assign_loan (s : Store) (loan_id : Int) (employee_username : List Char) : Int × Store :=
  match read_user_by_username s.users employee_username with
  | none => (-3, s)
  | some (_, emp) =>
    if emp.role ≠ ROLE_EMPLOYEE ∨ emp.active = 0 then (-3, s) else
    match read_loan_by_id s.loans loan_id with
    | none => (-4, s)
    | some (off, L) =>
      if L.assigned_employee_user_id ≠ 0 then (-2, s)
      else if journal_write_and_sync { kind := 11, loan_off1 := off, old_loan1 := some L } ≠ 0 then
        (-1, s)
      else (0, { s with loans := s.loans.set off { L with assigned_employee_user_id := emp.id } })

def db_assign_loan_by_employee_id (s : Store) (loan_id employee_user_id : Int) : Int × Store :=
  match read_loan_by_id s.loans loan_id with
  | none => (-4, s)
  | some (off, L) =>
    if L.assigned_employee_user_id ≠ 0 then (-2, s)
    else (0, { s with loans := s.loans.set off { L with assigned_employee_user_id := employee_user_id } })

/-! ## User administration -/

def db_change_password (s : Store) (user_id : Int) (new_password : List Char) : Int × Store :=
  match read_user_by_id s.users user_id with
  | none => (-1, s)
  | some (off, u) =>
    if journal_write_and_sync { kind := 10, user_off1 := off, old_user1 := some u } ≠ 0 then (-1, s)
    else
      let u1 : user_record :=
        { u with password :=
            (strncpy u.password new_password (PASSWORD_MAX - 1)).set (PASSWORD_MAX - 1) nul }
      (0, { s with users := s.users.set off u1 })

def db_set_user_active (s : Store) (username : List Char) (active : Int) : Int × Store :=
  match read_user_by_username s.users username with
  | none => (-1, s)
  | some (off, u) =>
    if journal_write_and_sync { kind := 10, user_off1 := off, old_user1 := some u } ≠ 0 then (-1, s)
    else
      let u1 : user_record :=
        { u with active := if active ≠ 0 then 1 else 0,
                 session_active := if active ≠ 0 then u.session_active else 0 }
      (0, { s with users := s.users.set off u1 })

def db_set_user_role (s : Store) (username : List Char) (role : Int) : Int × Store :=
  match read_user_by_username s.users username with
  | none => (-1, s)
  | some (off, u) =>
    if journal_write_and_sync { kind := 10, user_off1 := off, old_user1 := some u } ≠ 0 then (-1, s)
    else (0, { s with users := s.users.set off { u with role := role } })

def db_set_user_active_by_id (s : Store) (user_id active : Int) : Int × Store :=
  match read_user_by_id s.users user_id with
  | none => (-1, s)
  | some (off, u) =>
    let u1 : user_record :=
      { u with active := if active ≠ 0 then 1 else 0,
               session_active := if active ≠ 0 then u.session_active else 0 }
    (0, { s with users := s.users.set off u1 })

/-! ## Legacy migration -/

structure acct_remap where
  old_no : Int
  new_no : Int
  deriving DecidableEq, Repr

/-- The first scan of `migrate_account_numbers_if_needed`: the largest account number
in the table, starting from 1000. -/
def migrate_scan_max (accts : List account_record) : Int :=
  accts.foldl (fun maxno a => if a.account_number > maxno then a.account_number else maxno) 1000

/-- The second scan of `migrate_account_numbers_if_needed`, from the state `maxno`,
`rcount`: the records as rewritten in place, and the remaps recorded, in order.  The
`remaps` array holds 1024 entries. -/
def migrate_renumber : List account_record → Int → Nat → List account_record × List acct_remap
  | [], _, _ => ([], [])
  | a :: rest, maxno, rcount =>
    if a.account_number < 1000 then
      if rcount < 1024 then
        ({ a with account_number := wrap32 (maxno + 1) } ::
            (migrate_renumber rest (wrap32 (maxno + 1)) (rcount + 1)).1,
         { old_no := a.account_number, new_no := wrap32 (maxno + 1) } ::
            (migrate_renumber rest (wrap32 (maxno + 1)) (rcount + 1)).2)
      else (a :: (migrate_renumber rest maxno rcount).1, (migrate_renumber rest maxno rcount).2)
    else (a :: (migrate_renumber rest maxno rcount).1, (migrate_renumber rest maxno rcount).2)

/-- The first pass of `migrate_account_numbers_if_needed` (both scans): the accounts
table afterwards and the recorded remaps. -/
def migrate_first_pass (accts : List account_record) : List account_record × List acct_remap :=
  migrate_renumber accts (migrate_scan_max accts) 0

/-- The number of records of the table numbered below 1000. -/
def legacy_count (l : List account_record) : Nat :=
  l.countP (fun a => decide (a.account_number < 1000))

/-- The tag `acct=<n>` as `snprintf` writes it. -/
def acct_tag (n : Int) : List Char := ("acct=" ++ toString n).toList

/-- Whether the text `hay` begins with `needle`. -/
def starts_with : List Char → List Char → Bool
  | _, [] => true
  | [], _ :: _ => false
  | h :: hs, n :: ns => h == n && starts_with hs ns

/-- The function `strstr(hay, needle)`: the position of the first occurrence of `needle`. -/
def strstr : List Char → List Char → Option Nat
  | [], needle => if needle.isEmpty then some 0 else none
  | h :: hs, needle =>
    if starts_with (h :: hs) needle then some 0 else (strstr hs needle).map (· + 1)

/-- The inner `while` loop of the log rewrite: as long as `tagold` occurs in the line
and the result fits the 2048-byte buffer, the first occurrence is replaced by `tagnew`.
`fuel` bounds the number of loop tests; `none` means the bound was reached. -/
def replace_tag_loop (tagold tagnew : List Char) : Nat → List Char → Option (List Char)
  | 0, _ => none
  | fuel + 1, line =>
    match strstr line tagold with
    | none => some line
    | some before =>
      if before + tagnew.length + (line.length - before - tagold.length) + 1 ≥ 2048 then some line
      else replace_tag_loop tagold tagnew fuel
        (line.take before ++ tagnew ++ line.drop (before + tagold.length))

/-- The `for` loop over the remaps, applied to one line. -/
def apply_remaps (fuel : Nat) : List acct_remap → List Char → Option (List Char)
  | [], line => some line
  | r :: rs, line =>
    match replace_tag_loop (acct_tag r.old_no) (acct_tag r.new_no) fuel line with
    | none => none
    | some line1 => apply_remaps fuel rs line1

/-- The `getline` loop: every line of the log is rewritten and written out. -/
def rewrite_log (fuel : Nat) (remaps : List acct_remap) : List String → Option (List String)
  | [] => some []
  | ln :: rest =>
    match apply_remaps fuel remaps ln.toList with
    | none => none
    | some ln1 =>
      match rewrite_log fuel remaps rest with
      | none => none
      | some rest1 => some (String.mk ln1 :: rest1)

/-- The function `migrate_account_numbers_if_needed`.  The accounts table is rewritten by the
first pass; when a remap was recorded the transaction log is replaced by its rewritten
copy.  The result is `none` when a substitution loop does not finish within `fuel`
tests. -/
def migrate_account_numbers_if_needed (fuel : Nat) (s : Store) : Option (Int × Store) :=
  if (migrate_first_pass s.accounts).2 = [] then
    some (0, { s with accounts := (migrate_first_pass s.accounts).1 })
  else
    match rewrite_log fuel (migrate_first_pass s.accounts).2 s.txn_log with
    | none => none
    | some log1 =>
      some (0, { s with accounts := (migrate_first_pass s.accounts).1, txn_log := log1 })

/-! ## Startup -/

/-- The function `db_init`: recovery, migration (its return code is ignored), and the seeding of
the admin record when the users file is empty. -/
def db_init (fuel : Nat) (s : Store) : Option (Int × Store) :=
  match migrate_account_numbers_if_needed fuel (recover_accounts_from_journal s).2 with
  | none => none
  | some (_, s1) =>
    if s1.users = [] then
      some (0, { s1 with users :=
        [{ id := 1, role := ROLE_ADMIN, active := 1, session_active := 0,
           username := strncpy (zeroed USERNAME_MAX) "admin".toList (USERNAME_MAX - 1),
           password := strncpy (zeroed PASSWORD_MAX) "admin".toList (PASSWORD_MAX - 1) }] })
    else some (0, s1)

/-! ## Transaction history -/

/-- The function `strchr(s, c)`: the position of the first occurrence of `c`. -/
def strchr : List Char → Char → Option Nat
  | [], _ => none
  | h :: hs, c => if h = c then some 0 else (strchr hs c).map (· + 1)

/-- The function `isspace` in the C locale. -/
def isspace (c : Char) : Bool := c.toNat = 32 || (9 ≤ c.toNat && c.toNat ≤ 13)

/-- The value of a run of decimal digits, most significant first. -/
def digits_value (ds : List Char) : Int :=
  ds.foldl (fun v c => v * 10 + ((c.toNat : Int) - 48)) 0

/-- The call `sscanf(line, "%lld", &secs)`: white space is skipped, then an optional sign
and a non-empty run of decimal digits are converted; a value outside the range of
`long long` is stored as the nearest bound.  The result is `none` when the call does not
return 1. -/
def sscanf_lld (line : List Char) : Option Int :=
  let body := line.dropWhile isspace
  let negative := body.head? = some '-'
  let rest := if body.head? = some '-' ∨ body.head? = some '+' then body.tail else body
  let ds := rest.takeWhile Char.isDigit
  if ds = [] then none
  else
    let v := if negative then - digits_value ds else digits_value ds
    some (if v < INT64_MIN then INT64_MIN else if INT64_MAX < v then INT64_MAX else v)

/-- The body of the `getline` loop of `db_send_history` and `db_send_history_by_account`:
the text sent for one log line, if any.  `local_time secs` is the text that `localtime_r`
and `strftime` leave in `ts`. -/
def history_line (local_time : Int → String) (tag : List Char) (line : String) : Option String :=
  match strstr line.toList tag with
  | none => none
  | some _ =>
    match strchr line.toList '|' with
    | none => none
    | some pbar =>
      match sscanf_lld line.toList with
      | none => none
      | some secs => some (snprintf 1024 (local_time secs ++ String.mk (line.toList.drop pbar)))

/-- Result: return code and the texts handed to `send`, in order. -/
def db_send_history_by_account (local_time : Int → String) (s : Store) (account_number : Int) :
    Int × List String :=
  (0, s.txn_log.filterMap (history_line local_time (acct_tag account_number)))

/-- Result: return code and the texts handed to `send`, in order. -/
def db_send_history (local_time : Int → String) (s : Store) (user_id : Int) : Int × List String :=
  match read_account_by_user s.accounts user_id with
  | none => (-1, [])
  | some (_, a) => (0, s.txn_log.filterMap (history_line local_time (acct_tag a.account_number)))

/-! ## Predicates of the data model -/

/-- The sum of all balances of the accounts table. -/
def total_balance (accts : List account_record) : Int := (accts.map account_record.balance).sum

/-- No two user records store the same username. -/
@[reducible] def usernames_unique (s : Store) : Prop :=
  (s.users.map (fun u => cstr u.username)).Nodup

/-- Account numbers are pairwise distinct and at least 1000. -/
@[reducible] def account_numbers_valid (accts : List account_record) : Prop :=
  (accts.map account_record.account_number).Nodup ∧ ∀ a ∈ accts, 1000 ≤ a.account_number

/-- The number of account records owned by the user id. -/
def accounts_owned (s : Store) (uid : Int) : Nat :=
  s.accounts.countP (fun a => a.user_id == uid)

/-- Every user with role Customer owns exactly one account record and every user with
any other role owns none. -/
@[reducible] def one_account_per_customer (s : Store) : Prop :=
  ∀ u ∈ s.users, accounts_owned s u.id = if u.role = ROLE_CUSTOMER then 1 else 0

/-- The ids of the users table after `n` successful creations on the seeded store: no
id twice, all between 1 and `n + 1`, and the last record carrying `n + 1`. -/
def ids_in_order (n : Nat) (s : Store) : Prop :=
  (s.users.map user_record.id).Nodup ∧ (∀ u ∈ s.users, 1 ≤ u.id ∧ u.id ≤ (n : Int) + 1) ∧
    ∃ l, s.users.getLast? = some l ∧ l.id = (n : Int) + 1

/-! ## Example stores -/

/-- Two customers: account 1000 with balance 200 and account 1001 with balance 50. -/
def store_two_accounts : Store :=
  { users := [], loans := [], txn_log := [], feedback_log := [],
    accounts := [{ id := 1, user_id := 2, account_number := 1000, balance := 200 },
                 { id := 2, user_id := 3, account_number := 1001, balance := 50 }] }

/-- One pending loan of user 2, assigned to employee 3, over `amount`; user 2 holds
account 1000 with balance `bal`. -/
def store_pending_loan (bal amount : Int) : Store :=
  { users := [], txn_log := [], feedback_log := [],
    loans := [{ id := 1, customer_user_id := 2, assigned_employee_user_id := 3,
                amount := amount, status := 0 }],
    accounts := [{ id := 1, user_id := 2, account_number := 1000, balance := bal }] }

/-- A NUL-padded buffer of the given capacity holding the given text. -/
def text_buf (cap : Nat) (t : String) : List Char := strncpy (zeroed cap) t.toList (cap - 1)

/-- The seeded admin, and the customer "alice" (password "pw1") with an open session. -/
def store_alice_logged_in : Store :=
  { accounts := [], loans := [], txn_log := [], feedback_log := [],
    users := [{ id := 1, role := 4, active := 1, session_active := 0,
                username := text_buf 64 "admin", password := text_buf 128 "admin" },
              { id := 2, role := 1, active := 1, session_active := 1,
                username := text_buf 64 "alice", password := text_buf 128 "pw1" }] }

/-- The store right after the first start: the seeded admin and nothing else. -/
def store_seeded : Store :=
  { accounts := [], loans := [], txn_log := [], feedback_log := [],
    users := [{ id := 1, role := 4, active := 1, session_active := 0,
                username := text_buf 64 "admin", password := text_buf 128 "admin" }] }

/-- A record of the old numbering scheme: account number 5. -/
def legacy_account : account_record := { id := 1, user_id := 2, account_number := 5, balance := 10 }

/-- A table of 1025 accounts numbered below 1000, and an empty log. -/
def store_1025_legacy : Store :=
  { users := [], loans := [], txn_log := [], feedback_log := [],
    accounts := List.replicate 1024 legacy_account ++ [legacy_account] }

/-- An account numbered at the 32-bit maximum, a legacy account 5, and one log line of
account 5. -/
def store_legacy_at_int_max : Store :=
  { users := [], loans := [], feedback_log := [],
    accounts := [{ id := 1, user_id := 2, account_number := 2147483647, balance := 0 },
                 { id := 2, user_id := 3, account_number := 5, balance := 1 }],
    txn_log := ["7|acct=5|DEPOSIT|amt=1|bal=1|-\n"] }

/-- The store `store_legacy_at_int_max` after one migration run. -/
def store_legacy_at_int_max_migrated : Store :=
  { users := [], loans := [], feedback_log := [],
    accounts := [{ id := 1, user_id := 2, account_number := 2147483647, balance := 0 },
                 { id := 2, user_id := 3, account_number := -2147483648, balance := 1 }],
    txn_log := ["7|acct=-2147483648|DEPOSIT|amt=1|bal=1|-\n"] }

/-- A legacy account 5 beside the accounts 5000 and 6000, with one log line of account 5
and one of account 5000. -/
def store_legacy_and_5000 : Store :=
  { users := [], loans := [], feedback_log := [],
    accounts := [{ id := 1, user_id := 2, account_number := 5, balance := 10 },
                 { id := 2, user_id := 3, account_number := 5000, balance := 1 },
                 { id := 3, user_id := 4, account_number := 6000, balance := 0 }],
    txn_log := ["7|acct=5|DEPOSIT|amt=10|bal=10|-\n", "8|acct=5000|DEPOSIT|amt=1|bal=1|-\n"] }

/-- The store `store_legacy_and_5000` after one migration run. -/
def store_legacy_and_5000_migrated : Store :=
  { users := [], loans := [], feedback_log := [],
    accounts := [{ id := 1, user_id := 2, account_number := 6001, balance := 10 },
                 { id := 2, user_id := 3, account_number := 5000, balance := 1 },
                 { id := 3, user_id := 4, account_number := 6000, balance := 0 }],
    txn_log := ["7|acct=6001|DEPOSIT|amt=10|bal=10|-\n", "8|acct=6001000|DEPOSIT|amt=1|bal=1|-\n"] }

/-- A username of 64 bytes, one more than a username field can hold besides its NUL. -/
def long_username : List Char := List.replicate 64 'a'

/-- The seeded store after the employee `long_username` has been added once. -/
def store_long_username : Store :=
  (db_add_user_with_account store_seeded long_username "pw".toList ROLE_EMPLOYEE 1 0).2.1

/-- The seeded admin, and one loan of user 2 with the given assignee and status; user 2
holds account 1000 with balance 120. -/
def store_one_loan (assignee status : Int) : Store :=
  { txn_log := [], feedback_log := [],
    users := [{ id := 1, role := 4, active := 1, session_active := 0,
                username := text_buf 64 "admin", password := text_buf 128 "admin" }],
    loans := [{ id := 1, customer_user_id := 2, assigned_employee_user_id := assignee,
                amount := 500, status := status }],
    accounts := [{ id := 1, user_id := 2, account_number := 1000, balance := 120 }] }

/-- The seeded admin and the customer "alice" (id 2) with her account 1001. -/
def store_alice : Store :=
  { loans := [], txn_log := [], feedback_log := [],
    users := [{ id := 1, role := 4, active := 1, session_active := 0,
                username := text_buf 64 "admin", password := text_buf 128 "admin" },
              { id := 2, role := 1, active := 1, session_active := 0,
                username := text_buf 64 "alice", password := text_buf 128 "pw1" }],
    accounts := [{ id := 1, user_id := 2, account_number := 1001, balance := 100 }] }

/-- The seeded admin and a customer whose id is 10001, with her account. -/
def store_last_id_10001 : Store :=
  { loans := [], txn_log := [], feedback_log := [],
    users := [{ id := 1, role := 4, active := 1, session_active := 0,
                username := text_buf 64 "admin", password := text_buf 128 "admin" },
              { id := 10001, role := 1, active := 1, session_active := 0,
                username := text_buf 64 "zoe", password := text_buf 128 "pw" }],
    accounts := [{ id := 1, user_id := 10001, account_number := 1001, balance := 0 }] }

/-- The store with every file empty. -/
def store_empty : Store :=
  { users := [], accounts := [], loans := [], txn_log := [], feedback_log := [] }

/-- A three-byte username for each number: pairwise different for numbers below
`128 * 128`. -/
def numbered_username (k : Nat) : List Char :=
  ['u', Char.ofNat (1 + k / 128), Char.ofNat (1 + k % 128)]

/-- The calls that create the employees `numbered_username k` for `count` numbers from
`start` on. -/
def numbered_calls : Nat → Nat → List add_call
  | _, 0 => []
  | start, count + 1 =>
    { username := numbered_username start, password := [], role := ROLE_EMPLOYEE, active := 1,
      initial_balance := 0 } :: numbered_calls (start + 1) count

/-- The users table after the employees `numbered_username 0 .. n - 1` have been
created on the seeded store: the last record carries id `n + 1`, a record with id 1 is
present, and every username is "admin" or one of those numbered names. -/
def numbered_users (n : Nat) (s : Store) : Prop :=
  (∃ l, s.users.getLast? = some l ∧ l.id = (n : Int) + 1) ∧ (∃ u ∈ s.users, u.id = 1) ∧
    ∀ x ∈ s.users, cstr x.username = "admin".toList ∨
      ∃ j, j < n ∧ cstr x.username = numbered_username j

/-- A password of 128 bytes. -/
def long_password : List Char := List.replicate 128 'b'

/-- A note of 600 bytes. -/
def long_note : String := String.mk (List.replicate 600 'x')

/-- Account 1000 of user 2 with balance 1, and account 1001 of user 3 with the largest
balance a `long long` holds. -/
def store_full_destination : Store :=
  { users := [], loans := [], txn_log := [], feedback_log := [],
    accounts := [{ id := 1, user_id := 2, account_number := 1000, balance := 1 },
                 { id := 2, user_id := 3, account_number := 1001, balance := 9223372036854775807 }] }

/-- A pending loan of user 2, assigned to employee 3, while user 2 holds no account. -/
def store_loan_no_account : Store :=
  { users := [], accounts := [], txn_log := [], feedback_log := [],
    loans := [{ id := 1, customer_user_id := 2, assigned_employee_user_id := 3,
                amount := 500, status := 0 }] }

/-- Accounts 1000 (user 2) and 10001 (user 3), with one deposit line each. -/
def store_accounts_1000_10001 : Store :=
  { users := [], loans := [], feedback_log := [],
    accounts := [{ id := 1, user_id := 2, account_number := 1000, balance := 5 },
                 { id := 2, user_id := 3, account_number := 10001, balance := 9 }],
    txn_log := ["7|acct=1000|DEPOSIT|amt=5|bal=5|-\n", "8|acct=10001|DEPOSIT|amt=9|bal=9|-\n"] }

/-- One account of the old scheme, numbered 1, with its deposit line. -/
def store_legacy_one : Store :=
  { users := [], loans := [], feedback_log := [],
    accounts := [{ id := 1, user_id := 2, account_number := 1, balance := 1 }],
    txn_log := ["7|acct=1|DEPOSIT|amt=1|bal=1|-\n"] }

/-- The text `001` written `k` times. -/
def zeros_one (k : Nat) : List Char := (List.replicate k "001".toList).flatten

/-- The store `store_last_id_10001` after the customer "carol" has been created, with
id 1 again, and has logged in. -/
def store_id_restarted : Store :=
  (db_login
    (db_add_user_with_account store_last_id_10001 "carol".toList "pw3".toList ROLE_CUSTOMER 1 0).2.1
    "carol".toList "pw3".toList).2.1

/-! ## Machine integers and scans: auxiliary facts -/

theorem wrap64_of_in_int64 {x : Int} (h : in_int64 x) : wrap64 x = x := by
  unfold in_int64 INT64_MIN INT64_MAX at h
  unfold wrap64
  omega

theorem wrap32_of_range {x : Int} (h1 : -2147483648 ≤ x) (h2 : x ≤ 2147483647) : wrap32 x = x := by
  unfold wrap32
  omega

theorem journal_write_and_sync_eq (je : journal_entry) : journal_write_and_sync je = 0 := rfl

/-- A successful scan returns a position at or after the start position. -/
theorem scan_records_le {α : Type} (p : α → Bool) :
    ∀ (l : List α) (off i : Nat) (r : α), scan_records p l off = some (i, r) → off ≤ i := by
  intro l
  induction l with
  | nil => intro off i r h; simp [scan_records] at h
  | cons x xs ih =>
    intro off i r h
    unfold scan_records at h
    split at h
    · simp only [Option.some.injEq, Prod.mk.injEq] at h; omega
    · have := ih _ _ _ h; omega

/-- What a successful scan returns: the record at the returned position, which
satisfies the predicate, no earlier record satisfying it. -/
theorem scan_records_some {α : Type} (p : α → Bool) :
    ∀ (l : List α) (off i : Nat) (r : α), scan_records p l off = some (i, r) →
      ∃ k, i = off + k ∧ l[k]? = some r ∧ p r = true ∧
        ∀ j, j < k → ∀ x, l[j]? = some x → p x = false := by
  intro l
  induction l with
  | nil => intro off i r h; simp [scan_records] at h
  | cons x xs ih =>
    intro off i r h
    unfold scan_records at h
    split at h
    · rename_i hp
      simp only [Option.some.injEq, Prod.mk.injEq] at h
      refine ⟨0, by omega, by simp [h.2], by rw [← h.2]; exact hp, ?_⟩
      intro j hj; omega
    · rename_i hp
      obtain ⟨k, hk, hget, hpr, hbefore⟩ := ih _ _ _ h
      refine ⟨k + 1, by omega, by simpa using hget, hpr, ?_⟩
      intro j hj y hy
      cases j with
      | zero => simp at hy; subst hy; simpa using hp
      | succ j => exact hbefore j (by omega) y (by simpa using hy)

/-- Converse of `scan_records_some`. -/
theorem scan_records_of_first {α : Type} (p : α → Bool) :
    ∀ (l : List α) (off k : Nat) (r : α), l[k]? = some r → p r = true →
      (∀ j, j < k → ∀ x, l[j]? = some x → p x = false) →
      scan_records p l off = some (off + k, r) := by
  intro l
  induction l with
  | nil => intro off k r h; simp at h
  | cons x xs ih =>
    intro off k r hget hp hbefore
    cases k with
    | zero =>
      simp at hget; subst hget
      simp [scan_records, hp]
    | succ k =>
      have hx : p x = false := hbefore 0 (by omega) x (by simp)
      have := ih (off + 1) k r (by simpa using hget) hp
        (fun j hj y hy => hbefore (j + 1) (by omega) y (by simpa using hy))
      simp [scan_records, hx, this]; omega

theorem scan_records_none {α : Type} (p : α → Bool) :
    ∀ (l : List α) (off : Nat), scan_records p l off = none ↔ ∀ x ∈ l, p x = false := by
  intro l
  induction l with
  | nil => intro off; simp [scan_records]
  | cons x xs ih =>
    intro off
    unfold scan_records
    by_cases hp : p x = true
    · simp [hp]
    · simp [hp, ih]

/-- Overwriting position `k` with a record that agrees with the old one on the
predicate does not move the result of a scan; the scan sees the new record when it
stops at `k`. -/
theorem scan_records_set {α : Type} (p : α → Bool) :
    ∀ (l : List α) (k off : Nat) (r r1 : α), l[k]? = some r → p r1 = p r →
      scan_records p (l.set k r1) off =
        (scan_records p l off).map (fun ir => if ir.1 = off + k then (ir.1, r1) else ir) := by
  intro l
  induction l with
  | nil => intro k off r r1 h; simp at h
  | cons x xs ih =>
    intro k off r r1 hget hp
    cases k with
    | zero =>
      simp at hget; subst hget
      simp only [List.set_cons_zero, scan_records, hp]
      split
      · simp
      · cases hs : scan_records p xs (off + 1) with
        | none => simp
        | some ir =>
          have := scan_records_le p xs (off + 1) ir.1 ir.2 hs
          have hne : ¬ ir.1 = off := by omega
          simp [hne]
    | succ k =>
      simp only [List.set_cons_succ, scan_records]
      split
      · simp
      · rw [ih k (off + 1) r r1 (by simpa using hget) hp]
        congr 1
        funext ir
        have : off + 1 + k = off + (k + 1) := by omega
        rw [this]

theorem scan_records_set_self {α : Type} (p : α → Bool) (l : List α) (i : Nat) (r r1 : α)
    (h : scan_records p l 0 = some (i, r)) (hp : p r1 = p r) :
    scan_records p (l.set i r1) 0 = some (i, r1) := by
  obtain ⟨k, hk, hget, -, -⟩ := scan_records_some p l 0 i r h
  have hik : i = k := by omega
  subst hik
  rw [scan_records_set p l i 0 r r1 hget hp, h]
  simp

theorem scan_records_set_other {α : Type} (p : α → Bool) (l : List α) (i k : Nat) (r x x1 : α)
    (h : scan_records p l 0 = some (i, r)) (hget : l[k]? = some x) (hp : p x1 = p x)
    (hne : k ≠ i) :
    scan_records p (l.set k x1) 0 = some (i, r) := by
  rw [scan_records_set p l k 0 x x1 hget hp, h]
  simp; intro h; omega

theorem scan_records_set_none {α : Type} (p : α → Bool) (l : List α) (k : Nat) (x x1 : α)
    (h : scan_records p l 0 = none) (hget : l[k]? = some x) (hp : p x1 = p x) :
    scan_records p (l.set k x1) 0 = none := by
  rw [scan_records_set p l k 0 x x1 hget hp, h]
  simp

theorem scan_records_get {α : Type} (p : α → Bool) (l : List α) (i : Nat) (r : α)
    (h : scan_records p l 0 = some (i, r)) : l[i]? = some r ∧ p r = true := by
  obtain ⟨k, hk, hget, hp, -⟩ := scan_records_some p l 0 i r h
  have hik : i = k := by omega
  subst hik
  exact ⟨hget, hp⟩

theorem list_set_of_getElem? {α : Type} :
    ∀ (l : List α) (i : Nat) (x : α), l[i]? = some x → l.set i x = l := by
  intro l
  induction l with
  | nil => intro i x h; simp at h
  | cons y ys ih =>
    intro i x h
    cases i with
    | zero => simp at h; simp [h]
    | succ i => simp at h; simp [ih i x h]

/-! ## Formatted text: auxiliary facts -/

/-- A text shorter than the buffer is stored whole. -/
theorem snprintf_of_length_lt (cap : Nat) (text : String) (h : text.length < cap) :
    snprintf cap text = text := by
  unfold snprintf
  have hlen : text.toList.length ≤ cap - 1 := by
    have : text.toList.length = text.length := rfl
    omega
  rw [List.take_of_length_le hlen]
  rfl

/-- The decimal text of a `long long` has at most 20 bytes. -/
theorem toString_int_length_le (x : Int) (h : in_int64 x) : (toString x).length ≤ 20 := by
  unfold in_int64 INT64_MIN INT64_MAX at h
  cases x with
  | ofNat n =>
    have h1 : (toString (Int.ofNat n)).length = (toString n).length := rfl
    rw [h1]
    have hn : n < 10 ^ 19 := by
      have := h.2
      simp only [Int.ofNat_eq_coe] at this
      omega
    have := Nat.repr_length n 19 (by decide) hn
    exact Nat.le_succ_of_le this
  | negSucc n =>
    have h1 : (toString (Int.negSucc n)).length = ("-" ++ toString (n + 1)).length := rfl
    rw [h1, String.length_append]
    have hn : n + 1 < 10 ^ 19 := by
      have := h.1
      rw [Int.negSucc_eq] at this
      omega
    have h3 : (toString (n + 1)).length ≤ 19 := Nat.repr_length (n + 1) 19 (by decide) hn
    have h2 : "-".length = 1 := rfl
    omega

/-- The line of `append_txn` is stored whole when its numbers are machine integers and
its kind and note take at most 400 bytes together. -/
theorem append_txn_fits (log : List String) (now n : Int) (kind : String) (amount bal : Int)
    (note : Option String) (hnow : in_int64 now) (hn : in_int64 n) (ha : in_int64 amount)
    (hb : in_int64 bal) (hk : kind.length + (note.getD "-").length ≤ 400) :
    append_txn log now n kind amount bal note =
      log ++ [toString now ++ "|acct=" ++ toString n ++ "|" ++ kind ++ "|amt=" ++
        toString amount ++ "|bal=" ++ toString bal ++ "|" ++ note.getD "-" ++ "\n"] := by
  unfold append_txn
  rw [snprintf_of_length_lt]
  simp only [String.length_append]
  have h1 := toString_int_length_le now hnow
  have h2 := toString_int_length_le n hn
  have h3 := toString_int_length_le amount ha
  have h4 := toString_int_length_le bal hb
  have e1 : "|acct=".length = 6 := rfl
  have e2 : "|".length = 1 := rfl
  have e3 : "|amt=".length = 5 := rfl
  have e4 : "|bal=".length = 5 := rfl
  have e5 : "\n".length = 1 := rfl
  omega

/-! ## Transfers, withdrawals and deposits (C1, C2, C3) -/

/-- What `transfer_prepare` returns when every check passes. -/
theorem transfer_prepare_ok (s : Store) (u d a : Int) (i j : Nat) (src dst : account_record)
    (hsrc : read_account_by_user s.accounts u = some (i, src))
    (hdst : read_account_by_account_number s.accounts d = some (j, dst))
    (hne : src.account_number ≠ dst.account_number) (hpos : 0 < a) (hle : a ≤ src.balance) :
    transfer_prepare s u d a =
      .ok ((i, { src with balance := wrap64 (src.balance - a) }),
           (j, { dst with balance := wrap64 (dst.balance + a) })) := by
  unfold transfer_prepare
  rw [hsrc, hdst]
  simp [hne, journal_write_and_sync_eq, Int.not_le.mpr hpos, Int.not_lt.mpr hle]

/-- C1: a transfer of `a` with `0 < a ≤ b` from the account of user `u` (the first
record with that user id; number `src.account_number`, balance `b`) to a different
existing account number `d` (balance `c`, with `c + a` representable) returns 0, and
afterwards the source balance is `b - a` and the destination balance is `c + a`. -/
theorem transfer_moves_amount (s : Store) (now1 now2 u d a : Int) (i j : Nat)
    (src dst : account_record)
    (hsrc : read_account_by_user s.accounts u = some (i, src))
    (hdst : read_account_by_account_number s.accounts d = some (j, dst))
    (hne : d ≠ src.account_number)
    (hpos : 0 < a) (hle : a ≤ src.balance)
    (hb : in_int64 src.balance) (hc : in_int64 (dst.balance + a)) :
    (db_transfer_to_account s now1 now2 u d a).1 = 0 ∧
    read_account_by_user (db_transfer_to_account s now1 now2 u d a).2.accounts u =
      some (i, { src with balance := src.balance - a }) ∧
    read_account_by_account_number (db_transfer_to_account s now1 now2 u d a).2.accounts d =
      some (j, { dst with balance := dst.balance + a }) ∧
    db_get_balance (db_transfer_to_account s now1 now2 u d a).2 u = (0, some (src.balance - a)) := by
  have hsg := scan_records_get _ _ _ _ hsrc
  have hdg := scan_records_get _ _ _ _ hdst
  have hdn : dst.account_number = d := by simpa using hdg.2
  have hne1 : src.account_number ≠ dst.account_number := by rw [hdn]; exact fun h => hne h.symm
  have hij : i ≠ j := by
    intro h; subst h
    rw [hsg.1] at hdg
    exact hne1 (by rw [Option.some.inj hdg.1])
  have hw1 : wrap64 (src.balance - a) = src.balance - a := by
    apply wrap64_of_in_int64
    unfold in_int64 INT64_MIN INT64_MAX at *
    omega
  have hw2 : wrap64 (dst.balance + a) = dst.balance + a := wrap64_of_in_int64 hc
  have hprep := transfer_prepare_ok s u d a i j src dst hsrc hdst hne1 hpos hle
  rw [hw1, hw2] at hprep
  have hget_j : (s.accounts.set i { src with balance := src.balance - a })[j]? = some dst := by
    rw [List.getElem?_set_ne hij]; exact hdg.1
  have hu : read_account_by_user
      ((s.accounts.set i { src with balance := src.balance - a }).set j
        { dst with balance := dst.balance + a }) u =
      some (i, { src with balance := src.balance - a }) := by
    unfold read_account_by_user at *
    refine scan_records_set_other _ _ i j _ dst _ ?_ hget_j ?_ (Ne.symm hij)
    · exact scan_records_set_self _ _ i src _ hsrc rfl
    · rfl
  have hd : read_account_by_account_number
      ((s.accounts.set i { src with balance := src.balance - a }).set j
        { dst with balance := dst.balance + a }) d =
      some (j, { dst with balance := dst.balance + a }) := by
    unfold read_account_by_account_number at *
    refine scan_records_set_self _ _ j dst _ ?_ ?_
    · exact scan_records_set_other _ _ j i dst src _ hdst hsg.1 rfl hij
    · rfl
  unfold db_get_balance db_transfer_to_account
  rw [hprep]
  simp only [hu, hd, and_self]

theorem transfer_moves_amount_witness :
    (db_transfer_to_account store_two_accounts 7 7 2 1001 80).1 = 0 ∧
    read_account_by_user (db_transfer_to_account store_two_accounts 7 7 2 1001 80).2.accounts 2 =
      some (0, { id := 1, user_id := 2, account_number := 1000, balance := 200 - 80 }) ∧
    read_account_by_account_number
        (db_transfer_to_account store_two_accounts 7 7 2 1001 80).2.accounts 1001 =
      some (1, { id := 2, user_id := 3, account_number := 1001, balance := 50 + 80 }) ∧
    db_get_balance (db_transfer_to_account store_two_accounts 7 7 2 1001 80).2 2 =
      (0, some (200 - 80)) :=
  transfer_moves_amount store_two_accounts 7 7 2 1001 80 0 1
    { id := 1, user_id := 2, account_number := 1000, balance := 200 }
    { id := 2, user_id := 3, account_number := 1001, balance := 50 }
    (by decide) (by decide) (by decide) (by decide) (by decide) (by decide) (by decide)

/-- A decided loan refuses every further decision and the store is left as it was. -/
theorem set_loan_status_owned_decided (s : Store) (now loan_id e v : Int) (i : Nat)
    (L : loan_record)
    (hL : read_loan_by_id s.loans loan_id = some (i, L))
    (hst : L.status = LOAN_APPROVED ∨ L.status = LOAN_REJECTED) :
    ((db_set_loan_status_owned s now loan_id e v).1 = -3 ∨
      (db_set_loan_status_owned s now loan_id e v).1 = -5) ∧
    (e = L.assigned_employee_user_id → (db_set_loan_status_owned s now loan_id e v).1 = -5) ∧
    (db_set_loan_status_owned s now loan_id e v).2 = s := by
  have hnp : L.status ≠ LOAN_PENDING := by
    rcases hst with h | h <;> rw [h] <;> decide
  unfold db_set_loan_status_owned
  simp only [hL]
  by_cases hv : v ≠ LOAN_APPROVED ∧ v ≠ LOAN_REJECTED
  · simp [hv]
  · by_cases he : L.assigned_employee_user_id = e
    · simp [hv, he, hnp]
    · have he1 : ¬ e = L.assigned_employee_user_id := fun h => he h.symm
      simp [hv, he, he1]

/-- C5: on a loan whose status is already Approved or Rejected,
`db_set_loan_status_owned` fails for every caller and every verdict (with -5 for the
assigned employee), leaving loans, accounts and transaction log as they were; and
after a successful approval a second approval fails with -5 and changes nothing, so
the applicant is credited once. -/
theorem decided_loan_is_final :
    (∀ (s : Store) (now loan_id e v : Int) (i : Nat) (L : loan_record),
      read_loan_by_id s.loans loan_id = some (i, L) →
      (L.status = LOAN_APPROVED ∨ L.status = LOAN_REJECTED) →
      (db_set_loan_status_owned s now loan_id e v).1 ≠ 0 ∧
      (e = L.assigned_employee_user_id → (db_set_loan_status_owned s now loan_id e v).1 = -5) ∧
      (db_set_loan_status_owned s now loan_id e v).2 = s) ∧
    (∀ (s : Store) (now now2 loan_id e : Int),
      (db_set_loan_status_owned s now loan_id e LOAN_APPROVED).1 = 0 →
      (db_set_loan_status_owned (db_set_loan_status_owned s now loan_id e LOAN_APPROVED).2
        now2 loan_id e LOAN_APPROVED).1 = -5 ∧
      (db_set_loan_status_owned (db_set_loan_status_owned s now loan_id e LOAN_APPROVED).2
        now2 loan_id e LOAN_APPROVED).2 = (db_set_loan_status_owned s now loan_id e LOAN_APPROVED).2) := by
  constructor
  · intro s now loan_id e v i L hL hst
    obtain ⟨h1, h2, h3⟩ := set_loan_status_owned_decided s now loan_id e v i L hL hst
    refine ⟨?_, h2, h3⟩
    rcases h1 with h | h <;> rw [h] <;> decide
  · intro s now now2 loan_id e h0
    -- the first call succeeded: the loan was found, assigned to `e`, and Pending
    cases hL : read_loan_by_id s.loans loan_id with
    | none =>
      unfold db_set_loan_status_owned at h0
      simp [hL, LOAN_APPROVED, LOAN_REJECTED] at h0
    | some iL =>
      obtain ⟨i, L⟩ := iL
      have hL1 : read_loan_by_id (s.loans.set i { L with status := LOAN_APPROVED }) loan_id =
          some (i, { L with status := LOAN_APPROVED }) :=
        scan_records_set_self _ _ i L _ hL rfl
      have hloans : (db_set_loan_status_owned s now loan_id e LOAN_APPROVED).2.loans =
            s.loans.set i { L with status := LOAN_APPROVED } ∧
          L.assigned_employee_user_id = e := by
        unfold db_set_loan_status_owned at h0 ⊢
        simp only [hL] at h0 ⊢
        by_cases he : L.assigned_employee_user_id = e
        · by_cases hp : L.status = LOAN_PENDING
          · cases ha : read_account_by_user s.accounts L.customer_user_id with
            | none => simp [he, hp, ha, LOAN_APPROVED, LOAN_REJECTED] at h0
            | some ka => simp [he, hp, ha, LOAN_APPROVED, LOAN_REJECTED]
          · simp [he, hp, LOAN_APPROVED, LOAN_REJECTED] at h0
        · simp [he, LOAN_APPROVED, LOAN_REJECTED] at h0
      have hL2 : read_loan_by_id (db_set_loan_status_owned s now loan_id e LOAN_APPROVED).2.loans
          loan_id = some (i, { L with status := LOAN_APPROVED }) := by
        rw [hloans.1]; exact hL1
      obtain ⟨-, h2, h3⟩ := set_loan_status_owned_decided
        (db_set_loan_status_owned s now loan_id e LOAN_APPROVED).2 now2 loan_id e LOAN_APPROVED i
        { L with status := LOAN_APPROVED } hL2 (Or.inl rfl)
      exact ⟨h2 hloans.2.symm, h3⟩

theorem decided_loan_is_final_witness :
    ((db_set_loan_status_owned (store_pending_loan 120 500) 9 1 3 LOAN_APPROVED).1 = 0 ∧
      (db_set_loan_status_owned
        (db_set_loan_status_owned (store_pending_loan 120 500) 9 1 3 LOAN_APPROVED).2
        10 1 3 LOAN_APPROVED).1 = -5 ∧
      (db_set_loan_status_owned
        (db_set_loan_status_owned (store_pending_loan 120 500) 9 1 3 LOAN_APPROVED).2
        10 1 3 LOAN_APPROVED).2 =
        (db_set_loan_status_owned (store_pending_loan 120 500) 9 1 3 LOAN_APPROVED).2) ∧
    ((db_set_loan_status_owned
        (db_set_loan_status_owned (store_pending_loan 120 500) 9 1 3 LOAN_APPROVED).2
        10 1 4 LOAN_REJECTED).1 ≠ 0 ∧
      (db_set_loan_status_owned
        (db_set_loan_status_owned (store_pending_loan 120 500) 9 1 3 LOAN_APPROVED).2
        10 1 3 LOAN_REJECTED).1 = -5) :=
  ⟨⟨by decide, decided_loan_is_final.2 (store_pending_loan 120 500) 9 10 1 3 (by decide)⟩,
    (decided_loan_is_final.1
      (db_set_loan_status_owned (store_pending_loan 120 500) 9 1 3 LOAN_APPROVED).2 10 1 4
      LOAN_REJECTED 0
      { id := 1, customer_user_id := 2, assigned_employee_user_id := 3, amount := 500,
        status := LOAN_APPROVED }
      (by decide) (by decide)).1,
    (decided_loan_is_final.1
      (db_set_loan_status_owned (store_pending_loan 120 500) 9 1 3 LOAN_APPROVED).2 10 1 3
      LOAN_REJECTED 0
      { id := 1, customer_user_id := 2, assigned_employee_user_id := 3, amount := 500,
        status := LOAN_APPROVED }
      (by decide) (by decide)).2.1 rfl⟩

/-! ## Crash recovery (C6) -/

/-- C6 fails on the code: the journal primitives are no-ops.  A transfer of 80 from
account 1000 (balance 200) to account 1001 (balance 50), stopped after the source
record is written and before the destination record is written, leaves balances 120
and 50; `recover_accounts_from_journal` returns 0 and leaves them so, instead of
restoring 200 and 50. -/
theorem crash_recovery_does_not_restore :
    (recover_accounts_from_journal
        (db_transfer_to_account_crash store_two_accounts 2 1001 80 1)).1 = 0 ∧
    (recover_accounts_from_journal
        (db_transfer_to_account_crash store_two_accounts 2 1001 80 1)).2.accounts =
      [{ id := 1, user_id := 2, account_number := 1000, balance := 120 },
       { id := 2, user_id := 3, account_number := 1001, balance := 50 }] ∧
    (recover_accounts_from_journal
        (db_transfer_to_account_crash store_two_accounts 2 1001 80 1)).2.accounts ≠
      store_two_accounts.accounts := by
  decide

/-- The crash model agrees with the operation: with both writes done the accounts
table is the one `db_transfer_to_account` produces. -/
theorem db_transfer_to_account_crash_two (s : Store) (now1 now2 u d a : Int) :
    (db_transfer_to_account_crash s u d a 2).accounts =
      (db_transfer_to_account s now1 now2 u d a).2.accounts := by
  unfold db_transfer_to_account_crash db_transfer_to_account
  cases transfer_prepare s u d a with
  | error rc => rfl
  | ok r => rfl

/-! ## String comparison: auxiliary facts -/

theorem char_toNat_sub_ne_zero {x y : Char} (h : x ≠ y) : ((x.toNat : Int) - (y.toNat : Int)) ≠ 0 := by
  intro h0
  apply h
  have : x.toNat = y.toNat := by omega
  exact Char.ext (UInt32.ext this)

theorem cstr_nil : cstr [] = [] := rfl

theorem cstr_cons_nul (xs : List Char) : cstr (nul :: xs) = [] := by
  simp [cstr]

theorem cstr_cons_of_ne {x : Char} (xs : List Char) (h : x ≠ nul) : cstr (x :: xs) = x :: cstr xs := by
  simp [cstr, h]

/-- The function `strncmp` returns zero exactly when the texts of the two buffers agree on their
first `n` bytes. -/
theorem strncmp_eq_zero_iff :
    ∀ (n : Nat) (a b : List Char), strncmp a b n = 0 ↔ (cstr a).take n = (cstr b).take n := by
  intro n
  induction n with
  | zero => intro a b; simp [strncmp]
  | succ n ih =>
    intro a b
    unfold strncmp
    cases a with
    | nil =>
      cases b with
      | nil => simp [cstr_nil]
      | cons y ys =>
        by_cases hy : y = nul
        · subst hy; simp [cstr_nil, cstr_cons_nul]
        · have hy1 : nul ≠ y := fun h => hy h.symm
          simp [cstr_nil, cstr_cons_of_ne ys hy, hy1, char_toNat_sub_ne_zero hy1]
    | cons x xs =>
      cases b with
      | nil =>
        by_cases hx : x = nul
        · subst hx; simp [cstr_nil, cstr_cons_nul]
        · simp [cstr_nil, cstr_cons_of_ne xs hx, hx, char_toNat_sub_ne_zero hx]
      | cons y ys =>
        by_cases hxy : x = y
        · subst hxy
          by_cases hx : x = nul
          · subst hx; simp [cstr_cons_nul]
          · simp [cstr_cons_of_ne _ hx, hx, ih xs ys]
        · by_cases hx : x = nul
          · subst hx
            have hy : y ≠ nul := fun h => hxy h.symm
            simp [cstr_cons_nul, cstr_cons_of_ne ys hy, hxy, char_toNat_sub_ne_zero hxy]
          · by_cases hy : y = nul
            · subst hy
              simp [cstr_cons_nul, cstr_cons_of_ne xs hx, hxy, char_toNat_sub_ne_zero hxy]
            · simp [cstr_cons_of_ne xs hx, cstr_cons_of_ne ys hy, hxy, char_toNat_sub_ne_zero hxy]

/-- For a buffer whose text ends before position `n`, agreement on the first `n`
bytes is equality of the texts. -/
theorem take_cstr_eq_iff (n : Nat) (a b : List Char) (ha : (cstr a).length < n) :
    (cstr a).take n = (cstr b).take n ↔ cstr a = cstr b := by
  rw [List.take_of_length_le (Nat.le_of_lt ha)]
  constructor
  · intro h
    have hlen : ((cstr b).take n).length < n := by rw [← h]; exact ha
    have hb : (cstr b).length < n := by
      rw [List.length_take] at hlen
      omega
    rw [h, List.take_of_length_le (Nat.le_of_lt hb)]
  · intro h
    rw [← h, List.take_of_length_le (Nat.le_of_lt ha)]

theorem strncmp_eq_zero_of_cstr_eq (n : Nat) (a b : List Char) (h : cstr a = cstr b) :
    strncmp a b n = 0 := by
  rw [strncmp_eq_zero_iff, h]

/-! ## Login and logout (C7, C8) -/

/-- On a record whose username field holds NUL-terminated text, the comparison made by
`read_user_by_username` is equality of texts. -/
theorem username_match_iff (u : user_record) (name : List Char)
    (h : (cstr u.username).length < USERNAME_MAX) :
    (strncmp u.username name USERNAME_MAX == 0) = true ↔ cstr u.username = cstr name := by
  rw [beq_iff_eq, strncmp_eq_zero_iff, take_cstr_eq_iff _ _ _ h]

theorem password_match_iff (u : user_record) (pw : List Char)
    (h : (cstr u.password).length < PASSWORD_MAX) :
    strncmp u.password pw PASSWORD_MAX = 0 ↔ cstr u.password = cstr pw := by
  rw [strncmp_eq_zero_iff, take_cstr_eq_iff _ _ _ h]

/-- The function `read_user_by_username` finds the first record whose stored username is the given one. -/
theorem read_user_by_username_iff (users : List user_record) (name : List Char) (i : Nat)
    (u : user_record) (hwf : ∀ x ∈ users, (cstr x.username).length < USERNAME_MAX) :
    read_user_by_username users name = some (i, u) ↔
      users[i]? = some u ∧ cstr u.username = cstr name ∧
        ∀ j, j < i → ∀ x, users[j]? = some x → cstr x.username ≠ cstr name := by
  unfold read_user_by_username
  constructor
  · intro h
    obtain ⟨k, hk, hget, hp, hbefore⟩ := scan_records_some _ _ _ _ _ h
    have hik : i = k := by omega
    subst hik
    refine ⟨hget, ?_, ?_⟩
    · exact (username_match_iff u name (hwf u (List.mem_iff_getElem?.mpr ⟨_, hget⟩))).mp hp
    · intro j hj x hx hEq
      have := hbefore j hj x hx
      rw [(username_match_iff x name (hwf x (List.mem_iff_getElem?.mpr ⟨_, hx⟩))).mpr hEq] at this
      exact Bool.noConfusion this
  · rintro ⟨hget, hEq, hbefore⟩
    have := scan_records_of_first (fun u => strncmp u.username name USERNAME_MAX == 0) users 0 i u hget
      ((username_match_iff u name (hwf u (List.mem_iff_getElem?.mpr ⟨_, hget⟩))).mpr hEq)
      (fun j hj x hx => by
        cases hpx : (strncmp x.username name USERNAME_MAX == 0) with
        | false => exact hpx
        | true =>
          exact absurd ((username_match_iff x name (hwf x (List.mem_iff_getElem?.mpr ⟨_, hx⟩))).mp hpx)
            (hbefore j hj x hx))
    simpa using this

/-- The result of `db_login` once the username resolves to a record. -/
theorem db_login_found (s : Store) (name pw : List Char) (i : Nat) (u : user_record)
    (h : read_user_by_username s.users name = some (i, u)) :
    db_login s name pw =
      if u.active = 0 ∨ strncmp u.password pw PASSWORD_MAX ≠ 0 ∨ u.session_active ≠ 0 then
        (-1, s, none)
      else
        (0, { s with users := s.users.set i { u with session_active := 1 } },
          some { u with session_active := 1 }) := by
  unfold db_login
  rw [h]
  simp [journal_write_and_sync_eq]

theorem db_login_not_found (s : Store) (name pw : List Char)
    (h : read_user_by_username s.users name = none) :
    db_login s name pw = (-1, s, none) := by
  unfold db_login
  rw [h]

/-- C8: on a users table whose text fields are NUL-terminated within their capacity,
`db_login` returns 0 exactly when the first record whose stored username equals the
given one exists, is active, stores the given password, and has no open session; on
success that record's `session_active` becomes 1, nothing else in the store changes,
and the record returned is the updated one; on failure the store is unchanged. -/
theorem login_iff (s : Store) (name pw : List Char)
    (hwf : ∀ x ∈ s.users, (cstr x.username).length < USERNAME_MAX ∧
      (cstr x.password).length < PASSWORD_MAX) :
    ((db_login s name pw).1 = 0 ↔
      ∃ (i : Nat) (u : user_record), s.users[i]? = some u ∧ cstr u.username = cstr name ∧
        (∀ j, j < i → ∀ x : user_record, s.users[j]? = some x → cstr x.username ≠ cstr name) ∧
        u.active ≠ 0 ∧ cstr u.password = cstr pw ∧ u.session_active = 0) ∧
    (∀ (i : Nat) (u : user_record), s.users[i]? = some u → cstr u.username = cstr name →
      (∀ j, j < i → ∀ x : user_record, s.users[j]? = some x → cstr x.username ≠ cstr name) →
      (db_login s name pw).1 = 0 →
      (db_login s name pw).2.1 = { s with users := s.users.set i { u with session_active := 1 } } ∧
      (db_login s name pw).2.2 = some { u with session_active := 1 }) ∧
    ((db_login s name pw).1 ≠ 0 →
      (db_login s name pw).1 = -1 ∧ (db_login s name pw).2.1 = s ∧ (db_login s name pw).2.2 = none) := by
  have hwfu : ∀ x ∈ s.users, (cstr x.username).length < USERNAME_MAX := fun x hx => (hwf x hx).1
  cases hr : read_user_by_username s.users name with
  | none =>
    rw [db_login_not_found s name pw hr]
    refine ⟨⟨fun h => by simp at h, ?_⟩, ?_, fun _ => ⟨rfl, rfl, rfl⟩⟩
    · rintro ⟨i, u, hget, hEq, hbefore, -⟩
      have := (read_user_by_username_iff s.users name i u hwfu).mpr ⟨hget, hEq, hbefore⟩
      rw [hr] at this
      exact Option.noConfusion this
    · intro i u hget hEq hbefore h0
      simp at h0
  | some iu =>
    obtain ⟨i, u⟩ := iu
    obtain ⟨hget, hEq, hbefore⟩ := (read_user_by_username_iff s.users name i u hwfu).mp hr
    have hpwiff := password_match_iff u pw (hwf u (List.mem_iff_getElem?.mpr ⟨_, hget⟩)).2
    rw [db_login_found s name pw i u hr]
    by_cases hc : u.active = 0 ∨ strncmp u.password pw PASSWORD_MAX ≠ 0 ∨ u.session_active ≠ 0
    · rw [if_pos hc]
      refine ⟨⟨fun h => by simp at h, ?_⟩, ?_, fun _ => ⟨rfl, rfl, rfl⟩⟩
      · rintro ⟨i2, u2, hget2, hEq2, hbefore2, hact, hpw, hsess⟩
        have hr2 := (read_user_by_username_iff s.users name i2 u2 hwfu).mpr ⟨hget2, hEq2, hbefore2⟩
        rw [hr] at hr2
        simp only [Option.some.injEq, Prod.mk.injEq] at hr2
        obtain ⟨-, rfl⟩ := hr2
        rcases hc with h | h | h
        · exact absurd h hact
        · exact absurd (hpwiff.mpr hpw) h
        · exact absurd hsess h
      · intro i2 u2 _ _ _ h0
        simp at h0
    · rw [if_neg hc]
      simp only [not_or, not_not] at hc
      refine ⟨⟨fun _ => ⟨i, u, hget, hEq, hbefore, hc.1, hpwiff.mp hc.2.1, hc.2.2⟩, fun _ => rfl⟩,
        ?_, fun h => absurd rfl h⟩
      intro i2 u2 hget2 hEq2 hbefore2 _
      have hr2 := (read_user_by_username_iff s.users name i2 u2 hwfu).mpr ⟨hget2, hEq2, hbefore2⟩
      rw [hr] at hr2
      simp only [Option.some.injEq, Prod.mk.injEq] at hr2
      obtain ⟨rfl, rfl⟩ := hr2
      exact ⟨rfl, rfl⟩

theorem login_iff_witness :
    (db_login (db_logout store_alice_logged_in 2).2 "alice".toList "pw1".toList).1 = 0 ∧
    ((db_login store_alice_logged_in "alice".toList "pw1".toList).1 = -1 ∧
      (db_login store_alice_logged_in "alice".toList "pw1".toList).2.1 = store_alice_logged_in ∧
      (db_login store_alice_logged_in "alice".toList "pw1".toList).2.2 = none) :=
  ⟨(login_iff (db_logout store_alice_logged_in 2).2 "alice".toList "pw1".toList (by decide)).1.mpr
      ⟨1, { id := 2, role := 1, active := 1, session_active := 0,
            username := text_buf 64 "alice", password := text_buf 128 "pw1" },
        by decide, by decide, by decide, by decide, by decide, by decide⟩,
    (login_iff store_alice_logged_in "alice".toList "pw1".toList (by decide)).2.2 (by decide)⟩

/-- A `db_login` call, whatever its arguments, keeps a logged-in user's record where
it is: the username and the id still resolve to the same record. -/
theorem db_login_keeps_session (s : Store) (name2 pw2 : List Char) (name : List Char) (uid : Int)
    (i : Nat) (u : user_record)
    (hname : read_user_by_username s.users name = some (i, u))
    (hid : read_user_by_id s.users uid = some (i, u))
    (hsess : u.session_active ≠ 0) :
    read_user_by_username (db_login s name2 pw2).2.1.users name = some (i, u) ∧
    read_user_by_id (db_login s name2 pw2).2.1.users uid = some (i, u) := by
  cases hr : read_user_by_username s.users name2 with
  | none =>
    rw [db_login_not_found s name2 pw2 hr]
    exact ⟨hname, hid⟩
  | some kv =>
    obtain ⟨k, v⟩ := kv
    rw [db_login_found s name2 pw2 k v hr]
    by_cases hc : v.active = 0 ∨ strncmp v.password pw2 PASSWORD_MAX ≠ 0 ∨ v.session_active ≠ 0
    · rw [if_pos hc]
      exact ⟨hname, hid⟩
    · rw [if_neg hc]
      simp only [not_or, not_not] at hc
      have hgv := (scan_records_get _ _ _ _ hr).1
      have hgu := (scan_records_get _ _ _ _ hname).1
      have hki : k ≠ i := by
        intro h; subst h
        rw [hgv] at hgu
        have : v = u := Option.some.inj hgu
        subst this
        exact hsess hc.2.2
      constructor
      · exact scan_records_set_other _ _ i k u v _ hname hgv rfl hki
      · exact scan_records_set_other _ _ i k u v _ hid hgv rfl hki

theorem login_attempts_keep_session (attempts : List (List Char × List Char)) :
    ∀ (s : Store) (name : List Char) (uid : Int) (i : Nat) (u : user_record),
      read_user_by_username s.users name = some (i, u) →
      read_user_by_id s.users uid = some (i, u) →
      u.session_active ≠ 0 →
      read_user_by_username (login_attempts s attempts).users name = some (i, u) ∧
      read_user_by_id (login_attempts s attempts).users uid = some (i, u) := by
  induction attempts with
  | nil => intro s name uid i u hname hid _; exact ⟨hname, hid⟩
  | cons np rest ih =>
    intro s name uid i u hname hid hsess
    obtain ⟨h1, h2⟩ := db_login_keeps_session s np.1 np.2 name uid i u hname hid hsess
    exact ih _ name uid i u h1 h2 hsess

/-- C7, as stated, fails once user ids have restarted.  The customer "carol" carries id
1, as the admin does, and has an open session.  `db_logout(1)` returns 0 but rewrites the
admin's record: carol's flag is still set and her `db_login` still fails. -/
theorem logout_other_record_counterexample :
    read_user_by_username store_id_restarted.users "carol".toList =
      some (2, { id := 1, role := 1, active := 1, session_active := 1,
                 username := text_buf 64 "carol", password := text_buf 128 "pw3" }) ∧
    (db_login store_id_restarted "carol".toList "pw3".toList).1 = -1 ∧
    (db_logout store_id_restarted 1).1 = 0 ∧
    read_user_by_username (db_logout store_id_restarted 1).2.users "carol".toList =
      some (2, { id := 1, role := 1, active := 1, session_active := 1,
                 username := text_buf 64 "carol", password := text_buf 128 "pw3" }) ∧
    (db_login (db_logout store_id_restarted 1).2 "carol".toList "pw3".toList).1 = -1 := by
  decide

/-- C7, amended to a user who is the first record with its user id: for a user with an
open session (the record `u` that its username resolves to and that is the first with
its id), `db_login` with that username and the stored password fails and leaves the
store unchanged, also after any sequence of further `db_login` calls; then `db_logout`
with the user's id succeeds and clears the flag, after which the same `db_login`
succeeds when the user is active. -/
theorem login_exclusive (s : Store) (i : Nat) (u : user_record) (name pw : List Char)
    (hname : read_user_by_username s.users name = some (i, u))
    (hid : read_user_by_id s.users u.id = some (i, u))
    (hpw : cstr u.password = cstr pw)
    (hsess : u.session_active ≠ 0) (attempts : List (List Char × List Char)) :
    (db_login (login_attempts s attempts) name pw).1 = -1 ∧
    (db_login (login_attempts s attempts) name pw).2.1 = login_attempts s attempts ∧
    (db_logout (login_attempts s attempts) u.id).1 = 0 ∧
    read_user_by_username (db_logout (login_attempts s attempts) u.id).2.users name =
      some (i, { u with session_active := 0 }) ∧
    (u.active ≠ 0 →
      (db_login (db_logout (login_attempts s attempts) u.id).2 name pw).1 = 0) := by
  obtain ⟨h1, h2⟩ := login_attempts_keep_session attempts s name u.id i u hname hid hsess
  have hlogout : db_logout (login_attempts s attempts) u.id =
      (0, { login_attempts s attempts with
            users := (login_attempts s attempts).users.set i { u with session_active := 0 } }) := by
    unfold db_logout
    rw [h2]
    simp [journal_write_and_sync_eq]
  have h3 : read_user_by_username
      ((login_attempts s attempts).users.set i { u with session_active := 0 }) name =
      some (i, { u with session_active := 0 }) :=
    scan_records_set_self _ _ i u _ h1 rfl
  rw [db_login_found _ name pw i u h1, hlogout]
  have hc : u.active = 0 ∨ strncmp u.password pw PASSWORD_MAX ≠ 0 ∨ u.session_active ≠ 0 :=
    Or.inr (Or.inr hsess)
  rw [if_pos hc]
  refine ⟨rfl, rfl, rfl, h3, ?_⟩
  intro hact
  rw [db_login_found _ name pw i { u with session_active := 0 } h3]
  have hs : strncmp u.password pw PASSWORD_MAX = 0 := strncmp_eq_zero_of_cstr_eq _ _ _ hpw
  simp [hact, hs]

theorem login_exclusive_witness :
    (db_login (login_attempts store_alice_logged_in
        [("alice".toList, "pw1".toList), ("admin".toList, "admin".toList)])
      "alice".toList "pw1".toList).1 = -1 ∧
    (db_logout (login_attempts store_alice_logged_in
        [("alice".toList, "pw1".toList), ("admin".toList, "admin".toList)]) 2).1 = 0 ∧
    (db_login (db_logout (login_attempts store_alice_logged_in
        [("alice".toList, "pw1".toList), ("admin".toList, "admin".toList)]) 2).2
      "alice".toList "pw1".toList).1 = 0 :=
  have h := login_exclusive store_alice_logged_in 1
    { id := 2, role := 1, active := 1, session_active := 1,
      username := text_buf 64 "alice", password := text_buf 128 "pw1" }
    "alice".toList "pw1".toList (by decide) (by decide) (by decide) (by decide)
    [("alice".toList, "pw1".toList), ("admin".toList, "admin".toList)]
  ⟨h.1, h.2.2.1, h.2.2.2.2 (by decide)⟩

/-! ## Identifier and account number allocation (C9, C10) -/

/-- The running maximum computed by the scan of `next_account_number`. -/
theorem foldl_max_account_number (l : List account_record) :
    ∀ m0 : Int,
      m0 ≤ l.foldl (fun maxno a => if a.account_number > maxno then a.account_number else maxno) m0 ∧
      (∀ a ∈ l, a.account_number ≤
        l.foldl (fun maxno a => if a.account_number > maxno then a.account_number else maxno) m0) ∧
      (l.foldl (fun maxno a => if a.account_number > maxno then a.account_number else maxno) m0 = m0 ∨
        ∃ a ∈ l, a.account_number =
          l.foldl (fun maxno a => if a.account_number > maxno then a.account_number else maxno) m0) := by
  induction l with
  | nil => intro m0; simp
  | cons x xs ih =>
    intro m0
    simp only [List.foldl_cons]
    by_cases hx : x.account_number > m0
    · rw [if_pos hx]
      obtain ⟨h1, h2, h3⟩ := ih x.account_number
      refine ⟨by omega, ?_, ?_⟩
      · intro a ha
        rcases List.mem_cons.mp ha with rfl | ha
        · exact h1
        · exact h2 a ha
      · rcases h3 with h | ⟨a, ha, hEq⟩
        · exact Or.inr ⟨x, List.mem_cons_self _ _, h.symm⟩
        · exact Or.inr ⟨a, List.mem_cons_of_mem _ ha, hEq⟩
    · rw [if_neg hx]
      obtain ⟨h1, h2, h3⟩ := ih m0
      refine ⟨h1, ?_, ?_⟩
      · intro a ha
        rcases List.mem_cons.mp ha with rfl | ha
        · omega
        · exact h2 a ha
      · rcases h3 with h | ⟨a, ha, hEq⟩
        · exact Or.inl h
        · exact Or.inr ⟨a, List.mem_cons_of_mem _ ha, hEq⟩

/-- C9, as stated, fails: on an empty accounts table `next_account_number` returns
1001, not 1000, and the first customer created on a freshly seeded store receives
account number 1001; and with an account number at the 32-bit maximum the result
wraps below the floor. -/
theorem next_account_number_counterexample :
    next_account_number [] = 1001 ∧ next_account_number [] ≠ 1000 ∧
    (db_add_user_with_account store_seeded "alice".toList "pw1".toList ROLE_CUSTOMER 1 100).2.2 =
      some (2, 1001) ∧
    next_account_number [{ id := 1, user_id := 2, account_number := 2147483647, balance := 0 }] =
      -2147483648 := by
  decide

/-- C9, amended: for an accounts table whose account numbers are below the 32-bit
maximum, `next_account_number` returns `m + 1` where `m` is the larger of 1000 and the
maximum account number in the table, so never less than 1001; on an empty table it
returns 1001, and the first customer created by `db_add_user_with_account` on a store
with an empty accounts table receives account number 1001. -/
theorem next_account_number_spec :
    (∀ accts : List account_record, (∀ a ∈ accts, a.account_number < INT32_MAX) →
      1000 ≤ next_account_number accts - 1 ∧
      (∀ a ∈ accts, a.account_number ≤ next_account_number accts - 1) ∧
      (next_account_number accts - 1 = 1000 ∨
        ∃ a ∈ accts, a.account_number = next_account_number accts - 1)) ∧
    next_account_number [] = 1001 ∧
    (∀ (s : Store) (name pw : List Char) (active bal : Int),
      s.accounts = [] → read_user_by_username s.users name = none →
      (db_add_user_with_account s name pw ROLE_CUSTOMER active bal).1 = 0 ∧
      (db_add_user_with_account s name pw ROLE_CUSTOMER active bal).2.2 =
        some (next_id_from_file s.users user_record.id, 1001) ∧
      (db_add_user_with_account s name pw ROLE_CUSTOMER active bal).2.1.accounts =
        [{ id := 1, user_id := next_id_from_file s.users user_record.id,
           account_number := 1001, balance := bal }]) := by
  refine ⟨?_, by decide, ?_⟩
  · intro accts hlt
    obtain ⟨h1, h2, h3⟩ := foldl_max_account_number accts 1000
    have hbound : accts.foldl
        (fun maxno a => if a.account_number > maxno then a.account_number else maxno) 1000
        < INT32_MAX := by
      rcases h3 with h | ⟨a, ha, hEq⟩
      · rw [h]; decide
      · rw [← hEq]; exact hlt a ha
    have hw : next_account_number accts = accts.foldl
        (fun maxno a => if a.account_number > maxno then a.account_number else maxno) 1000 + 1 := by
      unfold next_account_number
      apply wrap32_of_range
      · omega
      · unfold INT32_MAX at hbound; omega
    rw [hw]
    simp only [Int.add_sub_cancel]
    exact ⟨h1, h2, h3⟩
  · intro s name pw active bal hacc hname
    unfold db_add_user_with_account
    rw [hname, hacc]
    simp [next_id_from_file]
    decide

theorem next_account_number_spec_witness :
    1000 ≤ next_account_number store_two_accounts.accounts - 1 ∧
    next_account_number store_two_accounts.accounts = 1002 ∧
    (db_add_user_with_account store_seeded "alice".toList "pw1".toList ROLE_CUSTOMER 1 100).2.2 =
      some (next_id_from_file store_seeded.users user_record.id, 1001) :=
  ⟨(next_account_number_spec.1 store_two_accounts.accounts (by decide)).1, by decide,
    (next_account_number_spec.2.2 store_seeded "alice".toList "pw1".toList 1 100
      (by decide) (by decide)).2.1⟩

/-- C10: `next_id_from_file` returns 1 on an empty table, 1 when the id of the last
record is outside `[0, 10000]`, and that id plus one otherwise; the records before
the last one have no influence. -/
theorem next_id_from_file_spec {α : Type} (id_of : α → Int) :
    next_id_from_file ([] : List α) id_of = 1 ∧
    (∀ (pre : List α) (r : α), (id_of r < 0 ∨ 10000 < id_of r) →
      next_id_from_file (pre ++ [r]) id_of = 1) ∧
    (∀ (pre : List α) (r : α), 0 ≤ id_of r → id_of r ≤ 10000 →
      next_id_from_file (pre ++ [r]) id_of = id_of r + 1) ∧
    (∀ (pre pre2 : List α) (r : α),
      next_id_from_file (pre ++ [r]) id_of = next_id_from_file (pre2 ++ [r]) id_of) := by
  refine ⟨rfl, ?_, ?_, ?_⟩
  · intro pre r h
    unfold next_id_from_file
    simp
    intro h1 h2
    omega
  · intro pre r h1 h2
    unfold next_id_from_file
    simp
    intro h3
    omega
  · intro pre pre2 r
    unfold next_id_from_file
    simp

theorem next_id_from_file_spec_witness :
    next_id_from_file (store_two_accounts.accounts.take 1 ++
      [{ id := 2, user_id := 3, account_number := 1001, balance := 50 }]) account_record.id = 2 + 1 ∧
    next_id_from_file ([] ++
      [{ id := 10001, user_id := 3, account_number := 1001, balance := 50 }]) account_record.id = 1 :=
  ⟨(next_id_from_file_spec account_record.id).2.2.1 (store_two_accounts.accounts.take 1)
      { id := 2, user_id := 3, account_number := 1001, balance := 50 } (by decide) (by decide),
    (next_id_from_file_spec account_record.id).2.1 []
      { id := 10001, user_id := 3, account_number := 1001, balance := 50 } (by decide)⟩

/-! ## Legacy migration: first pass (C12) -/

theorem legacy_count_cons (a : account_record) (l : List account_record) :
    legacy_count (a :: l) = legacy_count l + if a.account_number < 1000 then 1 else 0 := by
  unfold legacy_count
  rw [List.countP_cons]
  simp

theorem migrate_renumber_cons_keep (a : account_record) (rest : List account_record) (m : Int)
    (c : Nat) (h : ¬ (a.account_number < 1000 ∧ c < 1024)) :
    migrate_renumber (a :: rest) m c =
      (a :: (migrate_renumber rest m c).1, (migrate_renumber rest m c).2) := by
  rw [migrate_renumber]
  by_cases ha : a.account_number < 1000
  · have hc : ¬ c < 1024 := fun hc => h ⟨ha, hc⟩
    rw [if_pos ha, if_neg hc]
  · rw [if_neg ha]

theorem migrate_renumber_cons_remap (a : account_record) (rest : List account_record) (m : Int)
    (c : Nat) (ha : a.account_number < 1000) (hc : c < 1024) :
    migrate_renumber (a :: rest) m c =
      ({ a with account_number := wrap32 (m + 1) } ::
          (migrate_renumber rest (wrap32 (m + 1)) (c + 1)).1,
       { old_no := a.account_number, new_no := wrap32 (m + 1) } ::
          (migrate_renumber rest (wrap32 (m + 1)) (c + 1)).2) := by
  rw [migrate_renumber, if_pos ha, if_pos hc]

/-- Once the remaps array is full the scan leaves every record as it is. -/
theorem migrate_renumber_full (l : List account_record) :
    ∀ (m : Int) (c : Nat), 1024 ≤ c → migrate_renumber l m c = (l, []) := by
  induction l with
  | nil => intro m c _; rfl
  | cons a rest ih =>
    intro m c hc
    unfold migrate_renumber
    have hnot : ¬ c < 1024 := by omega
    simp [hnot, ih m c hc]

/-- A table without numbers below 1000 is left as it is and nothing is recorded. -/
theorem migrate_renumber_no_legacy (l : List account_record) :
    ∀ (m : Int) (c : Nat), (∀ a ∈ l, 1000 ≤ a.account_number) → migrate_renumber l m c = (l, []) := by
  induction l with
  | nil => intro m c _; rfl
  | cons a rest ih =>
    intro m c h
    unfold migrate_renumber
    have ha : ¬ a.account_number < 1000 := by
      have := h a (List.mem_cons_self _ _); omega
    simp [ha, ih m c (fun x hx => h x (List.mem_cons_of_mem _ hx))]

/-- The second scan, within the capacity of the remaps array and of `int`: each record
numbered below 1000 receives `maxno + 1 +` the number of such records before it, and
nothing else changes. -/
theorem migrate_renumber_spec (l : List account_record) :
    ∀ (m : Int) (c : Nat), c + legacy_count l ≤ 1024 → -2147483648 ≤ m →
      m + legacy_count l ≤ INT32_MAX →
      (migrate_renumber l m c).1.length = l.length ∧
      ∀ (j : Nat) (a : account_record), l[j]? = some a →
        ∃ b, (migrate_renumber l m c).1[j]? = some b ∧
          b.id = a.id ∧ b.user_id = a.user_id ∧ b.balance = a.balance ∧
          (1000 ≤ a.account_number → b = a) ∧
          (a.account_number < 1000 → b.account_number = m + 1 + legacy_count (l.take j)) := by
  induction l with
  | nil => intro m c _ _ _; simp [migrate_renumber]
  | cons x rest ih =>
    intro m c hc hm hmax
    rw [legacy_count_cons] at hc hmax
    unfold migrate_renumber
    by_cases hx : x.account_number < 1000
    · rw [if_pos hx] at hc hmax
      have hc1 : c < 1024 := by omega
      have hw : wrap32 (m + 1) = m + 1 := by
        apply wrap32_of_range
        · omega
        · unfold INT32_MAX at hmax; push_cast at hmax; omega
      rw [if_pos hx, if_pos hc1, hw]
      obtain ⟨hlen, hrec⟩ := ih (m + 1) (c + 1) (by omega) (by omega) (by push_cast at hmax ⊢; omega)
      refine ⟨by simp [hlen], ?_⟩
      intro j a hj
      cases j with
      | zero =>
        simp at hj; subst hj
        refine ⟨{ x with account_number := m + 1 }, by simp, rfl, rfl, rfl, ?_, ?_⟩
        · intro h; omega
        · intro _; simp [legacy_count]
      | succ j =>
        obtain ⟨b, hb, h1, h2, h3, h4, h5⟩ := hrec j a (by simpa using hj)
        refine ⟨b, by simpa using hb, h1, h2, h3, h4, ?_⟩
        intro ha
        rw [h5 ha, List.take_succ_cons, legacy_count_cons, if_pos hx]
        push_cast; omega
    · rw [if_neg hx] at hc hmax
      rw [if_neg hx]
      obtain ⟨hlen, hrec⟩ := ih m c (by omega) hm (by simpa using hmax)
      refine ⟨by simp [hlen], ?_⟩
      intro j a hj
      cases j with
      | zero =>
        simp at hj; subst hj
        refine ⟨x, by simp, rfl, rfl, rfl, fun _ => rfl, fun h => absurd h hx⟩
      | succ j =>
        obtain ⟨b, hb, h1, h2, h3, h4, h5⟩ := hrec j a (by simpa using hj)
        refine ⟨b, by simpa using hb, h1, h2, h3, h4, ?_⟩
        intro ha
        rw [h5 ha, List.take_succ_cons, legacy_count_cons, if_neg hx]
        simp

/-- A record numbered below 1000 at position `j` counts among those before any later
position. -/
theorem legacy_count_take_lt (l : List account_record) (j j2 : Nat) (a : account_record)
    (hj : l[j]? = some a) (ha : a.account_number < 1000) (hlt : j < j2) :
    legacy_count (l.take j) < legacy_count (l.take j2) := by
  have h1 : l.take j2 = l.take j ++ (l.drop j).take (j2 - j) := by
    have : j2 = j + (j2 - j) := by omega
    conv_lhs => rw [this]
    exact List.take_add _ _ _
  have h2 : l.drop j = a :: l.drop (j + 1) := by
    have hjl : j < l.length := by
      rcases Nat.lt_or_ge j l.length with h | h
      · exact h
      · rw [List.getElem?_eq_none h] at hj; exact Option.noConfusion hj
    rw [List.drop_eq_getElem_cons hjl]
    rw [List.getElem?_eq_getElem hjl] at hj
    rw [Option.some.inj hj]
  obtain ⟨k, hk⟩ : ∃ k, j2 - j = k + 1 := ⟨j2 - j - 1, by omega⟩
  rw [h1, h2, hk, List.take_succ_cons]
  unfold legacy_count
  rw [List.countP_append, List.countP_cons]
  simp [ha]

theorem migrate_scan_max_ge (accts : List account_record) :
    1000 ≤ migrate_scan_max accts ∧ ∀ a ∈ accts, a.account_number ≤ migrate_scan_max accts := by
  obtain ⟨h1, h2, -⟩ := foldl_max_account_number accts 1000
  exact ⟨h1, h2⟩

/-- The accounts table a finished run leaves is the table of the first pass; the rest of
the store, the log apart, is untouched. -/
theorem migrate_accounts_eq (fuel : Nat) (s : Store) (r : Int × Store)
    (hr : migrate_account_numbers_if_needed fuel s = some r) :
    r.1 = 0 ∧ r.2.accounts = (migrate_first_pass s.accounts).1 ∧ r.2.users = s.users ∧
      r.2.loans = s.loans ∧ r.2.feedback_log = s.feedback_log := by
  unfold migrate_account_numbers_if_needed at hr
  split at hr
  · rw [← Option.some.inj hr]; exact ⟨rfl, rfl, rfl, rfl, rfl⟩
  · split at hr
    · exact Option.noConfusion hr
    · rw [← Option.some.inj hr]; exact ⟨rfl, rfl, rfl, rfl, rfl⟩

/-- Within the capacity of the remaps array and of `int`, no number below 1000 is left
after the first pass. -/
theorem migrate_first_pass_all_ge (accts : List account_record)
    (hcap : legacy_count accts ≤ 1024)
    (hmax : migrate_scan_max accts + legacy_count accts ≤ INT32_MAX) :
    ∀ b ∈ (migrate_first_pass accts).1, 1000 ≤ b.account_number := by
  obtain ⟨hge, -⟩ := migrate_scan_max_ge accts
  obtain ⟨hlen, hrec⟩ := migrate_renumber_spec accts (migrate_scan_max accts) 0
    (by omega) (by omega) hmax
  intro b hb
  obtain ⟨j, hj⟩ := List.mem_iff_getElem?.mp hb
  have hjlen : j < accts.length := by
    rw [← hlen]
    rcases Nat.lt_or_ge j (migrate_first_pass accts).1.length with h | h
    · exact h
    · rw [List.getElem?_eq_none h] at hj; exact Option.noConfusion hj
  obtain ⟨b3, hb3, -, -, -, h4, h5⟩ := hrec j accts[j] (List.getElem?_eq_getElem hjlen)
  unfold migrate_first_pass at hj
  rw [hb3] at hj
  have hbb : b3 = b := Option.some.inj hj
  subst hbb
  by_cases ha : accts[j].account_number < 1000
  · rw [h5 ha]; omega
  · rw [h4 (by omega)]; omega

/-- C12, as stated, fails: in a table of 1025 accounts numbered 5 the last record keeps
number 5 after the first pass (the remaps array holds 1024 entries); and beside an
account numbered `2^31 - 1` the legacy account 5 is renumbered to `-2^31`. -/
theorem migrate_first_pass_counterexample :
    (migrate_first_pass store_1025_legacy.accounts).1.getLast? = some legacy_account ∧
    legacy_account.account_number < 1000 ∧
    (migrate_first_pass store_legacy_at_int_max.accounts).1 =
      [{ id := 1, user_id := 2, account_number := 2147483647, balance := 0 },
       { id := 2, user_id := 3, account_number := -2147483648, balance := 1 }] := by
  refine ⟨?_, by decide, by decide⟩
  have hcap : ∀ (n : Nat) (m : Int) (c : Nat), c + n = 1024 →
      ∃ X, (migrate_renumber (List.replicate n legacy_account ++ [legacy_account]) m c).1 =
        X ++ [legacy_account] := by
    intro n
    induction n with
    | zero =>
      intro m c hc
      refine ⟨[], ?_⟩
      rw [migrate_renumber_full _ m c (by omega)]
      rfl
    | succ n ih =>
      intro m c hc
      obtain ⟨X, hX⟩ := ih (wrap32 (m + 1)) (c + 1) (by omega)
      refine ⟨{ legacy_account with account_number := wrap32 (m + 1) } :: X, ?_⟩
      have hc1 : c < 1024 := by omega
      have hl : legacy_account.account_number < 1000 := by decide
      rw [List.replicate_succ, List.cons_append]
      unfold migrate_renumber
      rw [if_pos hl, if_pos hc1]
      simp only [List.cons_append, List.cons.injEq, true_and]
      exact hX
  obtain ⟨X, hX⟩ := hcap 1024 (migrate_scan_max store_1025_legacy.accounts) 0 (by omega)
  unfold migrate_first_pass
  show (migrate_renumber (List.replicate 1024 legacy_account ++ [legacy_account]) _ 0).1.getLast? = _
  rw [hX]
  simp

/-- C12, amended: for an accounts table with at most 1024 records numbered below 1000
and whose largest number (or 1000) plus the count of such records stays within the
32-bit range, after the first pass: the table has the same length; every record keeps
its id, user id and balance; every number is at least 1000; records numbered at least
1000 are unchanged; and each record that was numbered below 1000 carries a number
greater than every number present before and different from the number of every other
record.  The table a finished run leaves is the table of the first pass. -/
theorem migrate_first_pass_spec (s : Store)
    (hcap : legacy_count s.accounts ≤ 1024)
    (hmax : migrate_scan_max s.accounts + legacy_count s.accounts ≤ INT32_MAX) :
    (migrate_first_pass s.accounts).1.length = s.accounts.length ∧
    (∀ (j : Nat) (a : account_record), s.accounts[j]? = some a →
      ∃ b, (migrate_first_pass s.accounts).1[j]? = some b ∧
        b.id = a.id ∧ b.user_id = a.user_id ∧ b.balance = a.balance ∧
        1000 ≤ b.account_number ∧
        (1000 ≤ a.account_number → b = a) ∧
        (a.account_number < 1000 →
          (∀ x ∈ s.accounts, x.account_number < b.account_number) ∧
          ∀ (j2 : Nat) (b2 : account_record), j2 ≠ j →
            (migrate_first_pass s.accounts).1[j2]? = some b2 →
            b2.account_number ≠ b.account_number)) ∧
    (∀ (fuel : Nat) (r : Int × Store), migrate_account_numbers_if_needed fuel s = some r →
      r.2.accounts = (migrate_first_pass s.accounts).1) := by
  obtain ⟨hge, hall⟩ := migrate_scan_max_ge s.accounts
  obtain ⟨hlen, hrec⟩ := migrate_renumber_spec s.accounts (migrate_scan_max s.accounts) 0
    (by omega) (by omega) hmax
  refine ⟨hlen, ?_, ?_⟩
  · intro j a hj
    obtain ⟨b, hb, h1, h2, h3, h4, h5⟩ := hrec j a hj
    refine ⟨b, hb, h1, h2, h3, ?_, h4, ?_⟩
    · by_cases ha : a.account_number < 1000
      · rw [h5 ha]; omega
      · rw [h4 (by omega)]; omega
    · intro ha
      refine ⟨?_, ?_⟩
      · intro x hx
        have := hall x hx
        rw [h5 ha]; omega
      · intro j2 b2 hne hb2
        have hj2len : j2 < s.accounts.length := by
          rw [← hlen]
          rcases Nat.lt_or_ge j2 (migrate_first_pass s.accounts).1.length with h | h
          · exact h
          · rw [List.getElem?_eq_none h] at hb2; exact Option.noConfusion hb2
        obtain ⟨b3, hb3, -, -, -, h4b, h5b⟩ := hrec j2 s.accounts[j2] (List.getElem?_eq_getElem hj2len)
        have hb23 : b2 = b3 := by
          unfold migrate_first_pass at hb2
          rw [hb3] at hb2
          exact (Option.some.inj hb2).symm
        subst hb23
        by_cases ha2 : s.accounts[j2].account_number < 1000
        · rw [h5 ha, h5b ha2]
          rcases Nat.lt_or_gt_of_ne hne with hlt | hgt
          · have := legacy_count_take_lt s.accounts j2 j _ (List.getElem?_eq_getElem hj2len) ha2 hlt
            omega
          · have := legacy_count_take_lt s.accounts j j2 a hj ha hgt
            omega
        · rw [h4b (by omega), h5 ha]
          have := hall s.accounts[j2] (List.getElem_mem _)
          omega
  · intro fuel r hr
    exact (migrate_accounts_eq fuel s r hr).2.1

theorem migrate_first_pass_spec_witness :
    (migrate_first_pass store_legacy_and_5000.accounts).1.length =
      store_legacy_and_5000.accounts.length ∧
    ∃ b, (migrate_first_pass store_legacy_and_5000.accounts).1[0]? = some b ∧
      b.id = 1 ∧ b.user_id = 2 ∧ b.balance = 10 ∧ 1000 ≤ b.account_number :=
  have h := migrate_first_pass_spec store_legacy_and_5000 (by decide) (by decide)
  ⟨h.1, (h.2.1 0 { id := 1, user_id := 2, account_number := 5, balance := 10 } (by decide)).imp
    (fun _ hb => ⟨hb.1, hb.2.1, hb.2.2.1, hb.2.2.2.1, hb.2.2.2.2.1⟩)⟩

/-! ## Migration run twice (C11) -/

/-- A prefix of records numbered below 1000 that fills the remaps array exactly: what
follows it is left as it is. -/
theorem migrate_renumber_append_full (l : List account_record) (tail : List account_record) :
    ∀ (m : Int) (c : Nat), (∀ a ∈ l, a.account_number < 1000) → c + l.length = 1024 →
      (migrate_renumber (l ++ tail) m c).1 = (migrate_renumber l m c).1 ++ tail := by
  induction l with
  | nil =>
    intro m c _ hc
    rw [List.nil_append, migrate_renumber_full _ m c (by simp at hc; omega)]
    rfl
  | cons a rest ih =>
    intro m c hl hc
    have ha : a.account_number < 1000 := hl a (List.mem_cons_self _ _)
    have hc1 : c < 1024 := by simp at hc; omega
    rw [List.cons_append, migrate_renumber_cons_remap _ _ _ _ ha hc1,
      migrate_renumber_cons_remap _ _ _ _ ha hc1]
    simp only [List.cons_append, List.cons.injEq, true_and]
    exact ih _ _ (fun x hx => hl x (List.mem_cons_of_mem _ hx)) (by simp at hc ⊢; omega)

/-- A prefix without numbers below 1000 is passed over. -/
theorem migrate_renumber_append_no_legacy (l : List account_record) (tail : List account_record) :
    ∀ (m : Int) (c : Nat), (∀ a ∈ l, 1000 ≤ a.account_number) →
      migrate_renumber (l ++ tail) m c =
        (l ++ (migrate_renumber tail m c).1, (migrate_renumber tail m c).2) := by
  induction l with
  | nil => intro m c _; rfl
  | cons a rest ih =>
    intro m c hl
    have ha : ¬ (a.account_number < 1000 ∧ c < 1024) := by
      have := hl a (List.mem_cons_self _ _); omega
    rw [List.cons_append, migrate_renumber_cons_keep _ _ _ _ ha,
      ih m c (fun x hx => hl x (List.mem_cons_of_mem _ hx))]
    rfl

/-- With an empty log a run always finishes. -/
theorem migrate_empty_log (fuel : Nat) (s : Store) (hlog : s.txn_log = []) :
    migrate_account_numbers_if_needed fuel s =
      some (0, { s with accounts := (migrate_first_pass s.accounts).1 }) := by
  unfold migrate_account_numbers_if_needed
  split
  · rfl
  · rw [hlog]
    simp only [rewrite_log]

/-- The table of 1025 legacy accounts after one pass: 1024 renumbered records, none of
them below 1000, followed by the untouched last record. -/
theorem migrate_1025_first_pass :
    ∃ X : List account_record, (∀ b ∈ X, 1000 ≤ b.account_number ∧ b.account_number ≤ 2024) ∧
      (migrate_first_pass store_1025_legacy.accounts).1 = X ++ [legacy_account] := by
  have hall : ∀ a ∈ List.replicate 1024 legacy_account, a.account_number < 1000 := by
    intro a ha
    rw [List.eq_of_mem_replicate ha]
    decide
  have hmax : migrate_scan_max store_1025_legacy.accounts = 1000 := by
    obtain ⟨-, -, h3⟩ := foldl_max_account_number store_1025_legacy.accounts 1000
    obtain ⟨hge, -⟩ := migrate_scan_max_ge store_1025_legacy.accounts
    rcases h3 with h | ⟨a, ha, hEq⟩
    · exact h
    · have ha5 : a.account_number = 5 := by
        have hmem : a ∈ List.replicate 1024 legacy_account ++ [legacy_account] := ha
        rcases List.mem_append.mp hmem with h | h
        · rw [List.eq_of_mem_replicate h]; rfl
        · rw [List.mem_singleton.mp h]; rfl
      unfold migrate_scan_max at hge
      omega
  have hcount : legacy_count (List.replicate 1024 legacy_account) ≤ 1024 := by
    unfold legacy_count
    exact (List.countP_le_length _).trans (by rw [List.length_replicate])
  obtain ⟨hlen, hrec⟩ := migrate_renumber_spec (List.replicate 1024 legacy_account) 1000 0
    (by omega) (by omega) (by unfold INT32_MAX; omega)
  refine ⟨(migrate_renumber (List.replicate 1024 legacy_account) 1000 0).1, ?_, ?_⟩
  · intro b hb
    obtain ⟨j, hj⟩ := List.mem_iff_getElem?.mp hb
    have hjlen : j < (List.replicate 1024 legacy_account).length := by
      rw [← hlen]
      rcases Nat.lt_or_ge j (migrate_renumber (List.replicate 1024 legacy_account) 1000 0).1.length
        with h | h
      · exact h
      · rw [List.getElem?_eq_none h] at hj; exact Option.noConfusion hj
    obtain ⟨b3, hb3, -, -, -, -, h5⟩ :=
      hrec j (List.replicate 1024 legacy_account)[j] (List.getElem?_eq_getElem hjlen)
    rw [hb3] at hj
    have hbb : b3 = b := Option.some.inj hj
    subst hbb
    have hleg := hall _ (List.getElem_mem hjlen)
    have hcnt : legacy_count ((List.replicate 1024 legacy_account).take j) ≤ 1023 := by
      unfold legacy_count
      refine (List.countP_le_length _).trans ?_
      rw [List.length_take]
      rw [List.length_replicate] at hjlen ⊢
      omega
    rw [h5 hleg]
    omega
  · unfold migrate_first_pass
    rw [hmax]
    exact migrate_renumber_append_full _ _ 1000 0 hall (by rw [List.length_replicate])

/-- When the first pass leaves renumbered records followed by one record 5 and the log
is empty, a second run renumbers that record. -/
theorem migrate_twice_changes (s : Store) (X : List account_record) (hlog : s.txn_log = [])
    (hX : ∀ b ∈ X, 1000 ≤ b.account_number ∧ b.account_number ≤ 2024)
    (hfirst : (migrate_first_pass s.accounts).1 = X ++ [legacy_account]) :
    ∃ s1 s2, migrate_account_numbers_if_needed 0 s = some (0, s1) ∧
      migrate_account_numbers_if_needed 0 s1 = some (0, s2) ∧ s2.accounts ≠ s1.accounts := by
  have hXge : ∀ a ∈ X, 1000 ≤ a.account_number := fun a ha => (hX a ha).1
  refine ⟨{ s with accounts := (migrate_first_pass s.accounts).1 },
    { s with accounts := (migrate_first_pass (migrate_first_pass s.accounts).1).1 },
    migrate_empty_log 0 s hlog, migrate_empty_log 0 _ hlog, ?_⟩
  show (migrate_first_pass (migrate_first_pass s.accounts).1).1 ≠
    (migrate_first_pass s.accounts).1
  rw [hfirst]
  unfold migrate_first_pass
  rw [migrate_renumber_append_no_legacy X _ _ 0 hXge,
    migrate_renumber_cons_remap _ _ _ _ (by decide) (by decide)]
  simp only [migrate_renumber]
  intro h
  have h2 := List.append_cancel_left h
  simp only [List.cons.injEq, and_true] at h2
  have h3 := congrArg account_record.account_number h2
  obtain ⟨hge, -⟩ := migrate_scan_max_ge (X ++ [legacy_account])
  obtain ⟨-, -, hmax⟩ := foldl_max_account_number (X ++ [legacy_account]) 1000
  have hle : migrate_scan_max (X ++ [legacy_account]) ≤ 2024 := by
    rcases hmax with h | ⟨a, ha, hEq⟩
    · unfold migrate_scan_max; omega
    · unfold migrate_scan_max
      rw [← hEq]
      rcases List.mem_append.mp ha with h | h
      · exact (hX a h).2
      · rw [List.mem_singleton.mp h]; decide
  have hw : wrap32 (migrate_scan_max (X ++ [legacy_account]) + 1) =
      migrate_scan_max (X ++ [legacy_account]) + 1 := wrap32_of_range (by omega) (by omega)
  simp only [hw] at h3
  have h5 : legacy_account.account_number = 5 := rfl
  omega

/-- A substitution of a tag by itself in a line that holds it never ends. -/
theorem replace_tag_loop_same_tag :
    ∀ fuel, replace_tag_loop (acct_tag (-2147483648)) (acct_tag (-2147483648)) fuel
      "7|acct=-2147483648|DEPOSIT|amt=1|bal=1|-\n".toList = none := by
  intro fuel
  induction fuel with
  | zero => rfl
  | succ n ih =>
    have hfind : strstr "7|acct=-2147483648|DEPOSIT|amt=1|bal=1|-\n".toList
        (acct_tag (-2147483648)) = some 2 := by decide
    have hsame : ("7|acct=-2147483648|DEPOSIT|amt=1|bal=1|-\n".toList.take 2 ++
        acct_tag (-2147483648) ++
        "7|acct=-2147483648|DEPOSIT|amt=1|bal=1|-\n".toList.drop
          (2 + (acct_tag (-2147483648)).length)) =
        "7|acct=-2147483648|DEPOSIT|amt=1|bal=1|-\n".toList := by decide
    have hguard : ¬ (2 + (acct_tag (-2147483648)).length +
        ("7|acct=-2147483648|DEPOSIT|amt=1|bal=1|-\n".toList.length - 2 -
          (acct_tag (-2147483648)).length) + 1 ≥ 2048) := by decide
    rw [replace_tag_loop, hfind]
    simp only [hguard, if_false, hsame]
    exact ih

/-- C11, as stated, fails.  With 1025 legacy accounts (and an empty log) the first run
renumbers 1024 of them and the second run renumbers the last one, so the second run
changes the accounts table.  With an account numbered `2^31 - 1` the legacy account 5
becomes `-2^31`, which the second run takes for a legacy number again: it records a
remap of `-2^31` to itself and its substitution loop on the log line never ends. -/
theorem migrate_twice_counterexample :
    (∃ s1 s2, migrate_account_numbers_if_needed 0 store_1025_legacy = some (0, s1) ∧
      migrate_account_numbers_if_needed 0 s1 = some (0, s2) ∧ s2.accounts ≠ s1.accounts) ∧
    (migrate_account_numbers_if_needed 2 store_legacy_at_int_max =
        some (0, store_legacy_at_int_max_migrated) ∧
      (migrate_first_pass store_legacy_at_int_max_migrated.accounts).2 =
        [{ old_no := -2147483648, new_no := -2147483648 }] ∧
      ∀ fuel, migrate_account_numbers_if_needed fuel store_legacy_at_int_max_migrated = none) := by
  constructor
  · obtain ⟨X, hX, hfirst⟩ := migrate_1025_first_pass
    exact migrate_twice_changes store_1025_legacy X rfl hX hfirst
  · have hpass : (migrate_first_pass store_legacy_at_int_max_migrated.accounts).2 =
        [{ old_no := -2147483648, new_no := -2147483648 }] := by decide
    refine ⟨by decide, hpass, ?_⟩
    intro fuel
    unfold migrate_account_numbers_if_needed
    rw [hpass, if_neg (by simp)]
    have hlog : store_legacy_at_int_max_migrated.txn_log =
        ["7|acct=-2147483648|DEPOSIT|amt=1|bal=1|-\n"] := rfl
    rw [hlog, rewrite_log, apply_remaps, replace_tag_loop_same_tag fuel]

/-- C11, amended: for an accounts table with at most 1024 records numbered below 1000
and whose largest number (or 1000) plus the count of such records stays within the
32-bit range, and every transaction log: once a first run has finished, a second run
records no remap, returns 0, and leaves the accounts table, the transaction log and the
rest of the store exactly as the first run left them. -/
theorem migrate_twice (s : Store) (fuel : Nat) (r : Int × Store)
    (hcap : legacy_count s.accounts ≤ 1024)
    (hmax : migrate_scan_max s.accounts + legacy_count s.accounts ≤ INT32_MAX)
    (hfirst : migrate_account_numbers_if_needed fuel s = some r) (fuel2 : Nat) :
    (migrate_first_pass r.2.accounts).2 = [] ∧
    migrate_account_numbers_if_needed fuel2 r.2 = some (0, r.2) := by
  have hacc := (migrate_accounts_eq fuel s r hfirst).2.1
  have hge : ∀ b ∈ r.2.accounts, 1000 ≤ b.account_number := by
    rw [hacc]; exact migrate_first_pass_all_ge s.accounts hcap hmax
  have hpass : migrate_first_pass r.2.accounts = (r.2.accounts, []) :=
    migrate_renumber_no_legacy _ _ _ hge
  refine ⟨by rw [hpass], ?_⟩
  unfold migrate_account_numbers_if_needed
  rw [hpass]
  simp

theorem migrate_twice_witness :
    (migrate_first_pass store_legacy_and_5000_migrated.accounts).2 = [] ∧
    migrate_account_numbers_if_needed 0 store_legacy_and_5000_migrated =
      some (0, store_legacy_and_5000_migrated) :=
  migrate_twice store_legacy_and_5000 3 (0, store_legacy_and_5000_migrated)
    (by decide) (by decide) (by decide) 0

/-! ## Log rewrite (C13) -/

/-- C13 fails on the code: the substitution looks for the text `acct=5` anywhere in
the line.  With legacy account 5 renumbered to 6001 beside the untouched account 5000,
the line of account 5 is rewritten to `acct=6001`, and the line of account 5000, which
is no remapped number, is rewritten to `acct=6001000`. -/
theorem rewrite_log_corrupts_other_account :
    (migrate_first_pass store_legacy_and_5000.accounts).2 = [{ old_no := 5, new_no := 6001 }] ∧
    (migrate_account_numbers_if_needed 3 store_legacy_and_5000).map (fun r => r.2.txn_log) =
      some ["7|acct=6001|DEPOSIT|amt=10|bal=10|-\n", "8|acct=6001000|DEPOSIT|amt=1|bal=1|-\n"] ∧
    (migrate_account_numbers_if_needed 3 store_legacy_and_5000).map (fun r => r.2.accounts) =
      some [{ id := 1, user_id := 2, account_number := 6001, balance := 10 },
            { id := 2, user_id := 3, account_number := 5000, balance := 1 },
            { id := 3, user_id := 4, account_number := 6000, balance := 0 }] := by
  decide

/-! ## Provisioning: usernames and account numbers (C14, C16) -/

/-- C14, as stated, fails: a username of 64 bytes is stored cut to 63 bytes, and the
duplicate check compares the stored 63 bytes with the uncut name, so it never matches.
On a users table with unique usernames the second creation of the same 64-byte name
returns 0 and leaves two records storing the same username. -/
theorem add_user_long_username_counterexample :
    usernames_unique store_long_username ∧
    (db_add_user_with_account store_long_username long_username "pw".toList ROLE_EMPLOYEE 1 0).1 = 0 ∧
    ¬ usernames_unique
      (db_add_user_with_account store_long_username long_username "pw".toList ROLE_EMPLOYEE 1 0).2.1 ∧
    (db_add_user_with_account store_long_username long_username "pw".toList
        ROLE_EMPLOYEE 1 0).2.1.users.map (fun u => cstr u.username) =
      ["admin".toList, List.replicate 63 'a', List.replicate 63 'a'] := by
  decide

theorem mem_cstr_ne_nul (b : List Char) : ∀ c ∈ cstr b, c ≠ nul := by
  induction b with
  | nil => intro c h; simp [cstr_nil] at h
  | cons x xs ih =>
    intro c h
    by_cases hx : x = nul
    · subst hx; simp [cstr_cons_nul] at h
    · rw [cstr_cons_of_ne xs hx] at h
      rcases List.mem_cons.mp h with rfl | h
      · exact hx
      · exact ih c h

/-- The text of a field filled by `strncpy` into a zeroed buffer of `n + 1` bytes is the
text of the source cut at `n` bytes. -/
theorem cstr_strncpy_zeroed (src : List Char) (n : Nat) :
    cstr (strncpy (zeroed (n + 1)) src n) = (cstr src).take n := by
  unfold strncpy zeroed
  have hdrop : (List.replicate (n + 1) nul).drop n = [nul] := by
    rw [List.drop_replicate]
    simp
  rw [hdrop, List.append_assoc]
  unfold cstr
  rw [List.takeWhile_append_of_pos]
  · have htail : List.takeWhile (fun c => c != nul)
        (List.replicate (n - (List.take n (List.takeWhile (fun c => c != nul) src)).length) nul ++
          [nul]) = [] := by
      cases hk : n - (List.take n (List.takeWhile (fun c => c != nul) src)).length with
      | zero => simp
      | succ k => simp [List.replicate_succ]
    rw [htail, List.append_nil]
  · intro a ha
    have := mem_cstr_ne_nul src a (List.mem_of_mem_take ha)
    simpa using this

/-- What `db_add_user_with_account` does to the users table. -/
theorem db_add_user_with_account_users (s : Store) (name pw : List Char) (role active bal : Int) :
    (read_user_by_username s.users name ≠ none →
      (db_add_user_with_account s name pw role active bal).1 = -1 ∧
      (db_add_user_with_account s name pw role active bal).2.1 = s) ∧
    (read_user_by_username s.users name = none →
      (db_add_user_with_account s name pw role active bal).1 = 0 ∧
      (db_add_user_with_account s name pw role active bal).2.1.users = s.users ++
        [{ id := next_id_from_file s.users user_record.id, role := role,
           active := if active ≠ 0 then 1 else 0, session_active := 0,
           username := strncpy (zeroed USERNAME_MAX) name (USERNAME_MAX - 1),
           password := strncpy (zeroed PASSWORD_MAX) pw (PASSWORD_MAX - 1) }]) := by
  unfold db_add_user_with_account
  cases hr : read_user_by_username s.users name with
  | some iu => simp
  | none =>
    by_cases hrole : role = ROLE_CUSTOMER <;> simp [hrole]

/-- C14, amended: on a users table in which no two records store the same username, and
for every username of at most 63 bytes and every password, `db_add_user_with_account`
fails with the store unchanged exactly when the username is already stored, and
otherwise succeeds and leaves a table in which again no two records store the same
username. -/
theorem add_user_keeps_usernames_unique (s : Store) (name pw : List Char)
    (role active bal : Int)
    (hlen : (cstr name).length < USERNAME_MAX) (huniq : usernames_unique s) :
    ((∃ x ∈ s.users, cstr x.username = cstr name) →
      (db_add_user_with_account s name pw role active bal).1 = -1 ∧
      (db_add_user_with_account s name pw role active bal).2.1 = s) ∧
    ((¬ ∃ x ∈ s.users, cstr x.username = cstr name) →
      (db_add_user_with_account s name pw role active bal).1 = 0 ∧
      usernames_unique (db_add_user_with_account s name pw role active bal).2.1) ∧
    ((db_add_user_with_account s name pw role active bal).1 ≠ 0 →
      (db_add_user_with_account s name pw role active bal).2.1 = s) := by
  obtain ⟨hfound, hnone⟩ := db_add_user_with_account_users s name pw role active bal
  have hscan : read_user_by_username s.users name = none →
      ∀ x ∈ s.users, cstr x.username ≠ cstr name := by
    intro hr x hx hEq
    unfold read_user_by_username at hr
    have := (scan_records_none _ _ _).mp hr x hx
    rw [strncmp_eq_zero_of_cstr_eq _ _ _ hEq] at this
    simp at this
  refine ⟨?_, ?_, ?_⟩
  · rintro ⟨x, hx, hEq⟩
    apply hfound
    intro hr
    exact hscan hr x hx hEq
  · intro hno
    have hr : read_user_by_username s.users name = none := by
      unfold read_user_by_username
      rw [scan_records_none]
      intro x hx
      cases hp : (strncmp x.username name USERNAME_MAX == 0) with
      | false => rfl
      | true =>
        exfalso
        apply hno
        refine ⟨x, hx, ?_⟩
        have h0 : strncmp x.username name USERNAME_MAX = 0 := by simpa using hp
        rw [strncmp_eq_zero_iff] at h0
        -- the given name fits the field, so agreement on 64 bytes is equality
        exact ((take_cstr_eq_iff _ _ _ hlen).mp h0.symm).symm
    obtain ⟨h0, husers⟩ := hnone hr
    refine ⟨h0, ?_⟩
    unfold usernames_unique
    rw [husers, List.map_append, List.nodup_append]
    refine ⟨huniq, by simp, ?_⟩
    intro t ht ht2
    simp only [List.map_cons, List.map_nil, List.mem_singleton] at ht2
    obtain ⟨x, hx, hxt⟩ := List.mem_map.mp ht
    have hstored : cstr (strncpy (zeroed USERNAME_MAX) name (USERNAME_MAX - 1)) = cstr name := by
      have := cstr_strncpy_zeroed name 63
      unfold USERNAME_MAX
      rw [this]
      exact List.take_of_length_le (by unfold USERNAME_MAX at hlen; omega)
    apply hno
    exact ⟨x, hx, by rw [hxt, ht2, hstored]⟩
  · intro hne
    cases hr : read_user_by_username s.users name with
    | none => exact absurd (hnone hr).1 hne
    | some iu => exact (hfound (by rw [hr]; exact Option.noConfusion)).2

theorem add_user_keeps_usernames_unique_witness :
    ((db_add_user_with_account store_alice "alice".toList "x".toList ROLE_EMPLOYEE 1 0).1 = -1 ∧
      (db_add_user_with_account store_alice "alice".toList "x".toList ROLE_EMPLOYEE 1 0).2.1 =
        store_alice) ∧
    ((db_add_user_with_account store_alice "bob".toList "x".toList ROLE_EMPLOYEE 1 0).1 = 0 ∧
      usernames_unique
        (db_add_user_with_account store_alice "bob".toList "x".toList ROLE_EMPLOYEE 1 0).2.1) :=
  ⟨(add_user_keeps_usernames_unique store_alice "alice".toList "x".toList ROLE_EMPLOYEE 1 0
      (by decide) (by decide)).1 (by decide),
    (add_user_keeps_usernames_unique store_alice "bob".toList "x".toList ROLE_EMPLOYEE 1 0
      (by decide) (by decide)).2.1 (by decide)⟩

/-- What a successful creation of a customer does to the store. -/
theorem db_add_user_with_account_customer (s : Store) (name pw : List Char) (active bal : Int)
    (h : (db_add_user_with_account s name pw ROLE_CUSTOMER active bal).1 = 0) :
    (db_add_user_with_account s name pw ROLE_CUSTOMER active bal).2.2 =
      some (next_id_from_file s.users user_record.id, next_account_number s.accounts) ∧
    (db_add_user_with_account s name pw ROLE_CUSTOMER active bal).2.1.accounts =
      s.accounts ++ [{ id := next_id_from_file s.accounts account_record.id,
                       user_id := next_id_from_file s.users user_record.id,
                       account_number := next_account_number s.accounts, balance := bal }] := by
  unfold db_add_user_with_account at h ⊢
  cases hr : read_user_by_username s.users name with
  | some iu => rw [hr] at h; simp at h
  | none => simp

/-- C16: on an accounts table whose numbers are pairwise distinct, at least 1000 and
below the 32-bit maximum, a successful `db_add_user_with_account` with role Customer
appends exactly one account record; its number is at least 1000 and differs from every
existing number, its user id is the id of the new user, its balance is the given
initial balance; no existing record changes, and the numbers of the new table are
again pairwise distinct and at least 1000. -/
theorem add_customer_account_number (s : Store) (name pw : List Char) (active bal : Int)
    (hvalid : account_numbers_valid s.accounts)
    (hlt : ∀ a ∈ s.accounts, a.account_number < INT32_MAX)
    (hok : (db_add_user_with_account s name pw ROLE_CUSTOMER active bal).1 = 0) :
    ∃ (uid : Int) (a1 : account_record),
      (db_add_user_with_account s name pw ROLE_CUSTOMER active bal).2.2 =
        some (uid, a1.account_number) ∧
      (db_add_user_with_account s name pw ROLE_CUSTOMER active bal).2.1.accounts =
        s.accounts ++ [a1] ∧
      1000 ≤ a1.account_number ∧ (∀ a ∈ s.accounts, a.account_number ≠ a1.account_number) ∧
      a1.user_id = uid ∧ a1.balance = bal ∧
      account_numbers_valid
        (db_add_user_with_account s name pw ROLE_CUSTOMER active bal).2.1.accounts := by
  obtain ⟨hret, hacc⟩ := db_add_user_with_account_customer s name pw active bal hok
  obtain ⟨h1, h2, -⟩ := foldl_max_account_number s.accounts 1000
  have hbound : s.accounts.foldl
      (fun maxno a => if a.account_number > maxno then a.account_number else maxno) 1000
      < INT32_MAX := by
    obtain ⟨-, -, h3⟩ := foldl_max_account_number s.accounts 1000
    rcases h3 with h | ⟨a, ha, hEq⟩
    · rw [h]; decide
    · rw [← hEq]; exact hlt a ha
  have hnext : next_account_number s.accounts = s.accounts.foldl
      (fun maxno a => if a.account_number > maxno then a.account_number else maxno) 1000 + 1 := by
    unfold next_account_number
    apply wrap32_of_range
    · omega
    · unfold INT32_MAX at hbound; omega
  have hge : 1000 ≤ next_account_number s.accounts := by rw [hnext]; omega
  have hne : ∀ a ∈ s.accounts, a.account_number ≠ next_account_number s.accounts := by
    intro a ha
    have := h2 a ha
    rw [hnext]; omega
  refine ⟨_, _, hret, hacc, hge, hne, rfl, rfl, ?_⟩
  rw [hacc]
  constructor
  · rw [List.map_append, List.nodup_append]
    refine ⟨hvalid.1, by simp, ?_⟩
    intro x hx hx2
    simp only [List.map_cons, List.map_nil, List.mem_singleton] at hx2
    obtain ⟨a, ha, hax⟩ := List.mem_map.mp hx
    exact hne a ha (hax.trans hx2)
  · intro a ha
    rcases List.mem_append.mp ha with h | h
    · exact hvalid.2 a h
    · rw [List.mem_singleton.mp h]; exact hge

theorem add_customer_account_number_witness :
    ∃ (uid : Int) (a1 : account_record),
      (db_add_user_with_account store_alice "bob".toList "pw2".toList ROLE_CUSTOMER 1 50).2.2 =
        some (uid, a1.account_number) ∧
      (db_add_user_with_account store_alice "bob".toList "pw2".toList ROLE_CUSTOMER 1 50).2.1.accounts =
        store_alice.accounts ++ [a1] ∧
      1000 ≤ a1.account_number ∧
      (∀ a ∈ store_alice.accounts, a.account_number ≠ a1.account_number) ∧
      a1.user_id = uid ∧ a1.balance = 50 ∧
      account_numbers_valid
        (db_add_user_with_account store_alice "bob".toList "pw2".toList ROLE_CUSTOMER 1 50).2.1.accounts :=
  add_customer_account_number store_alice "bob".toList "pw2".toList 1 50
    (by decide) (by decide) (by decide)

/-! ## Loan status and assignment (C18, C19, C20) -/

/-- C18 fails on the code: `db_set_loan_status` overwrites the status of a decided loan.
On an Approved loan, `db_set_loan_status(1, LOAN_PENDING)` returns 0 and the loan is
Pending again, and `db_set_loan_status(1, LOAN_REJECTED)` turns it into Rejected. -/
theorem set_loan_status_reopens_decided_loan :
    read_loan_by_id (store_one_loan 3 LOAN_APPROVED).loans 1 =
      some (0, { id := 1, customer_user_id := 2, assigned_employee_user_id := 3, amount := 500,
                 status := LOAN_APPROVED }) ∧
    (db_set_loan_status (store_one_loan 3 LOAN_APPROVED) 1 LOAN_PENDING).1 = 0 ∧
    (db_set_loan_status (store_one_loan 3 LOAN_APPROVED) 1 LOAN_PENDING).2.loans =
      [{ id := 1, customer_user_id := 2, assigned_employee_user_id := 3, amount := 500,
         status := LOAN_PENDING }] ∧
    (db_set_loan_status (store_one_loan 3 LOAN_APPROVED) 1 LOAN_REJECTED).2.loans =
      [{ id := 1, customer_user_id := 2, assigned_employee_user_id := 3, amount := 500,
         status := LOAN_REJECTED }] := by
  decide

/-- C19, as stated, fails: a loan that was never assigned (assignee 0) is approved by a
call with employee id 0, since the ownership test compares the two ids for equality. -/
theorem decide_unassigned_loan_counterexample :
    read_loan_by_id (store_one_loan 0 LOAN_PENDING).loans 1 =
      some (0, { id := 1, customer_user_id := 2, assigned_employee_user_id := 0, amount := 500,
                 status := LOAN_PENDING }) ∧
    (db_set_loan_status_owned (store_one_loan 0 LOAN_PENDING) 9 1 0 LOAN_APPROVED).1 = 0 ∧
    (db_set_loan_status_owned (store_one_loan 0 LOAN_PENDING) 9 1 0 LOAN_APPROVED).2.loans =
      [{ id := 1, customer_user_id := 2, assigned_employee_user_id := 0, amount := 500,
         status := LOAN_APPROVED }] := by
  decide

/-- C19, amended: for every call `db_set_loan_status_owned(loan_id, e, verdict)` with
`e ≠ 0` that returns 0, the loan the id resolves to had been assigned (its assignee
is not 0) and its assignee is `e`; and for a loan that has never been assigned the
call fails with -3 or -5 for every `e ≠ 0` and leaves the store, the loan included, as
it was. -/
theorem decide_only_by_assignee (s : Store) (now loan_id e v : Int) (he : e ≠ 0) :
    ((db_set_loan_status_owned s now loan_id e v).1 = 0 →
      ∃ (i : Nat) (L : loan_record), read_loan_by_id s.loans loan_id = some (i, L) ∧
        L.assigned_employee_user_id ≠ 0 ∧ L.assigned_employee_user_id = e) ∧
    (∀ (i : Nat) (L : loan_record), read_loan_by_id s.loans loan_id = some (i, L) →
      L.assigned_employee_user_id = 0 →
      ((db_set_loan_status_owned s now loan_id e v).1 = -3 ∨
        (db_set_loan_status_owned s now loan_id e v).1 = -5) ∧
      (db_set_loan_status_owned s now loan_id e v).2 = s) := by
  constructor
  · intro h0
    unfold db_set_loan_status_owned at h0
    by_cases hv : v ≠ LOAN_APPROVED ∧ v ≠ LOAN_REJECTED
    · simp [hv] at h0
    · cases hL : read_loan_by_id s.loans loan_id with
      | none => simp [hv, hL] at h0
      | some iL =>
        obtain ⟨i, L⟩ := iL
        by_cases hemp : L.assigned_employee_user_id = e
        · exact ⟨i, L, rfl, by rw [hemp]; exact he, hemp⟩
        · simp [hv, hL, hemp] at h0
  · intro i L hL hun
    have hne : L.assigned_employee_user_id ≠ e := by rw [hun]; exact fun h => he h.symm
    unfold db_set_loan_status_owned
    by_cases hv : v ≠ LOAN_APPROVED ∧ v ≠ LOAN_REJECTED
    · simp [hv]
    · simp [hv, hL, hne]

theorem decide_only_by_assignee_witness :
    (∃ (i : Nat) (L : loan_record), read_loan_by_id (store_one_loan 3 LOAN_PENDING).loans 1 = some (i, L) ∧
        L.assigned_employee_user_id ≠ 0 ∧ L.assigned_employee_user_id = 3) ∧
    ((db_set_loan_status_owned (store_one_loan 0 LOAN_PENDING) 9 1 3 LOAN_APPROVED).1 = -3 ∨
        (db_set_loan_status_owned (store_one_loan 0 LOAN_PENDING) 9 1 3 LOAN_APPROVED).1 = -5) ∧
      (db_set_loan_status_owned (store_one_loan 0 LOAN_PENDING) 9 1 3 LOAN_APPROVED).2 =
        store_one_loan 0 LOAN_PENDING :=
  ⟨(decide_only_by_assignee (store_one_loan 3 LOAN_PENDING) 9 1 3 LOAN_APPROVED (by decide)).1
      (by decide),
    (decide_only_by_assignee (store_one_loan 0 LOAN_PENDING) 9 1 3 LOAN_APPROVED (by decide)).2 0
      { id := 1, customer_user_id := 2, assigned_employee_user_id := 0, amount := 500,
        status := LOAN_PENDING } (by decide) (by decide)⟩

/-- C20 fails on the code: `db_assign_loan_by_employee_id` never reads the users table.
With the admin (id 1, role Admin) as only user, assigning loan 1 to employee id 999,
which names no user, returns 0 and records 999 as assignee; assigning it to id 1, the
admin, returns 0 as well.  The sibling `db_assign_loan` refuses the admin's username
with -3. -/
theorem assign_loan_by_id_accepts_any_id :
    read_user_by_id (store_one_loan 0 LOAN_PENDING).users 999 = none ∧
    (db_assign_loan_by_employee_id (store_one_loan 0 LOAN_PENDING) 1 999).1 = 0 ∧
    (db_assign_loan_by_employee_id (store_one_loan 0 LOAN_PENDING) 1 999).2.loans =
      [{ id := 1, customer_user_id := 2, assigned_employee_user_id := 999, amount := 500,
         status := LOAN_PENDING }] ∧
    (db_assign_loan_by_employee_id (store_one_loan 0 LOAN_PENDING) 1 1).1 = 0 ∧
    (db_assign_loan_by_employee_id (store_one_loan 0 LOAN_PENDING) 1 1).2.loans =
      [{ id := 1, customer_user_id := 2, assigned_employee_user_id := 1, amount := 500,
         status := LOAN_PENDING }] ∧
    (db_assign_loan (store_one_loan 0 LOAN_PENDING) 1 "admin".toList).1 = -3 := by
  decide

/-! ## User identifiers (C15) -/

theorem db_init_store_empty (fuel : Nat) : db_init fuel store_empty = some (0, store_seeded) := by
  unfold db_init migrate_account_numbers_if_needed
  rfl

theorem ids_in_order_add (n : Nat) (s : Store) (c : add_call) (hK : ids_in_order n s)
    (hn : n < 10000)
    (hok : (db_add_user_with_account s c.username c.password c.role c.active c.initial_balance).1 = 0) :
    (∃ acct, (db_add_user_with_account s c.username c.password c.role c.active
        c.initial_balance).2.2 = some ((n : Int) + 2, acct)) ∧
    ids_in_order (n + 1)
      (db_add_user_with_account s c.username c.password c.role c.active c.initial_balance).2.1 := by
  obtain ⟨hnd, hrange, l, hlast, hlid⟩ := hK
  obtain ⟨hfound, hnone⟩ :=
    db_add_user_with_account_users s c.username c.password c.role c.active c.initial_balance
  have hr : read_user_by_username s.users c.username = none := by
    cases hr : read_user_by_username s.users c.username with
    | none => rfl
    | some iu =>
      have := (hfound (by rw [hr]; exact Option.noConfusion)).1
      rw [this] at hok
      exact absurd hok (by decide)
  have hid : next_id_from_file s.users user_record.id = (n : Int) + 2 := by
    unfold next_id_from_file
    rw [hlast]
    have h1 : ¬ (l.id < 0 ∨ l.id > 10000) := by rw [hlid]; omega
    simp only [h1, if_false, hlid]
    omega
  obtain ⟨-, husers⟩ := hnone hr
  rw [hid] at husers
  constructor
  · unfold db_add_user_with_account
    rw [hr]
    by_cases hrole : c.role = ROLE_CUSTOMER
    · simp [hrole, hid]
    · simp [hrole, hid]
  · refine ⟨?_, ?_, ?_⟩
    · rw [husers, List.map_append, List.nodup_append]
      refine ⟨hnd, by simp, ?_⟩
      intro x hx hx2
      simp only [List.map_cons, List.map_nil, List.mem_singleton] at hx2
      obtain ⟨u, hu, hux⟩ := List.mem_map.mp hx
      have := (hrange u hu).2
      omega
    · intro u hu
      rw [husers] at hu
      rcases List.mem_append.mp hu with h | h
      · have := hrange u h
        push_cast; omega
      · rw [List.mem_singleton.mp h]
        push_cast
        omega
    · refine ⟨_, by rw [husers, List.getLast?_concat], ?_⟩
      push_cast
      omega

theorem ids_in_order_add_users (calls : List add_call) :
    ∀ (n : Nat) (s s1 : Store), ids_in_order n s → n + calls.length ≤ 10000 →
      add_users s calls = some s1 → ids_in_order (n + calls.length) s1 := by
  induction calls with
  | nil =>
    intro n s s1 hK _ h
    simp only [add_users, Option.some.injEq] at h
    subst h
    exact hK
  | cons c cs ih =>
    intro n s s1 hK hn h
    simp only [List.length_cons] at hn ⊢
    unfold add_users at h
    split at h
    · rename_i hok
      have := ih (n + 1) _ s1 (ids_in_order_add n s c hK (by omega) hok).2 (by omega) h
      rw [show n + (cs.length + 1) = n + 1 + cs.length by omega]
      exact this
    · exact Option.noConfusion h

theorem ids_in_order_seeded : ids_in_order 0 store_seeded := by
  unfold ids_in_order
  refine ⟨by decide, by decide, _, rfl, by decide⟩

/-- C15, amended: for every users table built from the empty store by `db_init`
followed by fewer than 10000 successful `db_add_user_with_account` calls, the next
successful call creates a user whose id is positive and greater than the id of every
user already in the table, and afterwards no two users share an id. -/
theorem user_ids_increase (fuel : Nat) (s0 s : Store) (calls : List add_call) (c : add_call)
    (hinit : db_init fuel store_empty = some (0, s0))
    (hbuilt : add_users s0 calls = some s) (hn : calls.length < 10000)
    (hok : (db_add_user_with_account s c.username c.password c.role c.active c.initial_balance).1 = 0) :
    ∃ (uid acct : Int),
      (db_add_user_with_account s c.username c.password c.role c.active c.initial_balance).2.2 =
        some (uid, acct) ∧
      0 < uid ∧ (∀ u ∈ s.users, u.id < uid) ∧
      ((db_add_user_with_account s c.username c.password c.role c.active
          c.initial_balance).2.1.users.map user_record.id).Nodup := by
  have hs0 : s0 = store_seeded := by
    rw [db_init_store_empty] at hinit
    simp only [Option.some.injEq, Prod.mk.injEq, true_and] at hinit
    exact hinit.symm
  subst hs0
  have hK := ids_in_order_add_users calls 0 store_seeded s ids_in_order_seeded (by omega) hbuilt
  rw [Nat.zero_add] at hK
  obtain ⟨⟨acct, hret⟩, hK1⟩ := ids_in_order_add calls.length s c hK hn hok
  refine ⟨_, acct, hret, by omega, ?_, hK1.1⟩
  intro u hu
  have := (hK.2.1 u hu).2
  omega

theorem user_ids_increase_witness :
    ∃ (uid acct : Int),
      (db_add_user_with_account store_alice "bob".toList "pw2".toList ROLE_CUSTOMER 1 50).2.2 =
        some (uid, acct) ∧
      0 < uid ∧ (∀ u ∈ store_alice.users, u.id < uid) ∧
      ((db_add_user_with_account store_alice "bob".toList "pw2".toList ROLE_CUSTOMER 1
          50).2.1.users.map user_record.id).Nodup :=
  user_ids_increase 0 store_seeded store_alice
    [{ username := "alice".toList, password := "pw1".toList, role := ROLE_CUSTOMER, active := 1,
       initial_balance := 100 }]
    { username := "bob".toList, password := "pw2".toList, role := ROLE_CUSTOMER, active := 1,
      initial_balance := 50 }
    (by decide) (by decide) (by decide) (by decide)

theorem char_ofNat_toNat (n : Nat) (h : n < 55296) : (Char.ofNat n).toNat = n := by
  have hv : n.isValidChar := Or.inl h
  simp [Char.ofNat, hv, Char.toNat, Char.ofNatAux]
  rfl

theorem numbered_username_inj (j k : Nat) (hj : j ≤ 10000) (hk : k ≤ 10000)
    (h : numbered_username j = numbered_username k) : j = k := by
  unfold numbered_username at h
  simp only [List.cons.injEq, true_and, and_true] at h
  have h1 := congrArg Char.toNat h.1
  have h2 := congrArg Char.toNat h.2
  rw [char_ofNat_toNat _ (by omega), char_ofNat_toNat _ (by omega)] at h1 h2
  omega

theorem cstr_numbered_username (k : Nat) (hk : k ≤ 10000) :
    cstr (numbered_username k) = numbered_username k := by
  have hc : ∀ x, x < 55295 → Char.ofNat (1 + x) ≠ nul := by
    intro x hx h
    have := congrArg Char.toNat h
    rw [char_ofNat_toNat _ (by omega)] at this
    have h0 : nul.toNat = 0 := by decide
    omega
  have hu : ('u' : Char) ≠ nul := by decide
  unfold numbered_username
  rw [cstr_cons_of_ne _ hu, cstr_cons_of_ne _ (hc _ (by omega)), cstr_cons_of_ne _ (hc _ (by omega)),
    cstr_nil]

/-- A numbered username not yet used is not found in the table. -/
theorem numbered_username_not_found (n : Nat) (s : Store) (hJ : numbered_users n s)
    (hn : n ≤ 10000) : read_user_by_username s.users (numbered_username n) = none := by
  obtain ⟨-, -, hnames⟩ := hJ
  unfold read_user_by_username
  rw [scan_records_none]
  intro x hx
  cases hp : (strncmp x.username (numbered_username n) USERNAME_MAX == 0) with
  | false => rfl
  | true =>
    exfalso
    have h0 : strncmp x.username (numbered_username n) USERNAME_MAX = 0 := by simpa using hp
    rw [strncmp_eq_zero_iff, cstr_numbered_username n hn] at h0
    have htake : ∀ k, List.take USERNAME_MAX (numbered_username k) = numbered_username k := by
      intro k
      apply List.take_of_length_le
      show 3 ≤ 64
      decide
    rw [htake n] at h0
    rcases hnames x hx with h | ⟨j, hj, h⟩
    · rw [h] at h0
      have := congrArg List.length h0
      have hlen : (numbered_username n).length = 3 := rfl
      rw [hlen] at this
      revert this
      decide
    · rw [h, htake j] at h0
      have := numbered_username_inj j n (by omega) hn h0
      omega

theorem numbered_users_add (n : Nat) (s : Store) (hJ : numbered_users n s) (hn : n < 10000) :
    (db_add_user_with_account s (numbered_username n) [] ROLE_EMPLOYEE 1 0).1 = 0 ∧
    numbered_users (n + 1)
      (db_add_user_with_account s (numbered_username n) [] ROLE_EMPLOYEE 1 0).2.1 := by
  have hr := numbered_username_not_found n s hJ (by omega)
  obtain ⟨⟨l, hlast, hlid⟩, ⟨a, ha, haid⟩, hnames⟩ := hJ
  obtain ⟨h0, husers⟩ :=
    (db_add_user_with_account_users s (numbered_username n) [] ROLE_EMPLOYEE 1 0).2 hr
  have hid : next_id_from_file s.users user_record.id = (n : Int) + 2 := by
    unfold next_id_from_file
    rw [hlast]
    have h1 : ¬ (l.id < 0 ∨ l.id > 10000) := by rw [hlid]; omega
    simp only [h1, if_false, hlid]
    omega
  refine ⟨h0, ?_, ?_, ?_⟩
  · refine ⟨_, by rw [husers, List.getLast?_concat], ?_⟩
    rw [hid]; push_cast; omega
  · exact ⟨a, by rw [husers]; exact List.mem_append_left _ ha, haid⟩
  · intro x hx
    rw [husers] at hx
    rcases List.mem_append.mp hx with h | h
    · rcases hnames x h with h1 | ⟨j, hj, h1⟩
      · exact Or.inl h1
      · exact Or.inr ⟨j, by omega, h1⟩
    · right
      refine ⟨n, by omega, ?_⟩
      rw [List.mem_singleton.mp h]
      have := cstr_strncpy_zeroed (numbered_username n) 63
      show cstr (strncpy (zeroed USERNAME_MAX) (numbered_username n) (USERNAME_MAX - 1)) = _
      unfold USERNAME_MAX
      rw [this, cstr_numbered_username n (by omega)]
      apply List.take_of_length_le
      show 3 ≤ 63
      decide

theorem numbered_users_add_users (count : Nat) :
    ∀ (start : Nat) (s : Store), numbered_users start s → start + count ≤ 10000 →
      ∃ s1, add_users s (numbered_calls start count) = some s1 ∧
        numbered_users (start + count) s1 := by
  induction count with
  | zero => intro start s hJ _; exact ⟨s, rfl, hJ⟩
  | succ count ih =>
    intro start s hJ hle
    obtain ⟨h0, hJ1⟩ := numbered_users_add start s hJ (by omega)
    obtain ⟨s1, hs1, hJ2⟩ := ih (start + 1) _ hJ1 (by omega)
    refine ⟨s1, ?_, ?_⟩
    · rw [numbered_calls, add_users]
      simp only [h0, if_true]
      exact hs1
    · rw [show start + (count + 1) = start + 1 + count by omega]
      exact hJ2

theorem numbered_users_seeded : numbered_users 0 store_seeded := by
  refine ⟨⟨_, rfl, by decide⟩, ⟨_, List.mem_singleton.mpr rfl, rfl⟩, ?_⟩
  intro x hx
  left
  rw [List.mem_singleton.mp hx]
  decide

/-- C15, as stated, fails: `db_init` on the empty store seeds the admin with id 1; after
10000 further successful creations (ids 2 to 10001) the next successful creation
receives id 1 again, the id of the admin already in the table. -/
theorem user_ids_increase_counterexample :
    db_init 0 store_empty = some (0, store_seeded) ∧
    ∃ s, add_users store_seeded (numbered_calls 0 10000) = some s ∧
      (db_add_user_with_account s (numbered_username 10000) [] ROLE_EMPLOYEE 1 0).1 = 0 ∧
      (db_add_user_with_account s (numbered_username 10000) [] ROLE_EMPLOYEE 1 0).2.2 =
        some (1, -1) ∧
      ∃ u ∈ s.users, u.id = 1 := by
  refine ⟨db_init_store_empty 0, ?_⟩
  obtain ⟨s, hs, hJ⟩ := numbered_users_add_users 10000 0 store_seeded numbered_users_seeded
    (by omega)
  rw [Nat.zero_add] at hJ
  have hr := numbered_username_not_found 10000 s hJ (by omega)
  obtain ⟨⟨l, hlast, hlid⟩, hadmin, -⟩ := hJ
  have hid : next_id_from_file s.users user_record.id = 1 := by
    unfold next_id_from_file
    rw [hlast]
    have h1 : l.id < 0 ∨ l.id > 10000 := by rw [hlid]; right; norm_num
    simp only [h1, if_true]
  refine ⟨s, hs, ?_, ?_, hadmin⟩
  · exact ((db_add_user_with_account_users s (numbered_username 10000) [] ROLE_EMPLOYEE 1 0).2 hr).1
  · unfold db_add_user_with_account
    rw [hr]
    simp [hid, ROLE_EMPLOYEE, ROLE_CUSTOMER]

/-! ## One account per customer (C17) -/

theorem list_map_set_same {α β : Type} (f : α → β) (l : List α) (i : Nat) (r r1 : α)
    (h : l[i]? = some r) (hf : f r1 = f r) : (l.set i r1).map f = l.map f := by
  rw [List.map_set, hf]
  apply list_set_of_getElem?
  rw [List.getElem?_map, h]
  rfl

/-- The predicate depends only on the ids and roles of the users and on the owners of
the accounts. -/
theorem one_account_per_customer_of_keys (s s1 : Store)
    (hu : s1.users.map (fun u => (u.id, u.role)) = s.users.map (fun u => (u.id, u.role)))
    (ha : s1.accounts.map account_record.user_id = s.accounts.map account_record.user_id)
    (h : one_account_per_customer s) : one_account_per_customer s1 := by
  intro u hmem
  have hk : (u.id, u.role) ∈ s1.users.map (fun u => (u.id, u.role)) :=
    List.mem_map.mpr ⟨u, hmem, rfl⟩
  rw [hu] at hk
  obtain ⟨u0, hu0, hEq⟩ := List.mem_map.mp hk
  simp only [Prod.mk.injEq] at hEq
  have hcount : ∀ t : Store, accounts_owned t u.id =
      (t.accounts.map account_record.user_id).countP (fun x => x == u.id) := by
    intro t
    unfold accounts_owned
    rw [List.countP_map]
    rfl
  rw [hcount s1, ha, ← hcount s, ← hEq.1, ← hEq.2]
  exact h u0 hu0

theorem db_deposit_keys (s : Store) (now u a : Int) :
    (db_deposit s now u a).2.1.users = s.users ∧
    (db_deposit s now u a).2.1.accounts.map account_record.user_id =
      s.accounts.map account_record.user_id := by
  unfold db_deposit
  by_cases h0 : a ≤ 0
  · simp [h0]
  · cases hr : read_account_by_user s.accounts u with
    | none => simp [h0]
    | some ia =>
      obtain ⟨i, acc⟩ := ia
      have hg := (scan_records_get _ _ _ _ hr).1
      simp only [h0, if_false, journal_write_and_sync_eq, ne_eq, not_true_eq_false, true_and]
      exact list_map_set_same _ _ i acc _ hg rfl

theorem db_withdraw_keys (s : Store) (now u a : Int) :
    (db_withdraw s now u a).2.1.users = s.users ∧
    (db_withdraw s now u a).2.1.accounts.map account_record.user_id =
      s.accounts.map account_record.user_id := by
  unfold db_withdraw
  by_cases h0 : a ≤ 0
  · simp [h0]
  · cases hr : read_account_by_user s.accounts u with
    | none => simp [h0]
    | some ia =>
      obtain ⟨i, acc⟩ := ia
      have hg := (scan_records_get _ _ _ _ hr).1
      by_cases hb : acc.balance < a
      · simp [h0, hb]
      · simp only [h0, hb, if_false, journal_write_and_sync_eq, ne_eq, not_true_eq_false, true_and]
        exact list_map_set_same _ _ i acc _ hg rfl

/-- The post-images prepared by a transfer are the two records found, with new balances. -/
theorem transfer_prepare_ok_inv (s : Store) (u d a : Int) (i j : Nat) (f1 d1 : account_record)
    (h : transfer_prepare s u d a = .ok ((i, f1), (j, d1))) :
    ∃ f0 d0, s.accounts[i]? = some f0 ∧ s.accounts[j]? = some d0 ∧
      f1.user_id = f0.user_id ∧ d1.user_id = d0.user_id := by
  unfold transfer_prepare at h
  by_cases h0 : a ≤ 0
  · simp [h0] at h
  · cases hr : read_account_by_user s.accounts u with
    | none => simp [h0, hr] at h
    | some ia =>
      obtain ⟨i0, f0⟩ := ia
      cases hd : read_account_by_account_number s.accounts d with
      | none => simp [h0, hr, hd] at h
      | some jd =>
        obtain ⟨j0, d0⟩ := jd
        simp only [h0, hr, hd, if_false, journal_write_and_sync_eq] at h
        by_cases hs : f0.account_number = d0.account_number
        · simp [hs] at h
        · by_cases hb : f0.balance < a
          · simp [hs, hb] at h
          · simp only [hs, hb, if_false, ne_eq, not_true_eq_false, Except.ok.injEq,
              Prod.mk.injEq] at h
            obtain ⟨⟨rfl, rfl⟩, rfl, rfl⟩ := h
            exact ⟨f0, d0, (scan_records_get _ _ _ _ hr).1, (scan_records_get _ _ _ _ hd).1,
              rfl, rfl⟩

theorem db_transfer_to_account_keys (s : Store) (now1 now2 u d a : Int) :
    (db_transfer_to_account s now1 now2 u d a).2.users = s.users ∧
    (db_transfer_to_account s now1 now2 u d a).2.accounts.map account_record.user_id =
      s.accounts.map account_record.user_id := by
  unfold db_transfer_to_account
  cases hp : transfer_prepare s u d a with
  | error rc => exact ⟨rfl, rfl⟩
  | ok r =>
    obtain ⟨⟨i, f1⟩, ⟨j, d1⟩⟩ := r
    obtain ⟨f0, d0, hf, hd, hfu, hdu⟩ := transfer_prepare_ok_inv s u d a i j f1 d1 hp
    refine ⟨rfl, ?_⟩
    show ((s.accounts.set i f1).set j d1).map account_record.user_id = _
    rw [List.map_set, list_map_set_same _ _ i f0 f1 hf hfu, hdu]
    apply list_set_of_getElem?
    rw [List.getElem?_map, hd]
    rfl

theorem db_set_loan_status_owned_keys (s : Store) (now loan_id e v : Int) :
    (db_set_loan_status_owned s now loan_id e v).2.users = s.users ∧
    (db_set_loan_status_owned s now loan_id e v).2.accounts.map account_record.user_id =
      s.accounts.map account_record.user_id := by
  unfold db_set_loan_status_owned
  dsimp only
  split
  · exact ⟨rfl, rfl⟩
  · split
    · exact ⟨rfl, rfl⟩
    · split
      · exact ⟨rfl, rfl⟩
      · split
        · exact ⟨rfl, rfl⟩
        · split
          · split
            · exact ⟨rfl, rfl⟩
            · rename_i k acc hacc
              exact ⟨rfl, list_map_set_same _ _ k acc _ (scan_records_get _ _ _ _ hacc).1 rfl⟩
          · exact ⟨rfl, rfl⟩

theorem db_set_user_active_keys (s : Store) (name : List Char) (active : Int) :
    (db_set_user_active s name active).2.users.map (fun u => (u.id, u.role)) =
      s.users.map (fun u => (u.id, u.role)) ∧
    (db_set_user_active s name active).2.accounts = s.accounts := by
  unfold db_set_user_active
  cases hr : read_user_by_username s.users name with
  | none => exact ⟨rfl, rfl⟩
  | some iu =>
    obtain ⟨i, u⟩ := iu
    have hg := (scan_records_get _ _ _ _ hr).1
    simp only [journal_write_and_sync_eq, ne_eq, not_true_eq_false, if_false, and_true]
    exact list_map_set_same _ _ i u _ hg rfl

theorem db_change_password_keys (s : Store) (uid : Int) (pw : List Char) :
    (db_change_password s uid pw).2.users.map (fun u => (u.id, u.role)) =
      s.users.map (fun u => (u.id, u.role)) ∧
    (db_change_password s uid pw).2.accounts = s.accounts := by
  unfold db_change_password
  cases hr : read_user_by_id s.users uid with
  | none => exact ⟨rfl, rfl⟩
  | some iu =>
    obtain ⟨i, u⟩ := iu
    have hg := (scan_records_get _ _ _ _ hr).1
    simp only [journal_write_and_sync_eq, ne_eq, not_true_eq_false, if_false, and_true]
    exact list_map_set_same _ _ i u _ hg rfl

/-- A creation preserves the predicate when the id it assigns is new to the users and
to the owners of accounts. -/
theorem db_add_user_with_account_one_account (s : Store) (name pw : List Char)
    (role active bal : Int)
    (hfu : ∀ u ∈ s.users, u.id ≠ next_id_from_file s.users user_record.id)
    (hfa : ∀ a ∈ s.accounts, a.user_id ≠ next_id_from_file s.users user_record.id)
    (h : one_account_per_customer s) :
    one_account_per_customer (db_add_user_with_account s name pw role active bal).2.1 := by
  have hzero : s.accounts.countP
      (fun a => a.user_id == next_id_from_file s.users user_record.id) = 0 := by
    rw [List.countP_eq_zero]
    intro a ha
    simpa using hfa a ha
  unfold db_add_user_with_account
  cases hr : read_user_by_username s.users name with
  | some iu => exact h
  | none =>
    by_cases hrole : role = ROLE_CUSTOMER
    · simp only [hrole, if_true]
      intro u hu
      unfold accounts_owned
      simp only [List.countP_append, List.countP_cons, List.countP_nil]
      rcases List.mem_append.mp hu with hold | hnew
      · have hne : ¬ (next_id_from_file s.users user_record.id == u.id) = true := by
          simpa using fun hEq => hfu u hold hEq.symm
        simp only [hne, if_false, Nat.add_zero, Nat.zero_add]
        exact h u hold
      · rw [List.mem_singleton.mp hnew]
        simp [hzero]
    · simp only [hrole, if_false]
      intro u hu
      unfold accounts_owned
      rcases List.mem_append.mp hu with hold | hnew
      · exact h u hold
      · rw [List.mem_singleton.mp hnew]
        simp [hzero, hrole]

/-- On a store satisfying the predicate, `db_set_user_role` keeps it exactly when the
call fails or the new role is Customer just if the old one is. -/
theorem db_set_user_role_one_account (s : Store) (name : List Char) (role : Int)
    (h : one_account_per_customer s) :
    one_account_per_customer (db_set_user_role s name role).2 ↔
      ∀ (i : Nat) (u : user_record), read_user_by_username s.users name = some (i, u) →
        (role = ROLE_CUSTOMER ↔ u.role = ROLE_CUSTOMER) := by
  unfold db_set_user_role
  cases hr : read_user_by_username s.users name with
  | none =>
    constructor
    · intro _ i u hiu; exact Option.noConfusion hiu
    · intro _; exact h
  | some iu =>
    obtain ⟨i, u⟩ := iu
    have hg := (scan_records_get _ _ _ _ hr).1
    have hi : i < s.users.length := (List.getElem?_eq_some_iff.mp hg).1
    have hm : u ∈ s.users := List.mem_iff_getElem?.mpr ⟨i, hg⟩
    have hu := h u hm
    simp only [journal_write_and_sync_eq, ne_eq, not_true_eq_false, if_false]
    have hown : ∀ uid, accounts_owned
        { s with users := s.users.set i { u with role := role } } uid = accounts_owned s uid :=
      fun _ => rfl
    constructor
    · intro hafter j v hjv
      obtain ⟨rfl, rfl⟩ : i = j ∧ u = v := by
        have := Option.some.inj hjv
        exact ⟨congrArg Prod.fst this, congrArg Prod.snd this⟩
      have hnew : ({ u with role := role } : user_record) ∈
          s.users.set i { u with role := role } := List.mem_set _ _ hi _
      have h1 := hafter _ hnew
      rw [hown] at h1
      have h2 : (if role = ROLE_CUSTOMER then 1 else 0) =
          (if u.role = ROLE_CUSTOMER then (1 : Nat) else 0) := by
        rw [← hu]; exact h1.symm
      by_cases hr1 : role = ROLE_CUSTOMER <;> by_cases hr2 : u.role = ROLE_CUSTOMER <;>
        simp [hr1, hr2] at h2 ⊢
    · intro hiff x hx
      have hiff1 := hiff i u rfl
      rw [hown]
      rcases List.mem_or_eq_of_mem_set hx with hx | rfl
      · exact h x hx
      · show accounts_owned s u.id = if role = ROLE_CUSTOMER then 1 else 0
        rw [hu]
        by_cases hr1 : role = ROLE_CUSTOMER
        · simp [hr1, hiff1.mp hr1]
        · have : ¬ u.role = ROLE_CUSTOMER := fun hc => hr1 (hiff1.mpr hc)
          simp [hr1, this]

/-- C17, as stated, fails.  `db_set_user_role` turns the customer "alice" into an
employee who still owns her account.  And when the last user id is 10001 the next
creation assigns id 1 again, so the account of the new customer is also owned by the
admin. -/
theorem one_account_per_customer_counterexample :
    (one_account_per_customer store_alice ∧
      (db_set_user_role store_alice "alice".toList ROLE_EMPLOYEE).1 = 0 ∧
      ¬ one_account_per_customer (db_set_user_role store_alice "alice".toList ROLE_EMPLOYEE).2) ∧
    (one_account_per_customer store_last_id_10001 ∧
      (db_add_user_with_account store_last_id_10001 "carol".toList "pw".toList
        ROLE_CUSTOMER 1 0).1 = 0 ∧
      ¬ one_account_per_customer
        (db_add_user_with_account store_last_id_10001 "carol".toList "pw".toList
          ROLE_CUSTOMER 1 0).2.1) := by
  decide

/-- C17, amended: the predicate 'every user with role Customer owns exactly one account
record and every user with any other role owns none' holds after `db_init` on the
empty store, and whenever it holds before a call it holds after `db_set_user_active`,
`db_change_password`, `db_deposit`, `db_withdraw`, `db_transfer_to_account` and
`db_set_loan_status_owned`, after `db_add_user_with_account` when the id assigned
is not yet the id of a user nor the owner of an account, and after `db_set_user_role`
exactly when the call fails or the new role is Customer just if the old role is. -/
theorem one_account_per_customer_preserved :
    (∀ (fuel : Nat) (r : Int × Store), db_init fuel store_empty = some r →
      one_account_per_customer r.2) ∧
    (∀ s : Store, one_account_per_customer s →
      (∀ (name pw : List Char) (role active bal : Int),
        (∀ u ∈ s.users, u.id ≠ next_id_from_file s.users user_record.id) →
        (∀ a ∈ s.accounts, a.user_id ≠ next_id_from_file s.users user_record.id) →
        one_account_per_customer (db_add_user_with_account s name pw role active bal).2.1) ∧
      (∀ (name : List Char) (active : Int),
        one_account_per_customer (db_set_user_active s name active).2) ∧
      (∀ (uid : Int) (pw : List Char), one_account_per_customer (db_change_password s uid pw).2) ∧
      (∀ now u a : Int, one_account_per_customer (db_deposit s now u a).2.1) ∧
      (∀ now u a : Int, one_account_per_customer (db_withdraw s now u a).2.1) ∧
      (∀ now1 now2 u d a : Int,
        one_account_per_customer (db_transfer_to_account s now1 now2 u d a).2) ∧
      (∀ now loan_id e v : Int,
        one_account_per_customer (db_set_loan_status_owned s now loan_id e v).2) ∧
      (∀ (name : List Char) (role : Int),
        (one_account_per_customer (db_set_user_role s name role).2 ↔
          ∀ (i : Nat) (u : user_record), read_user_by_username s.users name = some (i, u) →
            (role = ROLE_CUSTOMER ↔ u.role = ROLE_CUSTOMER)))) := by
  constructor
  · intro fuel r hr
    rw [db_init_store_empty] at hr
    rw [← Option.some.inj hr]
    decide
  · intro s h
    refine ⟨?_, ?_, ?_, ?_, ?_, ?_, ?_, fun name role =>
      db_set_user_role_one_account s name role h⟩
    · intro name pw role active bal hfu hfa
      exact db_add_user_with_account_one_account s name pw role active bal hfu hfa h
    · intro name active
      obtain ⟨hu, ha⟩ := db_set_user_active_keys s name active
      exact one_account_per_customer_of_keys s _ hu (by rw [ha]) h
    · intro uid pw
      obtain ⟨hu, ha⟩ := db_change_password_keys s uid pw
      exact one_account_per_customer_of_keys s _ hu (by rw [ha]) h
    · intro now u a
      obtain ⟨hu, ha⟩ := db_deposit_keys s now u a
      exact one_account_per_customer_of_keys s _ (by rw [hu]) ha h
    · intro now u a
      obtain ⟨hu, ha⟩ := db_withdraw_keys s now u a
      exact one_account_per_customer_of_keys s _ (by rw [hu]) ha h
    · intro now1 now2 u d a
      obtain ⟨hu, ha⟩ := db_transfer_to_account_keys s now1 now2 u d a
      exact one_account_per_customer_of_keys s _ (by rw [hu]) ha h
    · intro now loan_id e v
      obtain ⟨hu, ha⟩ := db_set_loan_status_owned_keys s now loan_id e v
      exact one_account_per_customer_of_keys s _ (by rw [hu]) ha h

theorem one_account_per_customer_preserved_witness :
    one_account_per_customer store_seeded ∧
    one_account_per_customer
      (db_add_user_with_account store_alice "bob".toList "pw2".toList ROLE_CUSTOMER 1 50).2.1 ∧
    one_account_per_customer (db_deposit store_alice 7 2 50).2.1 ∧
    one_account_per_customer (db_set_user_active store_alice "alice".toList 0).2 ∧
    one_account_per_customer (db_set_user_role store_alice "admin".toList ROLE_MANAGER).2 :=
  ⟨one_account_per_customer_preserved.1 0 (0, store_seeded) (by decide),
    (one_account_per_customer_preserved.2 store_alice (by decide)).1 "bob".toList "pw2".toList
      ROLE_CUSTOMER 1 50 (by decide) (by decide),
    (one_account_per_customer_preserved.2 store_alice (by decide)).2.2.2.1 7 2 50,
    (one_account_per_customer_preserved.2 store_alice (by decide)).2.1 "alice".toList 0,
    ((one_account_per_customer_preserved.2 store_alice (by decide)).2.2.2.2.2.2.2
      "admin".toList ROLE_MANAGER).mpr (fun i u hiu => by
        have hf : read_user_by_username store_alice.users "admin".toList =
            some (0, { id := 1, role := 4, active := 1, session_active := 0,
                       username := text_buf 64 "admin", password := text_buf 128 "admin" }) := by
          decide
        rw [hf] at hiu
        cases hiu
        decide)⟩

/-! ## Activation and deactivation of users (C21) -/

/-- C21: `db_set_user_active` (user looked up by username) and `db_set_user_active_by_id`
(by id) fail with -1, leaving the store as it was, exactly when the lookup finds no
record; otherwise they return 0 and the store differs only in the record found, whose
`active` becomes 0 together with `session_active` when the argument is 0, and whose
`active` becomes 1 with `session_active` kept when the argument is not 0; id, role,
username and password of that record, and every other record, are as before. -/
theorem set_user_active_frame (s : Store) (name : List Char) (uid active : Int) :
    (read_user_by_username s.users name = none →
      db_set_user_active s name active = (-1, s)) ∧
    (∀ (i : Nat) (u : user_record), read_user_by_username s.users name = some (i, u) →
      db_set_user_active s name active =
        (0, { s with
              users := s.users.set i
                { u with active := if active = 0 then 0 else 1,
                         session_active := if active = 0 then 0 else u.session_active } })) ∧
    (read_user_by_id s.users uid = none →
      db_set_user_active_by_id s uid active = (-1, s)) ∧
    (∀ (i : Nat) (u : user_record), read_user_by_id s.users uid = some (i, u) →
      db_set_user_active_by_id s uid active =
        (0, { s with
              users := s.users.set i
                { u with active := if active = 0 then 0 else 1,
                         session_active := if active = 0 then 0 else u.session_active } })) ∧
    ((db_set_user_active s name active).1 ≠ 0 ↔
      ∀ x ∈ s.users, strncmp x.username name USERNAME_MAX ≠ 0) ∧
    ((db_set_user_active_by_id s uid active).1 ≠ 0 ↔ ∀ x ∈ s.users, x.id ≠ uid) := by
  refine ⟨?_, ?_, ?_, ?_, ?_, ?_⟩
  · intro h; unfold db_set_user_active; rw [h]
  · intro i u h; unfold db_set_user_active; rw [h]
    by_cases ha : active = 0 <;> simp [ha, journal_write_and_sync_eq]
  · intro h; unfold db_set_user_active_by_id; rw [h]
  · intro i u h; unfold db_set_user_active_by_id; rw [h]
    by_cases ha : active = 0 <;> simp [ha]
  · unfold db_set_user_active
    cases h : read_user_by_username s.users name with
    | none =>
      have hnone := (scan_records_none _ _ _).mp h
      constructor
      · intro _ x hx
        have := hnone x hx
        simpa using this
      · intro _; simp
    | some iu =>
      obtain ⟨i, u⟩ := iu
      have hg := scan_records_get _ _ _ _ h
      simp only [journal_write_and_sync_eq, ne_eq, not_true_eq_false, if_false, false_iff]
      intro hall
      have hm : u ∈ s.users := List.mem_iff_getElem?.mpr ⟨i, hg.1⟩
      have := hall u hm
      simp at hg
      exact this hg.2
  · unfold db_set_user_active_by_id
    cases h : read_user_by_id s.users uid with
    | none =>
      have hnone := (scan_records_none _ _ _).mp h
      constructor
      · intro _ x hx
        have := hnone x hx
        simpa using this
      · intro _; simp
    | some iu =>
      obtain ⟨i, u⟩ := iu
      have hg := scan_records_get _ _ _ _ h
      simp only [ne_eq, not_true_eq_false, false_iff]
      intro hall
      have hm : u ∈ s.users := List.mem_iff_getElem?.mpr ⟨i, hg.1⟩
      have := hall u hm
      simp at hg
      exact this hg.2

theorem set_user_active_frame_witness :
    db_set_user_active store_alice_logged_in "alice".toList 0 =
      (0, { store_alice_logged_in with
            users := store_alice_logged_in.users.set 1
              { id := 2, role := 1, active := 0, session_active := 0,
                username := text_buf 64 "alice", password := text_buf 128 "pw1" } }) ∧
    db_set_user_active_by_id store_alice_logged_in 2 5 =
      (0, { store_alice_logged_in with
            users := store_alice_logged_in.users.set 1
              { id := 2, role := 1, active := 1, session_active := 1,
                username := text_buf 64 "alice", password := text_buf 128 "pw1" } }) :=
  ⟨(set_user_active_frame store_alice_logged_in "alice".toList 2 0).2.1 1
      { id := 2, role := 1, active := 1, session_active := 1,
        username := text_buf 64 "alice", password := text_buf 128 "pw1" } (by decide),
   (set_user_active_frame store_alice_logged_in "alice".toList 2 5).2.2.2.1 1
      { id := 2, role := 1, active := 1, session_active := 1,
        username := text_buf 64 "alice", password := text_buf 128 "pw1" } (by decide)⟩

/-! ## Password change (C22) -/

set_option maxRecDepth 100000 in
/-- C22, as stated, fails for a password of 128 bytes: after
`db_change_password(2, p)` returned 0, `db_login("alice", p)` fails, and the login with
the different password made of the first 127 bytes of `p` succeeds. -/
theorem change_password_long_counterexample :
    (db_change_password store_alice 2 long_password).1 = 0 ∧
    (db_login (db_change_password store_alice 2 long_password).2 "alice".toList long_password).1
      = -1 ∧
    List.replicate 127 'b' ≠ long_password ∧
    (db_login (db_change_password store_alice 2 long_password).2 "alice".toList
      (List.replicate 127 'b')).1 = 0 := by
  decide

/-- The text stored by `db_change_password` is the new password cut at 127 bytes. -/
theorem cstr_change_password (old p : List Char) :
    cstr ((strncpy old p (PASSWORD_MAX - 1)).set (PASSWORD_MAX - 1) nul) =
      (cstr p).take (PASSWORD_MAX - 1) := by
  unfold strncpy
  generalize hT : (cstr p).take (PASSWORD_MAX - 1) = T
  have hTlen : T.length ≤ PASSWORD_MAX - 1 := by rw [← hT]; exact List.length_take_le _ _
  have hTnul : ∀ c ∈ T, c ≠ nul := by
    intro c hc
    rw [← hT] at hc
    exact mem_cstr_ne_nul p c (List.mem_of_mem_take hc)
  have hlen : (T ++ List.replicate (PASSWORD_MAX - 1 - T.length) nul).length = PASSWORD_MAX - 1 := by
    rw [List.length_append, List.length_replicate]; omega
  rw [List.set_append_right _ _ (by rw [hlen]), hlen, Nat.sub_self, List.append_assoc]
  unfold cstr
  rw [List.takeWhile_append_of_pos]
  · have htail : List.takeWhile (fun c => c != nul)
        (List.replicate (PASSWORD_MAX - 1 - T.length) nul ++ (List.drop (PASSWORD_MAX - 1) old).set 0 nul)
          = [] := by
      cases hk : PASSWORD_MAX - 1 - T.length with
      | zero =>
        cases hd : List.drop (PASSWORD_MAX - 1) old with
        | nil => simp
        | cons x xs => simp
      | succ k => simp [List.replicate_succ]
    rw [htail, List.append_nil]
  · intro a ha
    have := hTnul a ha
    simpa using this

/-- C22, amended to passwords of at most 127 bytes: when user id `uid` and username
`name` resolve to the same record, which is active and has no open session, then
`db_change_password(uid, p)` returns 0, afterwards `db_login(name, p)` succeeds, and
`db_login(name, q)` fails for every `q` whose text differs from that of `p`. -/
theorem change_password_then_login (s : Store) (uid : Int) (name p : List Char) (i : Nat)
    (u : user_record)
    (hid : read_user_by_id s.users uid = some (i, u))
    (hname : read_user_by_username s.users name = some (i, u))
    (hact : u.active ≠ 0) (hsess : u.session_active = 0)
    (hlen : (cstr p).length < PASSWORD_MAX) :
    (db_change_password s uid p).1 = 0 ∧
    (db_login (db_change_password s uid p).2 name p).1 = 0 ∧
    ∀ q, cstr q ≠ cstr p → (db_login (db_change_password s uid p).2 name q).1 = -1 := by
  have hrun : db_change_password s uid p =
      (0, { s with
            users := s.users.set i
              { u with password :=
                  (strncpy u.password p (PASSWORD_MAX - 1)).set (PASSWORD_MAX - 1) nul } }) := by
    unfold db_change_password
    rw [hid]
    simp [journal_write_and_sync_eq]
  have hstored : cstr ((strncpy u.password p (PASSWORD_MAX - 1)).set (PASSWORD_MAX - 1) nul) =
      cstr p := by
    rw [cstr_change_password, List.take_of_length_le]
    unfold PASSWORD_MAX at *
    omega
  have hfind : read_user_by_username (db_change_password s uid p).2.users name =
      some (i, { u with password :=
                  (strncpy u.password p (PASSWORD_MAX - 1)).set (PASSWORD_MAX - 1) nul }) := by
    rw [hrun]
    exact scan_records_set_self _ _ i u _ hname rfl
  have hmatch : ∀ q, strncmp ((strncpy u.password p (PASSWORD_MAX - 1)).set (PASSWORD_MAX - 1) nul)
      q PASSWORD_MAX = 0 ↔ cstr p = cstr q := by
    intro q
    rw [strncmp_eq_zero_iff, take_cstr_eq_iff _ _ _ (by rw [hstored]; exact hlen), hstored]
  refine ⟨by rw [hrun], ?_, ?_⟩
  · rw [db_login_found _ name p i _ hfind]
    simp [hact, hsess, (hmatch p).mpr rfl]
  · intro q hq
    rw [db_login_found _ name q i _ hfind]
    have : strncmp ((strncpy u.password p (PASSWORD_MAX - 1)).set (PASSWORD_MAX - 1) nul)
        q PASSWORD_MAX ≠ 0 := fun h => hq ((hmatch q).mp h).symm
    simp [this]

theorem change_password_then_login_witness :
    (db_change_password store_alice 2 "pw2".toList).1 = 0 ∧
    (db_login (db_change_password store_alice 2 "pw2".toList).2 "alice".toList "pw2".toList).1 = 0 ∧
    (db_login (db_change_password store_alice 2 "pw2".toList).2 "alice".toList "pw1".toList).1 = -1 :=
  have h := change_password_then_login store_alice 2 "alice".toList "pw2".toList 1
    { id := 2, role := 1, active := 1, session_active := 0,
      username := text_buf 64 "alice", password := text_buf 128 "pw1" }
    (by decide) (by decide) (by decide) (by decide) (by decide)
  ⟨h.1, h.2.1, h.2.2 "pw1".toList (by decide)⟩

/-! ## Transaction history (C23) -/

/-- C23 fails on a log holding a line of account 10001: the history of account 1000, by
account number and by its owner, user 2, sends that line as well, since the text
`acct=1000` occurs in `acct=10001`. -/
theorem history_includes_longer_account_number (local_time : Int → String) :
    db_send_history_by_account local_time store_accounts_1000_10001 1000 =
      (0, [snprintf 1024 (local_time 7 ++ "|acct=1000|DEPOSIT|amt=5|bal=5|-\n"),
           snprintf 1024 (local_time 8 ++ "|acct=10001|DEPOSIT|amt=9|bal=9|-\n")]) ∧
    db_send_history local_time store_accounts_1000_10001 2 =
      (0, [snprintf 1024 (local_time 7 ++ "|acct=1000|DEPOSIT|amt=5|bal=5|-\n"),
           snprintf 1024 (local_time 8 ++ "|acct=10001|DEPOSIT|amt=9|bal=9|-\n")]) := by
  constructor <;> rfl

/-! ## Transfers: log lines, balances and frame (C24, C26, C28) -/

/-- The result of `wrap64` is representable. -/
theorem wrap64_in_int64 (x : Int) : in_int64 (wrap64 x) := by
  unfold in_int64 wrap64 INT64_MIN INT64_MAX
  omega

/-- The two outcomes of `db_transfer_to_account`: refusal with the store untouched, or
both records rewritten and two lines appended. -/
theorem db_transfer_to_account_cases (s : Store) (now1 now2 u d a : Int) :
    db_transfer_to_account s now1 now2 u d a = (-1, s) ∨
    ∃ (i j : Nat) (src dst : account_record),
      read_account_by_user s.accounts u = some (i, src) ∧
      read_account_by_account_number s.accounts d = some (j, dst) ∧
      src.account_number ≠ dst.account_number ∧ 0 < a ∧ a ≤ src.balance ∧
      db_transfer_to_account s now1 now2 u d a =
        (0, { s with
              accounts := (s.accounts.set i { src with balance := wrap64 (src.balance - a) }).set j
                { dst with balance := wrap64 (dst.balance + a) },
              txn_log := append_txn
                (append_txn s.txn_log now1 src.account_number "TRANSFER_OUT" a
                  (wrap64 (src.balance - a)) (some ("to=" ++ toString dst.account_number)))
                now2 dst.account_number "TRANSFER_IN" a (wrap64 (dst.balance + a))
                (some ("from=" ++ toString src.account_number)) }) := by
  unfold db_transfer_to_account transfer_prepare
  by_cases h0 : a ≤ 0
  · left; simp [h0]
  · cases hr : read_account_by_user s.accounts u with
    | none => left; simp [h0]
    | some ia =>
      obtain ⟨i, src⟩ := ia
      cases hd : read_account_by_account_number s.accounts d with
      | none => left; simp [h0]
      | some jd =>
        obtain ⟨j, dst⟩ := jd
        by_cases hs : src.account_number = dst.account_number
        · left; simp [h0, hs]
        · by_cases hb : src.balance < a
          · left; simp [h0, hs, hb]
          · right
            refine ⟨i, j, src, dst, rfl, rfl, hs, Int.not_le.mp h0, Int.not_lt.mp hb, ?_⟩
            simp [h0, hs, hb, journal_write_and_sync_eq]

/-- The two outcomes of `db_withdraw`. -/
theorem db_withdraw_cases (s : Store) (now u a : Int) :
    db_withdraw s now u a = (-1, s, none) ∨
    ∃ (i : Nat) (acc : account_record),
      read_account_by_user s.accounts u = some (i, acc) ∧ 0 < a ∧ a ≤ acc.balance ∧
      (db_withdraw s now u a).1 = 0 ∧
      (db_withdraw s now u a).2.1.accounts =
        s.accounts.set i { acc with balance := wrap64 (acc.balance - a) } := by
  unfold db_withdraw
  by_cases h0 : a ≤ 0
  · left; simp [h0]
  · cases hr : read_account_by_user s.accounts u with
    | none => left; simp [h0]
    | some ia =>
      obtain ⟨i, acc⟩ := ia
      by_cases hb : acc.balance < a
      · left; simp [h0, hb]
      · right
        refine ⟨i, acc, rfl, Int.not_le.mp h0, Int.not_lt.mp hb, ?_⟩
        simp [h0, hb, journal_write_and_sync_eq]

set_option maxRecDepth 100000 in
/-- C24, as stated, fails twice.  For a note of 600 bytes the text written by
`append_txn` is cut to 511 bytes and is not the full formatted line.  And when the clock
advances between the two `append_txn` calls of a transfer, the two lines do not carry
one common time. -/
theorem transfer_log_counterexample :
    append_txn [] 7 1000 "DEPOSIT" 1 1 (some long_note) ≠
      ["7|acct=1000|DEPOSIT|amt=1|bal=1|" ++ long_note ++ "\n"] ∧
    (append_txn [] 7 1000 "DEPOSIT" 1 1 (some long_note)).map String.length = [511] ∧
    (db_transfer_to_account store_two_accounts 7 8 2 1001 80).1 = 0 ∧
    (db_transfer_to_account store_two_accounts 7 8 2 1001 80).2.txn_log =
      ["7|acct=1000|TRANSFER_OUT|amt=80|bal=120|to=1001\n",
       "8|acct=1001|TRANSFER_IN|amt=80|bal=130|from=1000\n"] := by
  decide

/-- C24, amended: a failed `db_transfer_to_account` leaves the store, and so the log, as
it was; a successful one, from source account `s` to destination account `d`, leaves the
log as it was followed by exactly two lines, `t1|acct=s|TRANSFER_OUT|amt=a|bal=b1|to=d`
and `t2|acct=d|TRANSFER_IN|amt=a|bal=c1|from=s`, where `b1` and `c1` are the balances
written to the two records and `t1`, `t2` are the clock readings of the two `append_txn`
calls; and `append_txn` appends the line `<ts>|acct=<n>|<KIND>|amt=<amount>|bal=<balance>|<note>`,
with note `-` when absent, for every input whose line is shorter than 512 bytes. -/
theorem transfer_log_lines (s : Store) (now1 now2 u d a : Int)
    (hnow1 : in_int64 now1) (hnow2 : in_int64 now2)
    (htyped : ∀ x ∈ s.accounts, in_int64 x.account_number ∧ in_int64 x.balance) :
    ((db_transfer_to_account s now1 now2 u d a).1 ≠ 0 →
      (db_transfer_to_account s now1 now2 u d a).2 = s) ∧
    ((db_transfer_to_account s now1 now2 u d a).1 = 0 →
      ∃ (i j : Nat) (src dst : account_record) (b1 c1 : Int),
        read_account_by_user s.accounts u = some (i, src) ∧
        read_account_by_account_number s.accounts d = some (j, dst) ∧
        dst.account_number = d ∧
        (db_transfer_to_account s now1 now2 u d a).2.accounts =
          (s.accounts.set i { src with balance := b1 }).set j { dst with balance := c1 } ∧
        (db_transfer_to_account s now1 now2 u d a).2.txn_log = s.txn_log ++
          [toString now1 ++ "|acct=" ++ toString src.account_number ++ "|" ++ "TRANSFER_OUT" ++
             "|amt=" ++ toString a ++ "|bal=" ++ toString b1 ++ "|" ++
             ("to=" ++ toString dst.account_number) ++ "\n",
           toString now2 ++ "|acct=" ++ toString dst.account_number ++ "|" ++ "TRANSFER_IN" ++
             "|amt=" ++ toString a ++ "|bal=" ++ toString c1 ++ "|" ++
             ("from=" ++ toString src.account_number) ++ "\n"]) ∧
    (∀ (log : List String) (now n : Int) (kind : String) (amount bal : Int) (note : Option String),
      (toString now ++ "|acct=" ++ toString n ++ "|" ++ kind ++ "|amt=" ++ toString amount ++
        "|bal=" ++ toString bal ++ "|" ++ note.getD "-" ++ "\n").length < 512 →
      append_txn log now n kind amount bal note =
        log ++ [toString now ++ "|acct=" ++ toString n ++ "|" ++ kind ++ "|amt=" ++
          toString amount ++ "|bal=" ++ toString bal ++ "|" ++ note.getD "-" ++ "\n"]) := by
  refine ⟨?_, ?_, ?_⟩
  · intro hrc
    rcases db_transfer_to_account_cases s now1 now2 u d a with h | ⟨i, j, src, dst, -, -, -, -, -, h⟩
    · rw [h]
    · rw [h] at hrc; exact absurd rfl hrc
  · intro hrc
    rcases db_transfer_to_account_cases s now1 now2 u d a with h |
      ⟨i, j, src, dst, hsrc, hdst, -, hpos, hle, h⟩
    · rw [h] at hrc; simp at hrc
    · have hsg := scan_records_get _ _ _ _ hsrc
      have hdg := scan_records_get _ _ _ _ hdst
      have hsm : src ∈ s.accounts := List.mem_iff_getElem?.mpr ⟨i, hsg.1⟩
      have hdm : dst ∈ s.accounts := List.mem_iff_getElem?.mpr ⟨j, hdg.1⟩
      have hdn : dst.account_number = d := by simpa using hdg.2
      have ha : in_int64 a := by
        have := (htyped src hsm).2
        unfold in_int64 INT64_MIN INT64_MAX at *
        omega
      have hlen1 : ("to=" ++ toString dst.account_number).length ≤ 23 := by
        rw [String.length_append]
        have := toString_int_length_le _ (htyped dst hdm).1
        have e : "to=".length = 3 := rfl
        omega
      have hlen2 : ("from=" ++ toString src.account_number).length ≤ 25 := by
        rw [String.length_append]
        have := toString_int_length_le _ (htyped src hsm).1
        have e : "from=".length = 5 := rfl
        omega
      refine ⟨i, j, src, dst, wrap64 (src.balance - a), wrap64 (dst.balance + a), hsrc, hdst, hdn,
        by rw [h], ?_⟩
      rw [h]
      show append_txn (append_txn s.txn_log now1 src.account_number "TRANSFER_OUT" a
          (wrap64 (src.balance - a)) (some ("to=" ++ toString dst.account_number)))
        now2 dst.account_number "TRANSFER_IN" a (wrap64 (dst.balance + a))
        (some ("from=" ++ toString src.account_number)) = _
      rw [append_txn_fits _ now1 _ _ _ _ _ hnow1 (htyped src hsm).1 ha (wrap64_in_int64 _)
          (by
            have e : "TRANSFER_OUT".length = 12 := rfl
            show "TRANSFER_OUT".length + ("to=" ++ toString dst.account_number).length ≤ 400
            omega),
        append_txn_fits _ now2 _ _ _ _ _ hnow2 (htyped dst hdm).1 ha (wrap64_in_int64 _)
          (by
            have e : "TRANSFER_IN".length = 11 := rfl
            show "TRANSFER_IN".length + ("from=" ++ toString src.account_number).length ≤ 400
            omega)]
      simp
  · intro log now n kind amount bal note hlen
    unfold append_txn
    rw [snprintf_of_length_lt _ _ hlen]

theorem transfer_log_lines_witness :
    (db_transfer_to_account store_two_accounts 7 8 2 1001 80).1 = 0 ∧
    (∃ (i j : Nat) (src dst : account_record) (b1 c1 : Int),
        read_account_by_user store_two_accounts.accounts 2 = some (i, src) ∧
        read_account_by_account_number store_two_accounts.accounts 1001 = some (j, dst) ∧
        dst.account_number = 1001 ∧
        (db_transfer_to_account store_two_accounts 7 8 2 1001 80).2.accounts =
          (store_two_accounts.accounts.set i { src with balance := b1 }).set j
            { dst with balance := c1 } ∧
        (db_transfer_to_account store_two_accounts 7 8 2 1001 80).2.txn_log =
          store_two_accounts.txn_log ++
          [toString (7 : Int) ++ "|acct=" ++ toString src.account_number ++ "|" ++ "TRANSFER_OUT" ++
             "|amt=" ++ toString (80 : Int) ++ "|bal=" ++ toString b1 ++ "|" ++
             ("to=" ++ toString dst.account_number) ++ "\n",
           toString (8 : Int) ++ "|acct=" ++ toString dst.account_number ++ "|" ++ "TRANSFER_IN" ++
             "|amt=" ++ toString (80 : Int) ++ "|bal=" ++ toString c1 ++ "|" ++
             ("from=" ++ toString src.account_number) ++ "\n"]) :=
  ⟨by decide,
   (transfer_log_lines store_two_accounts 7 8 2 1001 80 (by decide) (by decide)
      (by decide)).2.1 (by decide)⟩

/-- C26, as stated, fails for transfers: all balances are non-negative, the transfer of
1 to the account holding `2^63 - 1` returns 0, and the destination balance afterwards is
`-2^63`. -/
theorem transfer_negative_balance_counterexample :
    (∀ x ∈ store_full_destination.accounts, 0 ≤ x.balance) ∧
    (db_transfer_to_account store_full_destination 7 7 2 1001 1).1 = 0 ∧
    (db_transfer_to_account store_full_destination 7 7 2 1001 1).2.accounts =
      [{ id := 1, user_id := 2, account_number := 1000, balance := 0 },
       { id := 2, user_id := 3, account_number := 1001, balance := -9223372036854775808 }] ∧
    ¬ ∀ x ∈ (db_transfer_to_account store_full_destination 7 7 2 1001 1).2.accounts,
        0 ≤ x.balance := by
  decide

/-- C26, amended: on an accounts table whose balances are non-negative `long long`
values, every balance is still non-negative after a successful `db_withdraw` with any
amount, and after a successful `db_transfer_to_account` with any amount for which the
destination balance plus the amount does not exceed `2^63 - 1`. -/
theorem balances_stay_nonnegative (s : Store) (now1 now2 u d a : Int)
    (hbal : ∀ x ∈ s.accounts, 0 ≤ x.balance ∧ x.balance ≤ INT64_MAX) :
    ((db_withdraw s now1 u a).1 = 0 →
      ∀ x ∈ (db_withdraw s now1 u a).2.1.accounts, 0 ≤ x.balance) ∧
    ((db_transfer_to_account s now1 now2 u d a).1 = 0 →
      (∀ (j : Nat) (dst : account_record),
        read_account_by_account_number s.accounts d = some (j, dst) →
          dst.balance + a ≤ INT64_MAX) →
      ∀ x ∈ (db_transfer_to_account s now1 now2 u d a).2.accounts, 0 ≤ x.balance) := by
  constructor
  · intro hrc x hx
    rcases db_withdraw_cases s now1 u a with h | ⟨i, acc, hacc, hpos, hle, -, hacc1⟩
    · rw [h] at hrc; simp at hrc
    · rw [hacc1] at hx
      have hm : acc ∈ s.accounts :=
        List.mem_iff_getElem?.mpr ⟨i, (scan_records_get _ _ _ _ hacc).1⟩
      rcases List.mem_or_eq_of_mem_set hx with hx | rfl
      · exact (hbal x hx).1
      · have hb := hbal acc hm
        have hw : wrap64 (acc.balance - a) = acc.balance - a := by
          apply wrap64_of_in_int64
          unfold in_int64 INT64_MIN INT64_MAX at *
          omega
        show 0 ≤ wrap64 (acc.balance - a)
        rw [hw]; omega
  · intro hrc hno x hx
    rcases db_transfer_to_account_cases s now1 now2 u d a with h |
      ⟨i, j, src, dst, hsrc, hdst, -, hpos, hle, h⟩
    · rw [h] at hrc; simp at hrc
    · rw [h] at hx
      have hsm : src ∈ s.accounts :=
        List.mem_iff_getElem?.mpr ⟨i, (scan_records_get _ _ _ _ hsrc).1⟩
      have hdm : dst ∈ s.accounts :=
        List.mem_iff_getElem?.mpr ⟨j, (scan_records_get _ _ _ _ hdst).1⟩
      have hb := hbal src hsm
      have hc := hbal dst hdm
      have hcs := hno j dst hdst
      have hw1 : wrap64 (src.balance - a) = src.balance - a := by
        apply wrap64_of_in_int64
        unfold in_int64 INT64_MIN INT64_MAX at *
        omega
      have hw2 : wrap64 (dst.balance + a) = dst.balance + a := by
        apply wrap64_of_in_int64
        unfold in_int64 INT64_MIN INT64_MAX at *
        omega
      rcases List.mem_or_eq_of_mem_set hx with hx | rfl
      · rcases List.mem_or_eq_of_mem_set hx with hx | rfl
        · exact (hbal x hx).1
        · show 0 ≤ wrap64 (src.balance - a)
          rw [hw1]; omega
      · show 0 ≤ wrap64 (dst.balance + a)
        rw [hw2]; omega

theorem balances_stay_nonnegative_witness :
    (∀ x ∈ (db_withdraw store_two_accounts 7 2 80).2.1.accounts, 0 ≤ x.balance) ∧
    (∀ x ∈ (db_transfer_to_account store_two_accounts 7 8 2 1001 80).2.accounts, 0 ≤ x.balance) :=
  ⟨(balances_stay_nonnegative store_two_accounts 7 8 2 1001 80 (by decide)).1 (by decide),
   (balances_stay_nonnegative store_two_accounts 7 8 2 1001 80 (by decide)).2 (by decide)
     (fun j dst h => by
       have hd : read_account_by_account_number store_two_accounts.accounts 1001 =
           some (1, { id := 2, user_id := 3, account_number := 1001, balance := 50 }) := by decide
       rw [hd] at h
       cases h
       decide)⟩

/-- Overwriting one record changes the sum of balances by the difference of the two
balances. -/
theorem total_balance_set : ∀ (l : List account_record) (i : Nat) (r r1 : account_record),
    l[i]? = some r → total_balance (l.set i r1) = total_balance l - r.balance + r1.balance := by
  intro l
  induction l with
  | nil => intro i r r1 h; simp at h
  | cons x xs ih =>
    intro i r r1 h
    cases i with
    | zero =>
      simp at h
      subst h
      simp only [total_balance, List.set_cons_zero, List.map_cons, List.sum_cons]
      omega
    | succ i =>
      simp at h
      have := ih i r r1 h
      simp only [total_balance, List.set_cons_succ, List.map_cons, List.sum_cons] at this ⊢
      rw [this]
      omega

/-- C28: a successful `db_transfer_to_account` on a table of `long long` balances, the
destination balance plus the amount not exceeding `2^63 - 1`, rewrites the source record
(position `i`) and the destination record (position `j ≠ i`) with balances `b - a` and
`c + a`, both different from before, all other fields kept; every other position holds
the record it held before; the number of records and the sum of all balances are as
before. -/
theorem transfer_frame (s : Store) (now1 now2 u d a : Int)
    (hrc : (db_transfer_to_account s now1 now2 u d a).1 = 0)
    (hbal : ∀ x ∈ s.accounts, in_int64 x.balance)
    (hno : ∀ (j : Nat) (dst : account_record),
      read_account_by_account_number s.accounts d = some (j, dst) → dst.balance + a ≤ INT64_MAX) :
    ∃ (i j : Nat) (src dst : account_record),
      read_account_by_user s.accounts u = some (i, src) ∧
      read_account_by_account_number s.accounts d = some (j, dst) ∧
      i ≠ j ∧
      (db_transfer_to_account s now1 now2 u d a).2.accounts[i]? =
        some { src with balance := src.balance - a } ∧
      (db_transfer_to_account s now1 now2 u d a).2.accounts[j]? =
        some { dst with balance := dst.balance + a } ∧
      src.balance - a ≠ src.balance ∧ dst.balance + a ≠ dst.balance ∧
      (∀ k, k ≠ i → k ≠ j →
        (db_transfer_to_account s now1 now2 u d a).2.accounts[k]? = s.accounts[k]?) ∧
      (db_transfer_to_account s now1 now2 u d a).2.accounts.length = s.accounts.length ∧
      total_balance (db_transfer_to_account s now1 now2 u d a).2.accounts =
        total_balance s.accounts := by
  rcases db_transfer_to_account_cases s now1 now2 u d a with h |
    ⟨i, j, src, dst, hsrc, hdst, hne, hpos, hle, h⟩
  · rw [h] at hrc; simp at hrc
  · have hsg := (scan_records_get _ _ _ _ hsrc).1
    have hdg := (scan_records_get _ _ _ _ hdst).1
    have hsm : src ∈ s.accounts := List.mem_iff_getElem?.mpr ⟨i, hsg⟩
    have hdm : dst ∈ s.accounts := List.mem_iff_getElem?.mpr ⟨j, hdg⟩
    have hb := hbal src hsm
    have hc := hbal dst hdm
    have hcs := hno j dst hdst
    have hw1 : wrap64 (src.balance - a) = src.balance - a := by
      apply wrap64_of_in_int64
      unfold in_int64 INT64_MIN INT64_MAX at *
      omega
    have hw2 : wrap64 (dst.balance + a) = dst.balance + a := by
      apply wrap64_of_in_int64
      unfold in_int64 INT64_MIN INT64_MAX at *
      omega
    have hij : i ≠ j := by
      intro hEq; subst hEq
      rw [hsg] at hdg
      exact hne (by rw [Option.some.inj hdg])
    have hi : i < s.accounts.length := (List.getElem?_eq_some_iff.mp hsg).1
    have hj : j < s.accounts.length := (List.getElem?_eq_some_iff.mp hdg).1
    have hacc : (db_transfer_to_account s now1 now2 u d a).2.accounts =
        (s.accounts.set i { src with balance := src.balance - a }).set j
          { dst with balance := dst.balance + a } := by
      rw [h, hw1, hw2]
    have hgetj : (s.accounts.set i { src with balance := src.balance - a })[j]? = some dst := by
      rw [List.getElem?_set_ne hij]; exact hdg
    refine ⟨i, j, src, dst, hsrc, hdst, hij, ?_, ?_, by omega, by omega, ?_, ?_, ?_⟩
    · rw [hacc, List.getElem?_set_ne (Ne.symm hij), List.getElem?_set_self (by simpa using hi)]
    · rw [hacc, List.getElem?_set_self (by simpa using hj)]
    · intro k hki hkj
      rw [hacc, List.getElem?_set_ne (Ne.symm hkj), List.getElem?_set_ne (Ne.symm hki)]
    · rw [hacc]; simp
    · rw [hacc, total_balance_set _ j dst _ hgetj, total_balance_set _ i src _ hsg]
      show total_balance s.accounts - src.balance + (src.balance - a) - dst.balance +
        (dst.balance + a) = total_balance s.accounts
      omega

theorem transfer_frame_witness :
    ∃ (i j : Nat) (src dst : account_record),
      read_account_by_user store_two_accounts.accounts 2 = some (i, src) ∧
      read_account_by_account_number store_two_accounts.accounts 1001 = some (j, dst) ∧
      i ≠ j ∧
      (db_transfer_to_account store_two_accounts 7 8 2 1001 80).2.accounts[i]? =
        some { src with balance := src.balance - 80 } ∧
      (db_transfer_to_account store_two_accounts 7 8 2 1001 80).2.accounts[j]? =
        some { dst with balance := dst.balance + 80 } ∧
      src.balance - 80 ≠ src.balance ∧ dst.balance + 80 ≠ dst.balance ∧
      (∀ k, k ≠ i → k ≠ j →
        (db_transfer_to_account store_two_accounts 7 8 2 1001 80).2.accounts[k]? =
          store_two_accounts.accounts[k]?) ∧
      (db_transfer_to_account store_two_accounts 7 8 2 1001 80).2.accounts.length =
        store_two_accounts.accounts.length ∧
      total_balance (db_transfer_to_account store_two_accounts 7 8 2 1001 80).2.accounts =
        total_balance store_two_accounts.accounts :=
  transfer_frame store_two_accounts 7 8 2 1001 80 (by decide) (by decide)
    (fun j dst h => by
      have hd : read_account_by_account_number store_two_accounts.accounts 1001 =
          some (1, { id := 2, user_id := 3, account_number := 1001, balance := 50 }) := by decide
      rw [hd] at h
      cases h
      decide)

/-! ## Loan approval without an account (C29) -/

/-- C29 fails on a loan whose applicant holds no account: approving it returns -1, yet
the loans table now records the loan as Approved, and a further decision is refused
with -5. -/
theorem approve_without_account_changes_loan :
    db_set_loan_status_owned store_loan_no_account 9 1 3 LOAN_APPROVED =
      (-1, { store_loan_no_account with
             loans := [{ id := 1, customer_user_id := 2, assigned_employee_user_id := 3,
                         amount := 500, status := LOAN_APPROVED }] }) ∧
    (db_set_loan_status_owned store_loan_no_account 9 1 3 LOAN_APPROVED).2.loans ≠
      store_loan_no_account.loans ∧
    (db_set_loan_status_owned
      (db_set_loan_status_owned store_loan_no_account 9 1 3 LOAN_APPROVED).2 9 1 3
      LOAN_APPROVED).1 = -5 := by
  decide

/-! ## Substitution loop: termination -/

theorem starts_with_append : ∀ (t rest : List Char), starts_with (t ++ rest) t = true := by
  intro t
  induction t with
  | nil => intro rest; cases rest <;> rfl
  | cons x xs ih => intro rest; simp [starts_with, ih]

/-- In a line `7|acct=1...` the tag `acct=1` is found at position 2. -/
theorem strstr_tag_one (rest : List Char) :
    strstr ("7|".toList ++ acct_tag 1 ++ rest) (acct_tag 1) = some 2 := by
  have ht : acct_tag 1 = ['a', 'c', 'c', 't', '=', '1'] := by decide
  have h7 : "7|".toList = ['7', '|'] := rfl
  rw [ht, h7]
  simp [strstr, starts_with]

theorem zeros_one_succ (k : Nat) (rest : List Char) :
    zeros_one k ++ ("001".toList ++ rest) = zeros_one (k + 1) ++ rest := by
  induction k with
  | zero => simp [zeros_one]
  | succ k ih =>
    have h1 : ∀ j, zeros_one (j + 1) = "001".toList ++ zeros_one j := by
      intro j; simp [zeros_one, List.replicate_succ]
    rw [h1 (k + 1), List.append_assoc, ← ih, h1 k, List.append_assoc]

theorem zeros_one_length (k : Nat) : (zeros_one k).length = 3 * k := by
  induction k with
  | zero => rfl
  | succ k ih =>
    have h1 : zeros_one (k + 1) = "001".toList ++ zeros_one k := by
      simp [zeros_one, List.replicate_succ]
    rw [h1, List.length_append, ih]
    have : "001".toList.length = 3 := rfl
    omega

/-- Replacing `acct=1` by `acct=1001` in a line `7|acct=1...`: every replacement leaves
`acct=1` at the same place, so the loop goes on until the 2048-byte bound stops it,
after `k` replacements. -/
theorem replace_tag_loop_prefix : ∀ (k : Nat) (rest : List Char) (fuel : Nat),
    2036 ≤ rest.length + 3 * k → (∀ j, j < k → rest.length + 3 * j < 2036) → k < fuel →
    replace_tag_loop (acct_tag 1) (acct_tag 1001) fuel ("7|".toList ++ acct_tag 1 ++ rest) =
      some ("7|".toList ++ acct_tag 1 ++ (zeros_one k ++ rest)) := by
  have ht : acct_tag 1 = ['a', 'c', 'c', 't', '=', '1'] := by decide
  have hn : acct_tag 1001 = ['a', 'c', 'c', 't', '=', '1', '0', '0', '1'] := by decide
  have h7 : "7|".toList = ['7', '|'] := rfl
  intro k
  induction k with
  | zero =>
    intro rest fuel hlen _ hfuel
    obtain ⟨f, rfl⟩ : ∃ f, fuel = f + 1 := ⟨fuel - 1, by omega⟩
    rw [replace_tag_loop, strstr_tag_one]
    have hguard : 2 + (acct_tag 1001).length +
        (("7|".toList ++ acct_tag 1 ++ rest).length - 2 - (acct_tag 1).length) + 1 ≥ 2048 := by
      rw [ht, hn, h7]
      simp only [List.length_append, List.length_cons, List.length_nil]
      omega
    simp only [hguard, if_true]
    simp [zeros_one]
  | succ k ih =>
    intro rest fuel hlen hmin hfuel
    obtain ⟨f, rfl⟩ : ∃ f, fuel = f + 1 := ⟨fuel - 1, by omega⟩
    rw [replace_tag_loop, strstr_tag_one]
    have h0 := hmin 0 (by omega)
    have hguard : ¬ (2 + (acct_tag 1001).length +
        (("7|".toList ++ acct_tag 1 ++ rest).length - 2 - (acct_tag 1).length) + 1 ≥ 2048) := by
      rw [ht, hn, h7]
      simp only [List.length_append, List.length_cons, List.length_nil]
      omega
    simp only [hguard, if_false]
    have hstep : List.take 2 ("7|".toList ++ acct_tag 1 ++ rest) ++ acct_tag 1001 ++
        List.drop (2 + (acct_tag 1).length) ("7|".toList ++ acct_tag 1 ++ rest) =
        "7|".toList ++ acct_tag 1 ++ ("001".toList ++ rest) := by
      rw [ht, hn, h7]
      simp
    rw [hstep, ih ("001".toList ++ rest) f
      (by
        have : ("001".toList ++ rest).length = rest.length + 3 := by
          rw [List.length_append]; have : "001".toList.length = 3 := rfl; omega
        omega)
      (by
        intro j hj
        have : ("001".toList ++ rest).length = rest.length + 3 := by
          rw [List.length_append]; have : "001".toList.length = 3 := rfl; omega
        have := hmin (j + 1) (by omega)
        omega)
      (by omega), zeros_one_succ]

/-- The rewrite of a log of one line under one remap. -/
theorem rewrite_log_single (fuel : Nat) (r : acct_remap) (ln : String) (out : List Char)
    (h : replace_tag_loop (acct_tag r.old_no) (acct_tag r.new_no) fuel ln.toList = some out) :
    rewrite_log fuel [r] [ln] = some [String.mk out] := by
  simp only [rewrite_log, apply_remaps, h]

/-- A migration run in terms of its first pass and of the rewrite of the log. -/
theorem migrate_of_rewrite (fuel : Nat) (s : Store) (accts : List account_record)
    (remaps : List acct_remap) (log1 : List String)
    (hp : migrate_first_pass s.accounts = (accts, remaps)) (hne : remaps ≠ [])
    (hl : rewrite_log fuel remaps s.txn_log = some log1) :
    migrate_account_numbers_if_needed fuel s =
      some (0, { s with accounts := accts, txn_log := log1 }) := by
  unfold migrate_account_numbers_if_needed
  rw [hp]
  simp only [hne, if_false, hl]

/-- C30 fails for the remap of 1 to 1001, where the old digits begin the new ones.  On
the line `7|acct=1|DEPOSIT|amt=1|bal=1|-` the loop does end, but only at the 2048-byte
bound, after 671 replacements at the same place: the line it leaves is 2044 bytes long
and reads `7|acct=1001001...`, where a single replacement would give the 34 bytes of
`7|acct=1001|DEPOSIT|amt=1|bal=1|-`.  A migration run on the table holding account 1
leaves that line in the log. -/
theorem prefix_remap_replaced_repeatedly (fuel : Nat) :
    replace_tag_loop (acct_tag 1) (acct_tag 1001) (fuel + 672)
        "7|acct=1|DEPOSIT|amt=1|bal=1|-\n".toList =
      some ("7|acct=1".toList ++ zeros_one 671 ++ "|DEPOSIT|amt=1|bal=1|-\n".toList) ∧
    ("7|acct=1".toList ++ zeros_one 671 ++ "|DEPOSIT|amt=1|bal=1|-\n".toList).length = 2044 ∧
    "7|acct=1001|DEPOSIT|amt=1|bal=1|-\n".toList.length = 34 ∧
    replace_tag_loop (acct_tag 1) (acct_tag 1001) 2
        "7|acct=1|DEPOSIT|amt=1|bal=1|-\n".toList = none ∧
    migrate_account_numbers_if_needed (fuel + 672) store_legacy_one =
      some (0, { store_legacy_one with
                 accounts := [{ id := 1, user_id := 2, account_number := 1001, balance := 1 }],
                 txn_log := [String.mk ("7|acct=1".toList ++ zeros_one 671 ++
                   "|DEPOSIT|amt=1|bal=1|-\n".toList)] }) := by
  have hloop : replace_tag_loop (acct_tag 1) (acct_tag 1001) (fuel + 672)
        "7|acct=1|DEPOSIT|amt=1|bal=1|-\n".toList =
      some ("7|acct=1".toList ++ zeros_one 671 ++ "|DEPOSIT|amt=1|bal=1|-\n".toList) := by
    have hline : "7|acct=1|DEPOSIT|amt=1|bal=1|-\n".toList =
        "7|".toList ++ acct_tag 1 ++ "|DEPOSIT|amt=1|bal=1|-\n".toList := by decide
    have hout : "7|acct=1".toList = "7|".toList ++ acct_tag 1 := by decide
    have hrest : "|DEPOSIT|amt=1|bal=1|-\n".toList.length = 23 := by decide
    rw [hline, hout, List.append_assoc ("7|".toList ++ acct_tag 1)]
    exact replace_tag_loop_prefix 671 _ (fuel + 672) (by rw [hrest]) 
      (by intro j hj; rw [hrest]; omega) (by omega)
  refine ⟨hloop, ?_, by decide, by decide, ?_⟩
  · rw [List.length_append, List.length_append, zeros_one_length]
    have h1 : "7|acct=1".toList.length = 8 := by decide
    have h2 : "|DEPOSIT|amt=1|bal=1|-\n".toList.length = 23 := by decide
    omega
  · have hpass : migrate_first_pass store_legacy_one.accounts =
        ([{ id := 1, user_id := 2, account_number := 1001, balance := 1 }],
         [{ old_no := 1, new_no := 1001 }]) := by decide
    have hlog : rewrite_log (fuel + 672) [{ old_no := 1, new_no := 1001 }]
        store_legacy_one.txn_log = some [String.mk ("7|acct=1".toList ++ zeros_one 671 ++
          "|DEPOSIT|amt=1|bal=1|-\n".toList)] :=
      rewrite_log_single _ _ _ _ hloop
    exact migrate_of_rewrite _ _ _ _ _ hpass (by simp) hlog

end Bank
